import Mathlib

/-!
Formal model of the Vais language front end (src/parser/lexer.py,
src/parser/parser.py, src/parser/ast_nodes.py, src/parser/validator.py):
a lexer, a recursive-descent parser and a semantic validator for the
nine-block "unit description" language, together with theorems settling
the specification's claims about them.

Modelling conventions.
* Python strings are Lean `String`s; the lexer walks the remaining
  character list (`List Char`) instead of an index `pos` into a fixed
  string — `source[pos:]` — which is equivalent because `pos` only grows.
  Python's Unicode-aware `isalnum`/`isdigit`/`isalpha` are modelled by the
  ASCII `Char.isAlphanum`/`Char.isDigit`/`Char.isAlpha` (the language's
  lexical grammar is ASCII).
* A place where the Python code would raise an unplanned exception
  (`TypeError` from `value += None` in `read_string`/`read_regex` when an
  escape reaches end of input) is modelled as an `Except.error`.
* Loops whose bound is not structural take an explicit `fuel : Nat`;
  callers pass a fuel larger than any possible number of iterations, and
  an exhausted fuel is a distinguished error value, never a silent result.
* The parser's token cursor (`self.pos` into `self.tokens`, where
  `advance` never moves past the last token) is modelled by the remaining
  token list; `current`/`peek`/`advance` clamp at the final token exactly
  as the Python code clamps at `tokens[-1]`.
-/

namespace Vais

/-- Token kinds of the Vais lexer: one constructor per member of the Python
enum TokenType in src/parser/lexer.py, in source order. -/
inductive TokenType where
  | UNIT
  | META
  | ENDMETA
  | INPUT
  | ENDINPUT
  | OUTPUT
  | ENDOUTPUT
  | INTENT
  | ENDINTENT
  | CONSTRAINT
  | ENDCONSTRAINT
  | FLOW
  | ENDFLOW
  | EXECUTION
  | ENDEXECUTION
  | VERIFY
  | ENDVERIFY
  | END
  | FUNCTION
  | SERVICE
  | PIPELINE
  | MODULE
  | DOMAIN
  | DETERMINISM
  | IDEMPOTENT
  | PURE
  | TIMEOUT
  | RETRY
  | GOAL
  | PRIORITY
  | ON_FAILURE
  | TRANSFORM
  | VALIDATE
  | AGGREGATE
  | FILTER
  | ROUTE
  | COMPOSE
  | FETCH
  | CORRECTNESS
  | PERFORMANCE
  | MEMORY
  | LATENCY
  | THROUGHPUT
  | ABORT
  | FALLBACK
  | DEFAULT
  | REQUIRE
  | FORBID
  | PREFER
  | INVARIANT
  | WITHIN
  | NODE
  | EDGE
  | WHEN
  | MAP
  | REDUCE
  | SPLIT
  | MERGE
  | BRANCH
  | JOIN
  | RACE
  | STORE
  | CALL
  | EMIT
  | SUBSCRIBE
  | SANITIZE
  | AUTHORIZE
  | PARALLEL
  | TARGET
  | ISOLATION
  | CACHE
  | ANY
  | CPU
  | GPU
  | WASM
  | NATIVE
  | BOUNDED
  | UNBOUNDED
  | STACK_ONLY
  | NONE
  | THREAD
  | PROCESS
  | CONTAINER
  | LRU
  | TTL
  | ASSERT
  | PROPERTY
  | POSTCONDITION
  | TEST
  | FORALL
  | EXISTS
  | EVENTUALLY
  | ALWAYS
  | INT
  | INT8
  | INT16
  | INT32
  | INT64
  | UINT
  | UINT8
  | UINT16
  | UINT32
  | UINT64
  | FLOAT32
  | FLOAT64
  | BOOL
  | STRING
  | BYTES
  | VOID
  | ARRAY
  | STRUCT
  | OPTIONAL
  | UNION
  | AND
  | OR
  | XOR
  | NOT
  | IMPLIES
  | IN
  | MATCH
  | LEN
  | CONTAINS
  | RANGE
  | NOW
  | SUM
  | COUNT
  | NUMBER
  | FLOAT
  | STRING_LITERAL
  | BOOLEAN
  | REGEX
  | IDENTIFIER
  | EXTERNAL_REF
  | VERSION
  | COLON
  | COMMA
  | DOT
  | ARROW
  | GT
  | LT
  | GTE
  | LTE
  | EQ
  | NEQ
  | ASSIGN
  | LPAREN
  | RPAREN
  | LBRACKET
  | LBRACE
  | RBRACKET
  | RBRACE
  | PIPE
  | PLUS
  | MINUS
  | STAR
  | SLASH
  | COMMENT
  | NEWLINE
  | EOF
  | UNKNOWN
  deriving DecidableEq, Repr

/-- The Python enum member name of a token type, as used in parser error messages
(Python `token.type.name`). -/
def TokenType.tname : TokenType → String
  | .UNIT => "UNIT"
  | .META => "META"
  | .ENDMETA => "ENDMETA"
  | .INPUT => "INPUT"
  | .ENDINPUT => "ENDINPUT"
  | .OUTPUT => "OUTPUT"
  | .ENDOUTPUT => "ENDOUTPUT"
  | .INTENT => "INTENT"
  | .ENDINTENT => "ENDINTENT"
  | .CONSTRAINT => "CONSTRAINT"
  | .ENDCONSTRAINT => "ENDCONSTRAINT"
  | .FLOW => "FLOW"
  | .ENDFLOW => "ENDFLOW"
  | .EXECUTION => "EXECUTION"
  | .ENDEXECUTION => "ENDEXECUTION"
  | .VERIFY => "VERIFY"
  | .ENDVERIFY => "ENDVERIFY"
  | .END => "END"
  | .FUNCTION => "FUNCTION"
  | .SERVICE => "SERVICE"
  | .PIPELINE => "PIPELINE"
  | .MODULE => "MODULE"
  | .DOMAIN => "DOMAIN"
  | .DETERMINISM => "DETERMINISM"
  | .IDEMPOTENT => "IDEMPOTENT"
  | .PURE => "PURE"
  | .TIMEOUT => "TIMEOUT"
  | .RETRY => "RETRY"
  | .GOAL => "GOAL"
  | .PRIORITY => "PRIORITY"
  | .ON_FAILURE => "ON_FAILURE"
  | .TRANSFORM => "TRANSFORM"
  | .VALIDATE => "VALIDATE"
  | .AGGREGATE => "AGGREGATE"
  | .FILTER => "FILTER"
  | .ROUTE => "ROUTE"
  | .COMPOSE => "COMPOSE"
  | .FETCH => "FETCH"
  | .CORRECTNESS => "CORRECTNESS"
  | .PERFORMANCE => "PERFORMANCE"
  | .MEMORY => "MEMORY"
  | .LATENCY => "LATENCY"
  | .THROUGHPUT => "THROUGHPUT"
  | .ABORT => "ABORT"
  | .FALLBACK => "FALLBACK"
  | .DEFAULT => "DEFAULT"
  | .REQUIRE => "REQUIRE"
  | .FORBID => "FORBID"
  | .PREFER => "PREFER"
  | .INVARIANT => "INVARIANT"
  | .WITHIN => "WITHIN"
  | .NODE => "NODE"
  | .EDGE => "EDGE"
  | .WHEN => "WHEN"
  | .MAP => "MAP"
  | .REDUCE => "REDUCE"
  | .SPLIT => "SPLIT"
  | .MERGE => "MERGE"
  | .BRANCH => "BRANCH"
  | .JOIN => "JOIN"
  | .RACE => "RACE"
  | .STORE => "STORE"
  | .CALL => "CALL"
  | .EMIT => "EMIT"
  | .SUBSCRIBE => "SUBSCRIBE"
  | .SANITIZE => "SANITIZE"
  | .AUTHORIZE => "AUTHORIZE"
  | .PARALLEL => "PARALLEL"
  | .TARGET => "TARGET"
  | .ISOLATION => "ISOLATION"
  | .CACHE => "CACHE"
  | .ANY => "ANY"
  | .CPU => "CPU"
  | .GPU => "GPU"
  | .WASM => "WASM"
  | .NATIVE => "NATIVE"
  | .BOUNDED => "BOUNDED"
  | .UNBOUNDED => "UNBOUNDED"
  | .STACK_ONLY => "STACK_ONLY"
  | .NONE => "NONE"
  | .THREAD => "THREAD"
  | .PROCESS => "PROCESS"
  | .CONTAINER => "CONTAINER"
  | .LRU => "LRU"
  | .TTL => "TTL"
  | .ASSERT => "ASSERT"
  | .PROPERTY => "PROPERTY"
  | .POSTCONDITION => "POSTCONDITION"
  | .TEST => "TEST"
  | .FORALL => "FORALL"
  | .EXISTS => "EXISTS"
  | .EVENTUALLY => "EVENTUALLY"
  | .ALWAYS => "ALWAYS"
  | .INT => "INT"
  | .INT8 => "INT8"
  | .INT16 => "INT16"
  | .INT32 => "INT32"
  | .INT64 => "INT64"
  | .UINT => "UINT"
  | .UINT8 => "UINT8"
  | .UINT16 => "UINT16"
  | .UINT32 => "UINT32"
  | .UINT64 => "UINT64"
  | .FLOAT32 => "FLOAT32"
  | .FLOAT64 => "FLOAT64"
  | .BOOL => "BOOL"
  | .STRING => "STRING"
  | .BYTES => "BYTES"
  | .VOID => "VOID"
  | .ARRAY => "ARRAY"
  | .STRUCT => "STRUCT"
  | .OPTIONAL => "OPTIONAL"
  | .UNION => "UNION"
  | .AND => "AND"
  | .OR => "OR"
  | .XOR => "XOR"
  | .NOT => "NOT"
  | .IMPLIES => "IMPLIES"
  | .IN => "IN"
  | .MATCH => "MATCH"
  | .LEN => "LEN"
  | .CONTAINS => "CONTAINS"
  | .RANGE => "RANGE"
  | .NOW => "NOW"
  | .SUM => "SUM"
  | .COUNT => "COUNT"
  | .NUMBER => "NUMBER"
  | .FLOAT => "FLOAT"
  | .STRING_LITERAL => "STRING_LITERAL"
  | .BOOLEAN => "BOOLEAN"
  | .REGEX => "REGEX"
  | .IDENTIFIER => "IDENTIFIER"
  | .EXTERNAL_REF => "EXTERNAL_REF"
  | .VERSION => "VERSION"
  | .COLON => "COLON"
  | .COMMA => "COMMA"
  | .DOT => "DOT"
  | .ARROW => "ARROW"
  | .GT => "GT"
  | .LT => "LT"
  | .GTE => "GTE"
  | .LTE => "LTE"
  | .EQ => "EQ"
  | .NEQ => "NEQ"
  | .ASSIGN => "ASSIGN"
  | .LPAREN => "LPAREN"
  | .RPAREN => "RPAREN"
  | .LBRACKET => "LBRACKET"
  | .LBRACE => "LBRACE"
  | .RBRACKET => "RBRACKET"
  | .RBRACE => "RBRACE"
  | .PIPE => "PIPE"
  | .PLUS => "PLUS"
  | .MINUS => "MINUS"
  | .STAR => "STAR"
  | .SLASH => "SLASH"
  | .COMMENT => "COMMENT"
  | .NEWLINE => "NEWLINE"
  | .EOF => "EOF"
  | .UNKNOWN => "UNKNOWN"

/-- The module-level keyword table KEYWORDS of src/parser/lexer.py
(`KEYWORDS.get(value, TokenType.IDENTIFIER)` is modelled by `(KEYWORDS v).getD .IDENTIFIER`). -/
def KEYWORDS : String → Option TokenType
  | "UNIT" => some .UNIT
  | "META" => some .META
  | "ENDMETA" => some .ENDMETA
  | "INPUT" => some .INPUT
  | "ENDINPUT" => some .ENDINPUT
  | "OUTPUT" => some .OUTPUT
  | "ENDOUTPUT" => some .ENDOUTPUT
  | "INTENT" => some .INTENT
  | "ENDINTENT" => some .ENDINTENT
  | "CONSTRAINT" => some .CONSTRAINT
  | "ENDCONSTRAINT" => some .ENDCONSTRAINT
  | "FLOW" => some .FLOW
  | "ENDFLOW" => some .ENDFLOW
  | "EXECUTION" => some .EXECUTION
  | "ENDEXECUTION" => some .ENDEXECUTION
  | "VERIFY" => some .VERIFY
  | "ENDVERIFY" => some .ENDVERIFY
  | "END" => some .END
  | "FUNCTION" => some .FUNCTION
  | "SERVICE" => some .SERVICE
  | "PIPELINE" => some .PIPELINE
  | "MODULE" => some .MODULE
  | "DOMAIN" => some .DOMAIN
  | "DETERMINISM" => some .DETERMINISM
  | "IDEMPOTENT" => some .IDEMPOTENT
  | "PURE" => some .PURE
  | "TIMEOUT" => some .TIMEOUT
  | "RETRY" => some .RETRY
  | "GOAL" => some .GOAL
  | "PRIORITY" => some .PRIORITY
  | "ON_FAILURE" => some .ON_FAILURE
  | "TRANSFORM" => some .TRANSFORM
  | "VALIDATE" => some .VALIDATE
  | "AGGREGATE" => some .AGGREGATE
  | "FILTER" => some .FILTER
  | "ROUTE" => some .ROUTE
  | "COMPOSE" => some .COMPOSE
  | "FETCH" => some .FETCH
  | "CORRECTNESS" => some .CORRECTNESS
  | "PERFORMANCE" => some .PERFORMANCE
  | "MEMORY" => some .MEMORY
  | "LATENCY" => some .LATENCY
  | "THROUGHPUT" => some .THROUGHPUT
  | "ABORT" => some .ABORT
  | "FALLBACK" => some .FALLBACK
  | "DEFAULT" => some .DEFAULT
  | "REQUIRE" => some .REQUIRE
  | "FORBID" => some .FORBID
  | "PREFER" => some .PREFER
  | "INVARIANT" => some .INVARIANT
  | "WITHIN" => some .WITHIN
  | "NODE" => some .NODE
  | "EDGE" => some .EDGE
  | "WHEN" => some .WHEN
  | "MAP" => some .MAP
  | "REDUCE" => some .REDUCE
  | "SPLIT" => some .SPLIT
  | "MERGE" => some .MERGE
  | "BRANCH" => some .BRANCH
  | "JOIN" => some .JOIN
  | "RACE" => some .RACE
  | "STORE" => some .STORE
  | "CALL" => some .CALL
  | "EMIT" => some .EMIT
  | "SUBSCRIBE" => some .SUBSCRIBE
  | "SANITIZE" => some .SANITIZE
  | "AUTHORIZE" => some .AUTHORIZE
  | "PARALLEL" => some .PARALLEL
  | "TARGET" => some .TARGET
  | "ISOLATION" => some .ISOLATION
  | "CACHE" => some .CACHE
  | "ANY" => some .ANY
  | "CPU" => some .CPU
  | "GPU" => some .GPU
  | "WASM" => some .WASM
  | "NATIVE" => some .NATIVE
  | "BOUNDED" => some .BOUNDED
  | "UNBOUNDED" => some .UNBOUNDED
  | "STACK_ONLY" => some .STACK_ONLY
  | "NONE" => some .NONE
  | "THREAD" => some .THREAD
  | "PROCESS" => some .PROCESS
  | "CONTAINER" => some .CONTAINER
  | "LRU" => some .LRU
  | "TTL" => some .TTL
  | "ASSERT" => some .ASSERT
  | "PROPERTY" => some .PROPERTY
  | "POSTCONDITION" => some .POSTCONDITION
  | "TEST" => some .TEST
  | "FORALL" => some .FORALL
  | "EXISTS" => some .EXISTS
  | "EVENTUALLY" => some .EVENTUALLY
  | "ALWAYS" => some .ALWAYS
  | "INT" => some .INT
  | "INT8" => some .INT8
  | "INT16" => some .INT16
  | "INT32" => some .INT32
  | "INT64" => some .INT64
  | "UINT" => some .UINT
  | "UINT8" => some .UINT8
  | "UINT16" => some .UINT16
  | "UINT32" => some .UINT32
  | "UINT64" => some .UINT64
  | "FLOAT32" => some .FLOAT32
  | "FLOAT64" => some .FLOAT64
  | "BOOL" => some .BOOL
  | "STRING" => some .STRING
  | "BYTES" => some .BYTES
  | "VOID" => some .VOID
  | "ARRAY" => some .ARRAY
  | "STRUCT" => some .STRUCT
  | "OPTIONAL" => some .OPTIONAL
  | "UNION" => some .UNION
  | "AND" => some .AND
  | "OR" => some .OR
  | "XOR" => some .XOR
  | "NOT" => some .NOT
  | "IMPLIES" => some .IMPLIES
  | "IN" => some .IN
  | "MATCH" => some .MATCH
  | "LEN" => some .LEN
  | "CONTAINS" => some .CONTAINS
  | "RANGE" => some .RANGE
  | "NOW" => some .NOW
  | "SUM" => some .SUM
  | "COUNT" => some .COUNT
  | "true" => some .BOOLEAN
  | "false" => some .BOOLEAN
  | _ => none

/-- A lexer token: `Token(type, value, line, column)` of src/parser/lexer.py. -/
structure Token where
  type : TokenType
  value : String
  line : Nat
  column : Nat
  deriving DecidableEq, Repr

/-- The clamp value the parser's `current`/`peek` fall back to when the token
list is empty (real token lists produced by `tokenize` always end in an EOF
token, so this default is never reached from the pipeline). -/
def eofTok : Token := ⟨.EOF, "", 0, 0⟩

/-! ## Lexer (src/parser/lexer.py, class Lexer) -/

/-- Reasons the lexer fails to return: the two `value += None` TypeErrors of
`read_string`/`read_regex` (an escape reaching end of input), and exhausted
fuel (never reached with the fuel `tokenize` supplies). -/
inductive LexError where
  | strEscapeAtEof
  | regexEscapeAtEof
  | fuel
  deriving DecidableEq, Repr

/-- Line/column update of `Lexer.advance` for one consumed character. -/
def bump (l c : Nat) (ch : Char) : Nat × Nat :=
  if ch = '\n' then (l + 1, 1) else (l, c + 1)

/-- `Lexer.skip_whitespace`: consume ' ', '\t', '\r' (never '\n', so only the
column moves). -/
def skip_whitespace : List Char → Nat → Nat → List Char × Nat × Nat
  | c :: rs, l, col =>
    if c = ' ' ∨ c = '\t' ∨ c = '\r' then skip_whitespace rs l (col + 1)
    else (c :: rs, l, col)
  | [], l, col => ([], l, col)

/-- The loop of `Lexer.skip_comment`: consume through (not including) the next
newline. -/
def comment_rest : List Char → Nat → Nat → List Char × Nat × Nat
  | c :: rs, l, col =>
    if c = '\n' then (c :: rs, l, col) else comment_rest rs l (col + 1)
  | [], l, col => ([], l, col)

/-- `Lexer.skip_comment`: if at '#', consume the comment text. -/
def skip_comment : List Char → Nat → Nat → List Char × Nat × Nat
  | '#' :: rs, l, col => comment_rest rs l (col + 1)
  | cs, l, col => (cs, l, col)

/-- The body loop of `Lexer.read_string` after the opening quote `q`:
accumulates the literal's value, handling the escapes `\n`, `\t`, `\\`, an
escaped quote, and any other escaped character verbatim.  An escape whose
backslash is the last character models Python's `value += None` TypeError. -/
def read_string_loop (q : Char) :
    List Char → Nat → Nat → String → Except LexError (String × List Char × Nat × Nat)
  | [], l, col, acc => .ok (acc, [], l, col)
  | [c], l, col, acc =>
    if c = q then .ok (acc, [c], l, col)
    else if c = '\\' then .error .strEscapeAtEof
    else
      let (l', c') := bump l col c
      read_string_loop q [] l' c' (acc.push c)
  | c :: e :: rs, l, col, acc =>
    if c = q then .ok (acc, c :: e :: rs, l, col)
    else if c = '\\' then
      let (l1, c1) := bump l col '\\'
      let (l2, c2) := bump l1 c1 e
      let piece :=
        if e = 'n' then "\n"
        else if e = 't' then "\t"
        else if e = '\\' then "\\"
        else if e = q then String.singleton q
        else String.singleton e
      read_string_loop q rs l2 c2 (acc ++ piece)
    else
      let (l', c') := bump l col c
      read_string_loop q (e :: rs) l' c' (acc.push c)

/-- `Lexer.read_string`: the cursor is at the opening quote.  An unterminated
string silently closes at end of input. -/
def read_string : List Char → Nat → Nat → Except LexError (Token × List Char × Nat × Nat)
  | [], l, col => .ok (⟨.STRING_LITERAL, "", l, col⟩, [], l, col)
  | q :: rs, l, col => do
    let (l1, c1) := bump l col q
    let (v, rem, l2, c2) ← read_string_loop q rs l1 c1 ""
    match rem with
    | c :: rs2 =>
      if c = q then
        let (l3, c3) := bump l2 c2 c
        .ok (⟨.STRING_LITERAL, v, l, col⟩, rs2, l3, c3)
      else .ok (⟨.STRING_LITERAL, v, l, col⟩, c :: rs2, l2, c2)
    | [] => .ok (⟨.STRING_LITERAL, v, l, col⟩, [], l2, c2)

/-- The body loop of `Lexer.read_regex` after the opening slash.  A backslash
appends itself, then the following character is appended unconditionally; a
backslash that is the last character models Python's `value += None`
TypeError. -/
def read_regex_loop :
    List Char → Nat → Nat → String → Except LexError (String × List Char × Nat × Nat)
  | [], l, col, acc => .ok (acc, [], l, col)
  | [c], l, col, acc =>
    if c = '/' then .ok (acc, [c], l, col)
    else if c = '\\' then .error .regexEscapeAtEof
    else
      let (l', c') := bump l col c
      read_regex_loop [] l' c' (acc.push c)
  | c :: e :: rs, l, col, acc =>
    if c = '/' then .ok (acc, c :: e :: rs, l, col)
    else if c = '\\' then
      let (l1, c1) := bump l col '\\'
      let (l2, c2) := bump l1 c1 e
      read_regex_loop rs l2 c2 ((acc.push '\\').push e)
    else
      let (l', c') := bump l col c
      read_regex_loop (e :: rs) l' c' (acc.push c)

/-- `Lexer.read_regex`: the cursor is at the opening '/'. -/
def read_regex : List Char → Nat → Nat → Except LexError (Token × List Char × Nat × Nat)
  | [], l, col => .ok (⟨.REGEX, "", l, col⟩, [], l, col)
  | s :: rs, l, col => do
    let (l1, c1) := bump l col s
    let (v, rem, l2, c2) ← read_regex_loop rs l1 c1 ""
    match rem with
    | c :: rs2 =>
      if c = '/' then
        let (l3, c3) := bump l2 c2 c
        .ok (⟨.REGEX, v, l, col⟩, rs2, l3, c3)
      else .ok (⟨.REGEX, v, l, col⟩, c :: rs2, l2, c2)
    | [] => .ok (⟨.REGEX, v, l, col⟩, [], l2, c2)

/-- The digit/dot loop of `Lexer.read_number` ('.' seen while `is_float`
already holds terminates the number without consuming). -/
def read_number_digits : List Char → Nat → Bool → String → String × Bool × List Char × Nat
  | c :: rs, col, isf, acc =>
    if c.isDigit then read_number_digits rs (col + 1) isf (acc.push c)
    else if c = '.' then
      if isf then (acc, isf, c :: rs, col)
      else read_number_digits rs (col + 1) true (acc.push c)
    else (acc, isf, c :: rs, col)
  | [], col, isf, acc => (acc, isf, [], col)

/-- `Lexer.read_number`: optional '-', digits with at most one '.', then
duration (`ms`, `s`, `m`, `h`) and size (`K`/`M`/`G`, optional `B`) suffixes
absorbed into the literal text.  Number characters are never newlines, so the
line is unchanged and only the column moves. -/
def read_number (cs : List Char) (l col : Nat) : Token × List Char × Nat × Nat :=
  let (sgn, cs1, col1) :=
    match cs with
    | '-' :: rs => ("-", rs, col + 1)
    | _ => ("", cs, col)
  let (digits, isf, cs2, col2) := read_number_digits cs1 col1 false ""
  let v1 := sgn ++ digits
  let (v2, cs3, col3) :=
    match cs2 with
    | 'm' :: 's' :: rs => (v1 ++ "ms", rs, col2 + 2)
    | 'm' :: rs => (v1.push 'm', rs, col2 + 1)
    | 's' :: rs => (v1.push 's', rs, col2 + 1)
    | 'h' :: rs => (v1.push 'h', rs, col2 + 1)
    | _ => (v1, cs2, col2)
  let (v3, cs4, col4) :=
    match cs3 with
    | 'K' :: 'B' :: rs => (v2 ++ "KB", rs, col3 + 2)
    | 'K' :: rs => (v2.push 'K', rs, col3 + 1)
    | 'M' :: 'B' :: rs => (v2 ++ "MB", rs, col3 + 2)
    | 'M' :: rs => (v2.push 'M', rs, col3 + 1)
    | 'G' :: 'B' :: rs => (v2 ++ "GB", rs, col3 + 2)
    | 'G' :: rs => (v2.push 'G', rs, col3 + 1)
    | _ => (v2, cs3, col3)
  (⟨if isf then .FLOAT else .NUMBER, v3, l, col⟩, cs4, l, col4)

/-- The identifier-character loop of `Lexer.read_identifier`
(alphanumerics and '_'). -/
def read_ident_chars : List Char → Nat → String → String × List Char × Nat
  | c :: rs, col, acc =>
    if c.isAlphanum || c == '_' then read_ident_chars rs (col + 1) (acc.push c)
    else (acc, c :: rs, col)
  | [], col, acc => (acc, [], col)

/-- The digit/dot continuation loop for VERSION tokens (`V1.0.2`). -/
def read_version_chars : List Char → Nat → String → String × List Char × Nat
  | c :: rs, col, acc =>
    if c.isDigit || c == '.' then read_version_chars rs (col + 1) (acc.push c)
    else (acc, c :: rs, col)
  | [], col, acc => (acc, [], col)

/-- `value.startswith('V') and len(value) > 1 and value[1].isdigit()`. -/
def isVersionStart (v : String) : Bool :=
  match v.data with
  | 'V' :: d :: _ => d.isDigit
  | _ => false

/-- `Lexer.read_identifier`: an identifier-character run, continued into a
VERSION token when it starts `V<digit>`, otherwise looked up in `KEYWORDS`
(falling back to IDENTIFIER). -/
def read_identifier (cs : List Char) (l col : Nat) : Token × List Char × Nat × Nat :=
  let (v, cs1, col1) := read_ident_chars cs col ""
  if isVersionStart v then
    let (ext, cs2, col2) := read_version_chars cs1 col1 ""
    (⟨.VERSION, v ++ ext, l, col⟩, cs2, l, col2)
  else
    (⟨(KEYWORDS v).getD .IDENTIFIER, v, l, col⟩, cs1, l, col1)

/-- The character loop of `Lexer.read_external_ref` (alphanumerics, '_', '.'). -/
def read_ext_chars : List Char → Nat → String → String × List Char × Nat
  | c :: rs, col, acc =>
    if c.isAlphanum || c == '_' || c == '.' then read_ext_chars rs (col + 1) (acc.push c)
    else (acc, c :: rs, col)
  | [], col, acc => (acc, [], col)

/-- `Lexer.read_external_ref`: the cursor is at '@'. -/
def read_external_ref (cs : List Char) (l col : Nat) : Token × List Char × Nat × Nat :=
  match cs with
  | '@' :: rs =>
    let (v, cs1, col1) := read_ext_chars rs (col + 1) "@"
    (⟨.EXTERNAL_REF, v, l, col⟩, cs1, l, col1)
  | _ => (⟨.EXTERNAL_REF, "@", l, col⟩, cs, l, col)

/-- The single-character operator table of `Lexer.tokenize`. -/
def single_char_tokens : Char → Option TokenType
  | ':' => some .COLON
  | ',' => some .COMMA
  | '.' => some .DOT
  | '>' => some .GT
  | '<' => some .LT
  | '=' => some .ASSIGN
  | '(' => some .LPAREN
  | ')' => some .RPAREN
  | '[' => some .LBRACKET
  | ']' => some .RBRACKET
  | '\x7b' => some .LBRACE
  | '\x7d' => some .RBRACE
  | '|' => some .PIPE
  | '+' => some .PLUS
  | '-' => some .MINUS
  | '*' => some .STAR
  | '/' => some .SLASH
  | _ => none

/-- One iteration body plus loop of `Lexer.tokenize`, on the remaining source.
Each iteration consumes at least one character, so a fuel of
`length + 1` (supplied by `tokenize`) can never run out. -/
def tokenize_loop : Nat → List Char → Nat → Nat → List Token → Except LexError (List Token)
  | 0, _, _, _, _ => .error .fuel
  | _ + 1, [], l, col, acc => .ok (acc ++ [⟨.EOF, "", l, col⟩])
  | fuel + 1, c0 :: cr0, l, col, acc => do
    let (cs1, l1, col1) := skip_whitespace (c0 :: cr0) l col
    let (cs2, l2, col2) := skip_comment cs1 l1 col1
    match cs2 with
    | [] => .ok (acc ++ [⟨.EOF, "", l2, col2⟩])
    | ch :: rest =>
      if ch = '\n' then
        tokenize_loop fuel rest (l2 + 1) 1 (acc ++ [⟨.NEWLINE, "\n", l2, col2⟩])
      else if ch == '"' || ch == '\'' then do
        let (t, cs3, l3, col3) ← read_string cs2 l2 col2
        tokenize_loop fuel cs3 l3 col3 (acc ++ [t])
      else if ch == '/' && (match rest with
            | c2 :: _ => !(c2 == ' ' || c2 == '\t' || c2 == '\n')
            | [] => false) then do
        let (t, cs3, l3, col3) ← read_regex cs2 l2 col2
        tokenize_loop fuel cs3 l3 col3 (acc ++ [t])
      else if ch.isDigit || (ch == '-' && (match rest with
            | c2 :: _ => c2.isDigit
            | [] => false)) then
        let (t, cs3, l3, col3) := read_number cs2 l2 col2
        tokenize_loop fuel cs3 l3 col3 (acc ++ [t])
      else if ch = '@' then
        let (t, cs3, l3, col3) := read_external_ref cs2 l2 col2
        tokenize_loop fuel cs3 l3 col3 (acc ++ [t])
      else if ch.isAlpha || ch == '_' then
        let (t, cs3, l3, col3) := read_identifier cs2 l2 col2
        tokenize_loop fuel cs3 l3 col3 (acc ++ [t])
      else
        match ch, rest with
        | '-', '>' :: rs => tokenize_loop fuel rs l2 (col2 + 2) (acc ++ [⟨.ARROW, "->", l2, col2⟩])
        | '>', '=' :: rs => tokenize_loop fuel rs l2 (col2 + 2) (acc ++ [⟨.GTE, ">=", l2, col2⟩])
        | '<', '=' :: rs => tokenize_loop fuel rs l2 (col2 + 2) (acc ++ [⟨.LTE, "<=", l2, col2⟩])
        | '=', '=' :: rs => tokenize_loop fuel rs l2 (col2 + 2) (acc ++ [⟨.EQ, "==", l2, col2⟩])
        | '!', '=' :: rs => tokenize_loop fuel rs l2 (col2 + 2) (acc ++ [⟨.NEQ, "!=", l2, col2⟩])
        | _, _ =>
          match single_char_tokens ch with
          | some tt =>
            tokenize_loop fuel rest l2 (col2 + 1) (acc ++ [⟨tt, String.singleton ch, l2, col2⟩])
          | none =>
            let (l3, col3) := bump l2 col2 ch
            tokenize_loop fuel rest l3 col3 (acc ++ [⟨.UNKNOWN, String.singleton ch, l2, col2⟩])

/-- `Lexer.tokenize` / the module-level `tokenize` helper of
src/parser/lexer.py. -/
def tokenize (s : String) : Except LexError (List Token) :=
  tokenize_loop (s.length + 1) s.data 1 1 []


/-! ## AST model (src/parser/ast_nodes.py)

Every node carries `line`/`column`.  Nodes the parser never constructs
(`ArrayAccess`, `SourceLocation`) are omitted; `QualifiedName` is modelled as
its own structure because the parser only builds it for unit ids and META
values, never as a general expression. -/

inductive UnitType where
  | FUNCTION | SERVICE | PIPELINE | MODULE
  deriving DecidableEq, Repr

inductive GoalType where
  | TRANSFORM | VALIDATE | AGGREGATE | FILTER | ROUTE | COMPOSE | FETCH
  deriving DecidableEq, Repr

inductive PriorityType where
  | CORRECTNESS | PERFORMANCE | MEMORY | LATENCY | THROUGHPUT
  deriving DecidableEq, Repr

inductive FailureStrategy where
  | ABORT | RETRY | FALLBACK | DEFAULT
  deriving DecidableEq, Repr

inductive ConstraintType where
  | REQUIRE | FORBID | PREFER | INVARIANT
  deriving DecidableEq, Repr

inductive OpType where
  | MAP | FILTER | REDUCE | TRANSFORM | FLATTEN | GROUP | SORT | DISTINCT
  | BRANCH | MERGE | SPLIT | JOIN | RACE
  | FETCH | STORE | CALL | EMIT | SUBSCRIBE
  | VALIDATE | SANITIZE | AUTHORIZE
  deriving DecidableEq, Repr

inductive TargetType where
  | ANY | CPU | GPU | WASM | NATIVE
  deriving DecidableEq, Repr

inductive MemoryType where
  | BOUNDED | UNBOUNDED | STACK_ONLY
  deriving DecidableEq, Repr

inductive IsolationType where
  | NONE | THREAD | PROCESS | CONTAINER
  deriving DecidableEq, Repr

inductive CacheType where
  | NONE | LRU | TTL
  deriving DecidableEq, Repr

inductive VerifyType where
  | ASSERT | PROPERTY | INVARIANT | POSTCONDITION | TEST
  deriving DecidableEq, Repr

/-- The `.value` string of a VerifyType (used in the E7002 message). -/
def VerifyType.value : VerifyType → String
  | .ASSERT => "ASSERT"
  | .PROPERTY => "PROPERTY"
  | .INVARIANT => "INVARIANT"
  | .POSTCONDITION => "POSTCONDITION"
  | .TEST => "TEST"

/-- Type nodes (`PrimitiveType`, `ArrayType`, `MapType`, `StructType`,
`OptionalType`, `UnionType`, `TypeRef`).  A struct's ordered field-name→type
mapping is an association list. -/
inductive TypeNode where
  | PrimitiveType (name : String) (line column : Nat)
  | ArrayType (element_type : TypeNode) (line column : Nat)
  | MapType (key_type value_type : TypeNode) (line column : Nat)
  | StructType (fields : List (String × TypeNode)) (line column : Nat)
  | OptionalType (inner_type : TypeNode) (line column : Nat)
  | UnionType (types : List TypeNode) (line column : Nat)
  | TypeRef (ref : String) (line column : Nat)

/-- The value stored in a `Literal` expression: `int`, `float` (kept as its
literal text, since no claim computes with floats), `str`, `bool` or `None`
(VOID).  Regex and duration literals store their text, as in the source. -/
inductive LitVal where
  | num (n : Int)
  | flt (raw : String)
  | str (s : String)
  | boolean (b : Bool)
  | void
  deriving DecidableEq, Repr

/-- Expression nodes, exactly the variants `Parser.parse_expression` can
produce. -/
inductive Expression where
  | Literal (value : LitVal) (literal_type : String) (line column : Nat)
  | Identifier (name : String) (line column : Nat)
  | ExternalRef (ref : String) (line column : Nat)
  | FieldAccess (base : Expression) (field_name : String) (line column : Nat)
  | BinaryOp (left : Expression) (operator : String) (right : Expression) (line column : Nat)
  | UnaryOp (operator : String) (operand : Expression) (line column : Nat)
  | FunctionCall (name : String) (arguments : List Expression) (line column : Nat)

/-- `node.line` of an expression node. -/
def Expression.line : Expression → Nat
  | .Literal _ _ l _ => l
  | .Identifier _ l _ => l
  | .ExternalRef _ l _ => l
  | .FieldAccess _ _ l _ => l
  | .BinaryOp _ _ _ l _ => l
  | .UnaryOp _ _ l _ => l
  | .FunctionCall _ _ l _ => l

/-- `node.column` of an expression node. -/
def Expression.column : Expression → Nat
  | .Literal _ _ _ c => c
  | .Identifier _ _ c => c
  | .ExternalRef _ _ c => c
  | .FieldAccess _ _ _ c => c
  | .BinaryOp _ _ _ _ c => c
  | .UnaryOp _ _ _ c => c
  | .FunctionCall _ _ _ c => c

/-- `QualifiedName` (dot-separated parts), used for unit ids and META values. -/
structure QualifiedName where
  parts : List String
  line : Nat
  column : Nat
  deriving DecidableEq, Repr

/-- `QualifiedName.full_name`. -/
def QualifiedName.full_name (q : QualifiedName) : String :=
  String.intercalate "." q.parts

/-- A META entry's value is a bool or a string (`parse_meta_entry` stores
nothing else). -/
inductive MetaVal where
  | boolean (b : Bool)
  | string (s : String)
  deriving DecidableEq, Repr

structure Constraint where
  constraint_type : ConstraintType
  expression : Option Expression
  line : Nat
  column : Nat

structure InputConstraint where
  expression : Expression
  line : Nat
  column : Nat

structure UnitBlock where
  unit_type : UnitType
  unit_id : QualifiedName
  version : Option String
  line : Nat
  column : Nat
  deriving DecidableEq, Repr

structure MetaEntry where
  key : String
  value : MetaVal
  line : Nat
  column : Nat
  deriving DecidableEq, Repr

structure MetaBlock where
  entries : List MetaEntry
  line : Nat
  column : Nat
  deriving DecidableEq, Repr

structure InputEntry where
  name : String
  type_node : TypeNode
  constraints : List InputConstraint
  line : Nat
  column : Nat

structure InputBlock where
  entries : List InputEntry
  line : Nat
  column : Nat

structure OutputEntry where
  name : String
  type_node : TypeNode
  constraints : List InputConstraint
  line : Nat
  column : Nat

structure OutputBlock where
  entries : List OutputEntry
  line : Nat
  column : Nat

structure GoalSpec where
  inputs : List Expression
  outputs : List Expression
  line : Nat
  column : Nat

structure IntentBlock where
  goal_type : Option GoalType
  goal_spec : Option GoalSpec
  priorities : List PriorityType
  failure_strategy : Option FailureStrategy
  failure_ref : Option Expression
  line : Nat
  column : Nat

structure ConstraintBlock where
  constraints : List Constraint
  line : Nat
  column : Nat

structure NodeParam where
  name : String
  value : Expression
  line : Nat
  column : Nat

structure FlowNode where
  node_id : String
  op_type : OpType
  params : List NodeParam
  custom_op : Option String
  line : Nat
  column : Nat

structure FlowEdge where
  source : Expression
  target : Expression
  condition : Option Expression
  line : Nat
  column : Nat

structure FlowBlock where
  nodes : List FlowNode
  edges : List FlowEdge
  line : Nat
  column : Nat

structure ExecutionBlock where
  parallel : Bool
  target : TargetType
  memory : MemoryType
  memory_limit : Option String
  isolation : IsolationType
  cache : CacheType
  cache_size : Option Int
  line : Nat
  column : Nat
  deriving DecidableEq, Repr

structure VerifyEntry where
  verify_type : VerifyType
  expression : Option Expression
  test_ref : Option String
  line : Nat
  column : Nat

structure VerifyBlock where
  entries : List VerifyEntry
  line : Nat
  column : Nat

/-- The document root: nine optional block slots (`AOELUnit` of
src/parser/ast_nodes.py, imported as `VaisUnit` by src/parser/parser.py). -/
structure AOELUnit where
  unit : Option UnitBlock := none
  meta : Option MetaBlock := none
  input : Option InputBlock := none
  output : Option OutputBlock := none
  intent : Option IntentBlock := none
  constraint : Option ConstraintBlock := none
  flow : Option FlowBlock := none
  execution : Option ExecutionBlock := none
  verify : Option VerifyBlock := none
  line : Nat := 0
  column : Nat := 0

/-- The name src/parser/parser.py uses for the document root. -/
abbrev VaisUnit := AOELUnit

/-! ## Parser (src/parser/parser.py, class Parser)

The token cursor is the remaining token list.  `cur`, `peek1` and `adv`
mirror `current`, `peek(1)` and `advance` (which clamps at `tokens[-1]`).
Every recursive parsing function takes a fuel argument; exhausted fuel is the
distinguished `fuelErr` (with ample fuel it is never produced). -/

/-- `Parser.current`. -/
def cur : List Token → Token
  | [] => eofTok
  | t :: _ => t

/-- `Parser.peek(1)`. -/
def peek1 : List Token → Token
  | _ :: u :: _ => u
  | [t] => t
  | [] => eofTok

/-- `Parser.advance`: returns the current token; the cursor never moves past
the last token. -/
def adv : List Token → Token × List Token
  | [] => (eofTok, [])
  | [t] => (t, [t])
  | t :: u :: rs => (t, u :: rs)

/-- `ParseError(message, line, column, token)` of src/parser/parser.py. -/
structure ParseError where
  message : String
  line : Nat
  column : Nat
  token : Option Token
  deriving DecidableEq, Repr

/-- Exhausted fuel (a model artifact, never produced under ample fuel). -/
def fuelErr : ParseError := ⟨"model: out of fuel", 0, 0, none⟩

/-- The error `Parser.expect` raises on a mismatched token. -/
def expectErr (tys : List TokenType) (t : Token) : ParseError :=
  { message := "Expected " ++ String.intercalate " or " (tys.map TokenType.tname)
      ++ ", got " ++ t.type.tname ++ " '" ++ t.value ++ "'"
    line := t.line
    column := t.column
    token := some t }

/-- `Parser.expect`: demand one of the given token types, else fail at the
current token with its exact line and column. -/
def expect (tys : List TokenType) (ts : List Token) : Except ParseError (Token × List Token) :=
  let t := cur ts
  if t.type ∈ tys then .ok (adv ts) else .error (expectErr tys t)

/-- `Lexer.get_tokens_without_newlines` / the newline filter in
`Parser.__init__`. -/
def filterNewlines (ts : List Token) : List Token :=
  ts.filter (fun t => t.type != TokenType.NEWLINE)

/-- `value.rstrip('smhKMGB')` (drop trailing unit-suffix characters). -/
def rstripUnits (s : String) : String :=
  ⟨(s.data.reverse.dropWhile (fun c => c ∈ ['s', 'm', 'h', 'K', 'M', 'G', 'B'])).reverse⟩

/-- Python `int(...)` on an optional minus sign followed by digits;
`none` models the `ValueError` it raises on any other shape. -/
def pyIntOpt (s : String) : Option Int :=
  let digits (ds : List Char) : Option Nat :=
    if ds ≠ [] ∧ ds.all Char.isDigit then
      some (ds.foldl (fun n c => n * 10 + (c.toNat - '0'.toNat)) 0)
    else none
  match s.data with
  | '-' :: ds => (digits ds).map (fun n => -(n : Int))
  | ds => (digits ds).map (fun n => (n : Int))

/-- The primitive-type token set of `Parser.parse_type`. -/
def primitive_types : List TokenType :=
  [.INT, .INT8, .INT16, .INT32, .INT64, .UINT, .UINT8, .UINT16, .UINT32,
   .UINT64, .FLOAT32, .FLOAT64, .BOOL, .STRING, .BYTES, .VOID]

/-- Association-list update with Python-dict semantics: an existing key keeps
its position and gets the new value, a new key is appended. -/
def dictInsert (m : List (String × α)) (k : String) (v : α) : List (String × α) :=
  match m with
  | [] => [(k, v)]
  | (k', v') :: rest =>
    if k' = k then (k', v) :: rest else (k', v') :: dictInsert rest k v

/-- Python-dict key membership. -/
def dictHas (m : List (String × α)) (k : String) : Bool :=
  m.any (fun p => p.1 == k)

/-- Python-dict lookup (`m[k]`). -/
def dictGet (m : List (String × α)) (k : String) : Option α :=
  (m.find? (fun p => p.1 == k)).map Prod.snd

mutual

/-- `Parser.parse_type`. -/
def parse_type : Nat → List Token → Except ParseError (TypeNode × List Token)
  | 0, _ => .error fuelErr
  | f + 1, ts =>
    let t := cur ts
    if t.type ∈ primitive_types then
      .ok (.PrimitiveType t.value t.line t.column, (adv ts).2)
    else if t.type = .ARRAY then do
      let ts1 := (adv ts).2
      let (_, ts2) ← expect [.LT] ts1
      let (el, ts3) ← parse_type f ts2
      let (_, ts4) ← expect [.GT] ts3
      .ok (.ArrayType el t.line t.column, ts4)
    else if t.type = .MAP then do
      let ts1 := (adv ts).2
      let (_, ts2) ← expect [.LT] ts1
      let (kt, ts3) ← parse_type f ts2
      let (_, ts4) ← expect [.COMMA] ts3
      let (vt, ts5) ← parse_type f ts4
      let (_, ts6) ← expect [.GT] ts5
      .ok (.MapType kt vt t.line t.column, ts6)
    else if t.type = .STRUCT then do
      let ts1 := (adv ts).2
      let (_, ts2) ← expect [.LBRACE] ts1
      let (fields, ts3) ← struct_fields_loop f [] ts2
      let (_, ts4) ← expect [.RBRACE] ts3
      .ok (.StructType fields t.line t.column, ts4)
    else if t.type = .OPTIONAL then do
      let ts1 := (adv ts).2
      let (_, ts2) ← expect [.LT] ts1
      let (it, ts3) ← parse_type f ts2
      let (_, ts4) ← expect [.GT] ts3
      .ok (.OptionalType it t.line t.column, ts4)
    else if t.type = .UNION then do
      let ts1 := (adv ts).2
      let (_, ts2) ← expect [.LT] ts1
      let (t1, ts3) ← parse_type f ts2
      let (tys, ts4) ← union_types_loop f [t1] ts3
      let (_, ts5) ← expect [.GT] ts4
      .ok (.UnionType tys t.line t.column, ts5)
    else if t.type = .EXTERNAL_REF then
      .ok (.TypeRef t.value t.line t.column, (adv ts).2)
    else
      .error ⟨"Expected type, got " ++ t.type.tname, t.line, t.column, some t⟩

/-- The STRUCT field loop of `parse_type` (fields land in a Python dict). -/
def struct_fields_loop :
    Nat → List (String × TypeNode) → List Token →
    Except ParseError (List (String × TypeNode) × List Token)
  | 0, _, _ => .error fuelErr
  | f + 1, fields, ts =>
    if (cur ts).type = .RBRACE then .ok (fields, ts)
    else do
      let (nT, ts1) ← expect [.IDENTIFIER] ts
      let (_, ts2) ← expect [.COLON] ts1
      let (ft, ts3) ← parse_type f ts2
      let fields1 := dictInsert fields nT.value ft
      let ts4 := if (cur ts3).type = .COMMA then (adv ts3).2 else ts3
      struct_fields_loop f fields1 ts4

/-- The UNION `|`-separated alternative loop of `parse_type`. -/
def union_types_loop :
    Nat → List TypeNode → List Token → Except ParseError (List TypeNode × List Token)
  | 0, _, _ => .error fuelErr
  | f + 1, tys, ts =>
    if (cur ts).type = .PIPE then do
      let ts1 := (adv ts).2
      let (t1, ts2) ← parse_type f ts1
      union_types_loop f (tys ++ [t1]) ts2
    else .ok (tys, ts)

end

/-- The builtin-function token set of `Parser.parse_primary`. -/
def builtin_funcs : List TokenType := [.LEN, .CONTAINS, .RANGE, .NOW, .SUM, .COUNT]

/-- The comparison-operator token set of `Parser.parse_comparison`. -/
def compare_ops : List TokenType := [.EQ, .NEQ, .LT, .GT, .LTE, .GTE, .IN, .MATCH]

mutual

/-- `Parser.parse_expression`. -/
def parse_expression : Nat → List Token → Except ParseError (Expression × List Token)
  | 0, _ => .error fuelErr
  | f + 1, ts => parse_or_expression f ts

/-- `Parser.parse_or_expression`. -/
def parse_or_expression : Nat → List Token → Except ParseError (Expression × List Token)
  | 0, _ => .error fuelErr
  | f + 1, ts => do
    let (l, ts1) ← parse_and_expression f ts
    or_loop f l ts1

/-- The `while self.match(OR)` loop of `parse_or_expression`. -/
def or_loop : Nat → Expression → List Token → Except ParseError (Expression × List Token)
  | 0, _, _ => .error fuelErr
  | f + 1, left, ts =>
    if (cur ts).type = .OR then do
      let (opT, ts1) := adv ts
      let (r, ts2) ← parse_and_expression f ts1
      or_loop f (.BinaryOp left opT.value r left.line left.column) ts2
    else .ok (left, ts)

/-- `Parser.parse_and_expression`. -/
def parse_and_expression : Nat → List Token → Except ParseError (Expression × List Token)
  | 0, _ => .error fuelErr
  | f + 1, ts => do
    let (l, ts1) ← parse_comparison f ts
    and_loop f l ts1

/-- The `while self.match(AND)` loop of `parse_and_expression`. -/
def and_loop : Nat → Expression → List Token → Except ParseError (Expression × List Token)
  | 0, _, _ => .error fuelErr
  | f + 1, left, ts =>
    if (cur ts).type = .AND then do
      let (opT, ts1) := adv ts
      let (r, ts2) ← parse_comparison f ts1
      and_loop f (.BinaryOp left opT.value r left.line left.column) ts2
    else .ok (left, ts)

/-- `Parser.parse_comparison`. -/
def parse_comparison : Nat → List Token → Except ParseError (Expression × List Token)
  | 0, _ => .error fuelErr
  | f + 1, ts => do
    let (l, ts1) ← parse_additive f ts
    cmp_loop f l ts1

/-- The comparison-operator loop of `parse_comparison`. -/
def cmp_loop : Nat → Expression → List Token → Except ParseError (Expression × List Token)
  | 0, _, _ => .error fuelErr
  | f + 1, left, ts =>
    if (cur ts).type ∈ compare_ops then do
      let (opT, ts1) := adv ts
      let (r, ts2) ← parse_additive f ts1
      cmp_loop f (.BinaryOp left opT.value r left.line left.column) ts2
    else .ok (left, ts)

/-- `Parser.parse_additive`. -/
def parse_additive : Nat → List Token → Except ParseError (Expression × List Token)
  | 0, _ => .error fuelErr
  | f + 1, ts => do
    let (l, ts1) ← parse_multiplicative f ts
    add_loop f l ts1

/-- The `+`/`-` loop of `parse_additive`. -/
def add_loop : Nat → Expression → List Token → Except ParseError (Expression × List Token)
  | 0, _, _ => .error fuelErr
  | f + 1, left, ts =>
    if (cur ts).type = .PLUS ∨ (cur ts).type = .MINUS then do
      let (opT, ts1) := adv ts
      let (r, ts2) ← parse_multiplicative f ts1
      add_loop f (.BinaryOp left opT.value r left.line left.column) ts2
    else .ok (left, ts)

/-- `Parser.parse_multiplicative`. -/
def parse_multiplicative : Nat → List Token → Except ParseError (Expression × List Token)
  | 0, _ => .error fuelErr
  | f + 1, ts => do
    let (l, ts1) ← parse_unary f ts
    mul_loop f l ts1

/-- The `*`/`/` loop of `parse_multiplicative`. -/
def mul_loop : Nat → Expression → List Token → Except ParseError (Expression × List Token)
  | 0, _, _ => .error fuelErr
  | f + 1, left, ts =>
    if (cur ts).type = .STAR ∨ (cur ts).type = .SLASH then do
      let (opT, ts1) := adv ts
      let (r, ts2) ← parse_unary f ts1
      mul_loop f (.BinaryOp left opT.value r left.line left.column) ts2
    else .ok (left, ts)

/-- `Parser.parse_unary`.  Note: the `UnaryOp` node is positioned at its
*operand*, exactly as in the source (`line=operand.line, column=operand.column`). -/
def parse_unary : Nat → List Token → Except ParseError (Expression × List Token)
  | 0, _ => .error fuelErr
  | f + 1, ts =>
    if (cur ts).type = .NOT ∨ (cur ts).type = .MINUS then do
      let (opT, ts1) := adv ts
      let (operand, ts2) ← parse_unary f ts1
      .ok (.UnaryOp opT.value operand operand.line operand.column, ts2)
    else parse_primary f ts

/-- `Parser.parse_primary`. -/
def parse_primary : Nat → List Token → Except ParseError (Expression × List Token)
  | 0, _ => .error fuelErr
  | f + 1, ts =>
    let t := cur ts
    if t.type = .LPAREN then do
      let ts1 := (adv ts).2
      let (e, ts2) ← parse_expression f ts1
      let (_, ts3) ← expect [.RPAREN] ts2
      .ok (e, ts3)
    else if t.type = .NUMBER then
      match pyIntOpt (rstripUnits t.value) with
      | some n => .ok (.Literal (.num n) "number" t.line t.column, (adv ts).2)
      | none => .error ⟨"ValueError: invalid literal for int", t.line, t.column, some t⟩
    else if t.type = .FLOAT then
      .ok (.Literal (.flt t.value) "float" t.line t.column, (adv ts).2)
    else if t.type = .STRING_LITERAL then
      .ok (.Literal (.str t.value) "string" t.line t.column, (adv ts).2)
    else if t.type = .BOOLEAN then
      .ok (.Literal (.boolean (t.value == "true")) "bool" t.line t.column, (adv ts).2)
    else if t.type = .REGEX then
      .ok (.Literal (.str t.value) "regex" t.line t.column, (adv ts).2)
    else if t.type = .VOID then
      .ok (.Literal .void "void" t.line t.column, (adv ts).2)
    else if t.type = .EXTERNAL_REF then
      .ok (.ExternalRef t.value t.line t.column, (adv ts).2)
    else if t.type ∈ builtin_funcs then do
      let (fnT, ts1) := adv ts
      if (cur ts1).type = .LPAREN then do
        let ts2 := (adv ts1).2
        if (cur ts2).type = .RPAREN then do
          let (_, ts3) ← expect [.RPAREN] ts2
          .ok (.FunctionCall fnT.value [] t.line t.column, ts3)
        else do
          let (a0, ts3) ← parse_expression f ts2
          let (args, ts4) ← call_args_loop f [a0] ts3
          let (_, ts5) ← expect [.RPAREN] ts4
          .ok (.FunctionCall fnT.value args t.line t.column, ts5)
      else
        .ok (.Identifier fnT.value t.line t.column, ts1)
    else if t.type = .IDENTIFIER then
      parse_field_access f ts
    else if t.type = .INPUT ∨ t.type = .OUTPUT then do
      let (bT, ts1) := adv ts
      if (cur ts1).type = .DOT then do
        let ts2 := (adv ts1).2
        let (fT, ts3) ← expect [.IDENTIFIER] ts2
        .ok (.FieldAccess (.Identifier bT.value t.line t.column) fT.value t.line t.column, ts3)
      else
        .ok (.Identifier bT.value t.line t.column, ts1)
    else
      .error ⟨"Unexpected token " ++ t.type.tname, t.line, t.column, some t⟩

/-- The `while self.match(COMMA)` argument loop of the builtin-call branch of
`parse_primary`. -/
def call_args_loop :
    Nat → List Expression → List Token → Except ParseError (List Expression × List Token)
  | 0, _, _ => .error fuelErr
  | f + 1, args, ts =>
    if (cur ts).type = .COMMA then do
      let ts1 := (adv ts).2
      let (a, ts2) ← parse_expression f ts1
      call_args_loop f (args ++ [a]) ts2
    else .ok (args, ts)

/-- `Parser.parse_field_access` (`a.b.c` becomes nested FieldAccess over a
base Identifier; every node carries the first token's position). -/
def parse_field_access : Nat → List Token → Except ParseError (Expression × List Token)
  | 0, _ => .error fuelErr
  | f + 1, ts => do
    let (idT, ts1) ← expect [.IDENTIFIER] ts
    let (parts, ts2) ← fa_parts_loop f [idT.value] ts1
    match parts with
    | [] => .error fuelErr
    | p :: rest =>
      .ok (rest.foldl (fun acc part => .FieldAccess acc part idT.line idT.column)
            (.Identifier p idT.line idT.column), ts2)

/-- The dot loop of `parse_field_access`: after a dot that is not followed by
an identifier the loop breaks with the dot already consumed. -/
def fa_parts_loop :
    Nat → List String → List Token → Except ParseError (List String × List Token)
  | 0, _, _ => .error fuelErr
  | f + 1, parts, ts =>
    if (cur ts).type = .DOT then
      let ts1 := (adv ts).2
      if (cur ts1).type = .IDENTIFIER then
        let (pT, ts2) := adv ts1
        fa_parts_loop f (parts ++ [pT.value]) ts2
      else .ok (parts, ts1)
    else .ok (parts, ts)

end

/-- The `while self.match(DOT)` loop of `Parser.parse_qualified_name`
(here the part after a dot is mandatory). -/
def qn_parts_loop :
    Nat → List String → List Token → Except ParseError (List String × List Token)
  | 0, _, _ => .error fuelErr
  | f + 1, parts, ts =>
    if (cur ts).type = .DOT then do
      let ts1 := (adv ts).2
      let (pT, ts2) ← expect [.IDENTIFIER] ts1
      qn_parts_loop f (parts ++ [pT.value]) ts2
    else .ok (parts, ts)

/-- `Parser.parse_qualified_name`. -/
def parse_qualified_name : Nat → List Token → Except ParseError (QualifiedName × List Token)
  | 0, _ => .error fuelErr
  | f + 1, ts => do
    let (idT, ts1) ← expect [.IDENTIFIER] ts
    let (parts, ts2) ← qn_parts_loop f [idT.value] ts1
    .ok (⟨parts, idT.line, idT.column⟩, ts2)

/-- `Parser.parse_unit_block`. -/
def parse_unit_block : Nat → List Token → Except ParseError (UnitBlock × List Token)
  | 0, _ => .error fuelErr
  | f + 1, ts => do
    let (tok, ts1) ← expect [.UNIT] ts
    let (utT, ts2) ← expect [.FUNCTION, .SERVICE, .PIPELINE, .MODULE] ts1
    let ut : UnitType :=
      match utT.type with
      | .FUNCTION => .FUNCTION
      | .SERVICE => .SERVICE
      | .PIPELINE => .PIPELINE
      | _ => .MODULE
    let (uid, ts3) ← parse_qualified_name f ts2
    if (cur ts3).type = .VERSION then
      let (vT, ts4) := adv ts3
      .ok (⟨ut, uid, some vT.value, tok.line, tok.column⟩, ts4)
    else
      .ok (⟨ut, uid, none, tok.line, tok.column⟩, ts3)

/-- `Parser.parse_meta_entry`. -/
def parse_meta_entry : Nat → List Token → Except ParseError (MetaEntry × List Token)
  | 0, _ => .error fuelErr
  | f + 1, ts => do
    let (keyT, ts1) ←
      expect [.DOMAIN, .DETERMINISM, .IDEMPOTENT, .PURE, .TIMEOUT, .RETRY] ts
    if (cur ts1).type = .BOOLEAN then
      let (vT, ts2) := adv ts1
      .ok (⟨keyT.value, .boolean (vT.value == "true"), keyT.line, keyT.column⟩, ts2)
    else if (cur ts1).type = .NUMBER then
      let (vT, ts2) := adv ts1
      .ok (⟨keyT.value, .string vT.value, keyT.line, keyT.column⟩, ts2)
    else if (cur ts1).type = .IDENTIFIER then do
      let (qn, ts2) ← parse_qualified_name f ts1
      .ok (⟨keyT.value, .string qn.full_name, keyT.line, keyT.column⟩, ts2)
    else
      let (vT, ts2) := adv ts1
      .ok (⟨keyT.value, .string vT.value, keyT.line, keyT.column⟩, ts2)

/-- The entry loop of `Parser.parse_meta_block`. -/
def meta_entries_loop :
    Nat → List MetaEntry → List Token → Except ParseError (List MetaEntry × List Token)
  | 0, _, _ => .error fuelErr
  | f + 1, acc, ts =>
    if (cur ts).type = .ENDMETA then .ok (acc, ts)
    else do
      let (e, ts1) ← parse_meta_entry f ts
      meta_entries_loop f (acc ++ [e]) ts1

/-- `Parser.parse_meta_block`. -/
def parse_meta_block : Nat → List Token → Except ParseError (MetaBlock × List Token)
  | 0, _ => .error fuelErr
  | f + 1, ts => do
    let (tok, ts1) ← expect [.META] ts
    let (entries, ts2) ← meta_entries_loop f [] ts1
    let (_, ts3) ← expect [.ENDMETA] ts2
    .ok (⟨entries, tok.line, tok.column⟩, ts3)

/-- The bracketed constraint-expression loop shared by `parse_input_entry`
and `parse_output_entry`. -/
def entry_constraints_loop :
    Nat → List InputConstraint → List Token →
    Except ParseError (List InputConstraint × List Token)
  | 0, _, _ => .error fuelErr
  | f + 1, acc, ts =>
    if (cur ts).type = .RBRACKET then .ok (acc, ts)
    else do
      let (e, ts1) ← parse_expression f ts
      let acc1 := acc ++ [⟨e, e.line, e.column⟩]
      let ts2 := if (cur ts1).type = .COMMA then (adv ts1).2 else ts1
      entry_constraints_loop f acc1 ts2

/-- `Parser.parse_input_entry`. -/
def parse_input_entry : Nat → List Token → Except ParseError (InputEntry × List Token)
  | 0, _ => .error fuelErr
  | f + 1, ts => do
    let (nameT, ts1) ← expect [.IDENTIFIER] ts
    let (_, ts2) ← expect [.COLON] ts1
    let (tn, ts3) ← parse_type f ts2
    if (cur ts3).type = .LBRACKET then do
      let ts4 := (adv ts3).2
      let (cons, ts5) ← entry_constraints_loop f [] ts4
      let (_, ts6) ← expect [.RBRACKET] ts5
      .ok (⟨nameT.value, tn, cons, nameT.line, nameT.column⟩, ts6)
    else
      .ok (⟨nameT.value, tn, [], nameT.line, nameT.column⟩, ts3)

/-- The entry loop of `Parser.parse_input_block`. -/
def input_entries_loop :
    Nat → List InputEntry → List Token → Except ParseError (List InputEntry × List Token)
  | 0, _, _ => .error fuelErr
  | f + 1, acc, ts =>
    if (cur ts).type = .ENDINPUT then .ok (acc, ts)
    else do
      let (e, ts1) ← parse_input_entry f ts
      input_entries_loop f (acc ++ [e]) ts1

/-- `Parser.parse_input_block`. -/
def parse_input_block : Nat → List Token → Except ParseError (InputBlock × List Token)
  | 0, _ => .error fuelErr
  | f + 1, ts => do
    let (tok, ts1) ← expect [.INPUT] ts
    let (entries, ts2) ← input_entries_loop f [] ts1
    let (_, ts3) ← expect [.ENDINPUT] ts2
    .ok (⟨entries, tok.line, tok.column⟩, ts3)

/-- `Parser.parse_output_entry`. -/
def parse_output_entry : Nat → List Token → Except ParseError (OutputEntry × List Token)
  | 0, _ => .error fuelErr
  | f + 1, ts => do
    let (nameT, ts1) ← expect [.IDENTIFIER] ts
    let (_, ts2) ← expect [.COLON] ts1
    let (tn, ts3) ← parse_type f ts2
    if (cur ts3).type = .LBRACKET then do
      let ts4 := (adv ts3).2
      let (cons, ts5) ← entry_constraints_loop f [] ts4
      let (_, ts6) ← expect [.RBRACKET] ts5
      .ok (⟨nameT.value, tn, cons, nameT.line, nameT.column⟩, ts6)
    else
      .ok (⟨nameT.value, tn, [], nameT.line, nameT.column⟩, ts3)

/-- The entry loop of `Parser.parse_output_block`. -/
def output_entries_loop :
    Nat → List OutputEntry → List Token → Except ParseError (List OutputEntry × List Token)
  | 0, _, _ => .error fuelErr
  | f + 1, acc, ts =>
    if (cur ts).type = .ENDOUTPUT then .ok (acc, ts)
    else do
      let (e, ts1) ← parse_output_entry f ts
      output_entries_loop f (acc ++ [e]) ts1

/-- `Parser.parse_output_block`. -/
def parse_output_block : Nat → List Token → Except ParseError (OutputBlock × List Token)
  | 0, _ => .error fuelErr
  | f + 1, ts => do
    let (tok, ts1) ← expect [.OUTPUT] ts
    let (entries, ts2) ← output_entries_loop f [] ts1
    let (_, ts3) ← expect [.ENDOUTPUT] ts2
    .ok (⟨entries, tok.line, tok.column⟩, ts3)

/-- The GOAL input-reference loop of `parse_intent_block` (a comma followed by
the arrow ends the list). -/
def intent_inputs_loop :
    Nat → List Expression → List Token → Except ParseError (List Expression × List Token)
  | 0, _, _ => .error fuelErr
  | f + 1, acc, ts =>
    if (cur ts).type = .COMMA then
      let ts1 := (adv ts).2
      if (cur ts1).type = .ARROW then .ok (acc, ts1)
      else do
        let (e, ts2) ← parse_expression f ts1
        intent_inputs_loop f (acc ++ [e]) ts2
    else .ok (acc, ts)

/-- The GOAL output-reference loop of `parse_intent_block`. -/
def intent_outputs_loop :
    Nat → List Expression → List Token → Except ParseError (List Expression × List Token)
  | 0, _, _ => .error fuelErr
  | f + 1, acc, ts =>
    if (cur ts).type = .COMMA then do
      let ts1 := (adv ts).2
      let (e, ts2) ← parse_expression f ts1
      intent_outputs_loop f (acc ++ [e]) ts2
    else .ok (acc, ts)

/-- The priority token set of `parse_intent_block`. -/
def priority_toks : List TokenType :=
  [.CORRECTNESS, .PERFORMANCE, .MEMORY, .LATENCY, .THROUGHPUT]

/-- Priority token → PriorityType (the `priority_map`). -/
def priorityOf : TokenType → PriorityType
  | .CORRECTNESS => .CORRECTNESS
  | .PERFORMANCE => .PERFORMANCE
  | .MEMORY => .MEMORY
  | .LATENCY => .LATENCY
  | _ => .THROUGHPUT

/-- The `while self.match(GT)` priority chain loop of `parse_intent_block`. -/
def priority_loop :
    Nat → List PriorityType → List Token →
    Except ParseError (List PriorityType × List Token)
  | 0, _, _ => .error fuelErr
  | f + 1, acc, ts =>
    if (cur ts).type = .GT then do
      let ts1 := (adv ts).2
      let (pT, ts2) ← expect priority_toks ts1
      priority_loop f (acc ++ [priorityOf pT.type]) ts2
    else .ok (acc, ts)

/-- `Parser.parse_intent_block`. -/
def parse_intent_block : Nat → List Token → Except ParseError (IntentBlock × List Token)
  | 0, _ => .error fuelErr
  | f + 1, ts => do
    let (tok, ts1) ← expect [.INTENT] ts
    let (_, ts2) ← expect [.GOAL] ts1
    let (gT, ts3) ←
      expect [.TRANSFORM, .VALIDATE, .AGGREGATE, .FILTER, .ROUTE, .COMPOSE, .FETCH] ts2
    let gt : GoalType :=
      match gT.type with
      | .TRANSFORM => .TRANSFORM
      | .VALIDATE => .VALIDATE
      | .AGGREGATE => .AGGREGATE
      | .FILTER => .FILTER
      | .ROUTE => .ROUTE
      | .COMPOSE => .COMPOSE
      | _ => .FETCH
    let (_, ts4) ← expect [.COLON] ts3
    let (i0, ts5) ← parse_expression f ts4
    let (ins, ts6) ← intent_inputs_loop f [i0] ts5
    let (_, ts7) ← expect [.ARROW] ts6
    let (o0, ts8) ← parse_expression f ts7
    let (outs, ts9) ← intent_outputs_loop f [o0] ts8
    let gs : GoalSpec := ⟨ins, outs, gT.line, gT.column⟩
    let (prios, ts10) ←
      if (cur ts9).type = .PRIORITY then do
        let tsA := (adv ts9).2
        let (p0T, tsB) ← expect priority_toks tsA
        priority_loop f [priorityOf p0T.type] tsB
      else
        pure ([], ts9)
    let (fs, fref, ts11) ←
      if (cur ts10).type = .ON_FAILURE then do
        let tsA := (adv ts10).2
        let (sT, tsB) ← expect [.ABORT, .RETRY, .FALLBACK, .DEFAULT] tsA
        let strat : FailureStrategy :=
          match sT.type with
          | .ABORT => .ABORT
          | .RETRY => .RETRY
          | .FALLBACK => .FALLBACK
          | _ => .DEFAULT
        if strat = .FALLBACK ∨ strat = .DEFAULT then do
          let (fr, tsC) ← parse_expression f tsB
          pure (some strat, some fr, tsC)
        else
          pure (some strat, none, tsB)
      else
        pure (none, none, ts10)
    let (_, ts12) ← expect [.ENDINTENT] ts11
    .ok (⟨some gt, some gs, prios, fs, fref, tok.line, tok.column⟩, ts12)

/-- Constraint-keyword token → ConstraintType (the `constraint_type_map`). -/
def constraintOf : TokenType → ConstraintType
  | .REQUIRE => .REQUIRE
  | .FORBID => .FORBID
  | .PREFER => .PREFER
  | _ => .INVARIANT

/-- The statement loop of `parse_constraint_block`: `REQUIRE WITHIN <t>` is a
duration constraint; a token that is no constraint keyword is silently
skipped (`else: self.advance()`). -/
def constraint_loop :
    Nat → List Constraint → List Token → Except ParseError (List Constraint × List Token)
  | 0, _, _ => .error fuelErr
  | f + 1, acc, ts =>
    if (cur ts).type = .ENDCONSTRAINT then .ok (acc, ts)
    else if (cur ts).type = .REQUIRE ∧ (peek1 ts).type = .WITHIN then
      let ts1 := (adv ts).2
      let ts2 := (adv ts1).2
      let (tvT, ts3) := adv ts2
      let c := cur ts3
      let expr : Expression := .Literal (.str tvT.value) "duration" c.line c.column
      constraint_loop f (acc ++ [⟨.REQUIRE, some expr, c.line, c.column⟩]) ts3
    else if (cur ts).type ∈ [TokenType.REQUIRE, .FORBID, .PREFER, .INVARIANT] then do
      let (ctT, ts1) := adv ts
      let (e, ts2) ← parse_expression f ts1
      constraint_loop f (acc ++ [⟨constraintOf ctT.type, some e, ctT.line, ctT.column⟩]) ts2
    else
      constraint_loop f acc (adv ts).2

/-- `Parser.parse_constraint_block`. -/
def parse_constraint_block : Nat → List Token → Except ParseError (ConstraintBlock × List Token)
  | 0, _ => .error fuelErr
  | f + 1, ts => do
    let (tok, ts1) ← expect [.CONSTRAINT] ts
    let (cs, ts2) ← constraint_loop f [] ts1
    let (_, ts3) ← expect [.ENDCONSTRAINT] ts2
    .ok (⟨cs, tok.line, tok.column⟩, ts3)

/-- The operation-kind token list of `parse_flow_node` (`op_type_map` key
order). -/
def op_type_toks : List TokenType :=
  [.MAP, .FILTER, .REDUCE, .TRANSFORM, .BRANCH, .MERGE, .SPLIT, .JOIN, .RACE,
   .FETCH, .STORE, .CALL, .EMIT, .SUBSCRIBE, .VALIDATE, .SANITIZE, .AUTHORIZE]

/-- Operation token → OpType (the `op_type_map`). -/
def opTypeOf : TokenType → OpType
  | .MAP => .MAP
  | .FILTER => .FILTER
  | .REDUCE => .REDUCE
  | .TRANSFORM => .TRANSFORM
  | .BRANCH => .BRANCH
  | .MERGE => .MERGE
  | .SPLIT => .SPLIT
  | .JOIN => .JOIN
  | .RACE => .RACE
  | .FETCH => .FETCH
  | .STORE => .STORE
  | .CALL => .CALL
  | .EMIT => .EMIT
  | .SUBSCRIBE => .SUBSCRIBE
  | .VALIDATE => .VALIDATE
  | .SANITIZE => .SANITIZE
  | _ => .AUTHORIZE

/-- `Parser.parse_node_param`. -/
def parse_node_param : Nat → List Token → Except ParseError (NodeParam × List Token)
  | 0, _ => .error fuelErr
  | f + 1, ts => do
    let (nameT, ts1) ← expect [.IDENTIFIER] ts
    let (_, ts2) ← expect [.ASSIGN] ts1
    let (v, ts3) ← parse_expression f ts2
    .ok (⟨nameT.value, v, nameT.line, nameT.column⟩, ts3)

/-- The parameter loop of `parse_flow_node`. -/
def node_params_loop :
    Nat → List NodeParam → List Token → Except ParseError (List NodeParam × List Token)
  | 0, _, _ => .error fuelErr
  | f + 1, acc, ts =>
    if (cur ts).type = .RPAREN then .ok (acc, ts)
    else do
      let (p, ts1) ← parse_node_param f ts
      let ts2 := if (cur ts1).type = .COMMA then (adv ts1).2 else ts1
      node_params_loop f (acc ++ [p]) ts2

/-- `Parser.parse_flow_node` (an external reference in the operation position
is a custom operation, classified as CALL). -/
def parse_flow_node : Nat → List Token → Except ParseError (FlowNode × List Token)
  | 0, _ => .error fuelErr
  | f + 1, ts => do
    let (tok, ts1) ← expect [.NODE] ts
    let (idT, ts2) ← expect [.IDENTIFIER] ts1
    let (_, ts3) ← expect [.COLON] ts2
    let (opT, customOp, ts4) ←
      if (cur ts3).type = .EXTERNAL_REF then
        let (cT, tsA) := adv ts3
        pure (OpType.CALL, some cT.value, tsA)
      else do
        let (oT, tsA) ← expect op_type_toks ts3
        pure (opTypeOf oT.type, none, tsA)
    if (cur ts4).type = .LPAREN then do
      let ts5 := (adv ts4).2
      let (params, ts6) ← node_params_loop f [] ts5
      let (_, ts7) ← expect [.RPAREN] ts6
      .ok (⟨idT.value, opT, params, customOp, tok.line, tok.column⟩, ts7)
    else
      .ok (⟨idT.value, opT, [], customOp, tok.line, tok.column⟩, ts4)

/-- `Parser.parse_flow_edge`. -/
def parse_flow_edge : Nat → List Token → Except ParseError (FlowEdge × List Token)
  | 0, _ => .error fuelErr
  | f + 1, ts => do
    let (tok, ts1) ← expect [.EDGE] ts
    let (src, ts2) ← parse_expression f ts1
    let (_, ts3) ← expect [.ARROW] ts2
    let (tgt, ts4) ← parse_expression f ts3
    if (cur ts4).type = .WHEN then do
      let ts5 := (adv ts4).2
      let (c, ts6) ← parse_expression f ts5
      .ok (⟨src, tgt, some c, tok.line, tok.column⟩, ts6)
    else
      .ok (⟨src, tgt, none, tok.line, tok.column⟩, ts4)

/-- The statement loop of `parse_flow_block`: NODE and EDGE statements in any
mixture; any other token is silently skipped. -/
def flow_loop :
    Nat → List FlowNode → List FlowEdge → List Token →
    Except ParseError ((List FlowNode × List FlowEdge) × List Token)
  | 0, _, _, _ => .error fuelErr
  | f + 1, nodes, edges, ts =>
    if (cur ts).type = .ENDFLOW then .ok ((nodes, edges), ts)
    else if (cur ts).type = .NODE then do
      let (n, ts1) ← parse_flow_node f ts
      flow_loop f (nodes ++ [n]) edges ts1
    else if (cur ts).type = .EDGE then do
      let (e, ts1) ← parse_flow_edge f ts
      flow_loop f nodes (edges ++ [e]) ts1
    else
      flow_loop f nodes edges (adv ts).2

/-- `Parser.parse_flow_block`. -/
def parse_flow_block : Nat → List Token → Except ParseError (FlowBlock × List Token)
  | 0, _ => .error fuelErr
  | f + 1, ts => do
    let (tok, ts1) ← expect [.FLOW] ts
    let ((nodes, edges), ts2) ← flow_loop f [] [] ts1
    let (_, ts3) ← expect [.ENDFLOW] ts2
    .ok (⟨nodes, edges, tok.line, tok.column⟩, ts3)

/-- The mutable settings record the EXECUTION loop threads (the local
variables of `parse_execution_block`). -/
structure ExecSettings where
  parallel : Bool := false
  target : TargetType := .ANY
  memory : MemoryType := .UNBOUNDED
  memory_limit : Option String := none
  isolation : IsolationType := .NONE
  cache : CacheType := .NONE
  cache_size : Option Int := none
  deriving DecidableEq, Repr

/-- The settings loop of `parse_execution_block`; unrecognized tokens are
silently skipped. -/
def execution_loop :
    Nat → ExecSettings → List Token → Except ParseError (ExecSettings × List Token)
  | 0, _, _ => .error fuelErr
  | f + 1, st, ts =>
    if (cur ts).type = .ENDEXECUTION then .ok (st, ts)
    else if (cur ts).type = .PARALLEL then do
      let ts1 := (adv ts).2
      let (bT, ts2) ← expect [.BOOLEAN] ts1
      execution_loop f { st with parallel := bT.value == "true" } ts2
    else if (cur ts).type = .TARGET then do
      let ts1 := (adv ts).2
      let (tT, ts2) ← expect [.ANY, .CPU, .GPU, .WASM, .NATIVE] ts1
      let tv : TargetType :=
        match tT.type with
        | .ANY => .ANY
        | .CPU => .CPU
        | .GPU => .GPU
        | .WASM => .WASM
        | _ => .NATIVE
      execution_loop f { st with target := tv } ts2
    else if (cur ts).type = .MEMORY then do
      let ts1 := (adv ts).2
      let (mT, ts2) ← expect [.BOUNDED, .UNBOUNDED, .STACK_ONLY] ts1
      let mv : MemoryType :=
        match mT.type with
        | .BOUNDED => .BOUNDED
        | .UNBOUNDED => .UNBOUNDED
        | _ => .STACK_ONLY
      if mv = .BOUNDED ∧ (cur ts2).type = .NUMBER then
        let (nT, ts3) := adv ts2
        execution_loop f { st with memory := mv, memory_limit := some nT.value } ts3
      else
        execution_loop f { st with memory := mv } ts2
    else if (cur ts).type = .ISOLATION then do
      let ts1 := (adv ts).2
      let (iT, ts2) ← expect [.NONE, .THREAD, .PROCESS, .CONTAINER] ts1
      let iv : IsolationType :=
        match iT.type with
        | .NONE => .NONE
        | .THREAD => .THREAD
        | .PROCESS => .PROCESS
        | _ => .CONTAINER
      execution_loop f { st with isolation := iv } ts2
    else if (cur ts).type = .CACHE then do
      let ts1 := (adv ts).2
      let (cT, ts2) ← expect [.NONE, .LRU, .TTL] ts1
      let cv : CacheType :=
        match cT.type with
        | .NONE => .NONE
        | .LRU => .LRU
        | _ => .TTL
      if (cv = .LRU ∨ cv = .TTL) ∧ (cur ts2).type = .NUMBER then
        let (nT, ts3) := adv ts2
        match pyIntOpt nT.value with
        | some n => execution_loop f { st with cache := cv, cache_size := some n } ts3
        | none => .error ⟨"ValueError: invalid literal for int", nT.line, nT.column, some nT⟩
      else
        execution_loop f { st with cache := cv } ts2
    else
      execution_loop f st (adv ts).2

/-- `Parser.parse_execution_block`. -/
def parse_execution_block : Nat → List Token → Except ParseError (ExecutionBlock × List Token)
  | 0, _ => .error fuelErr
  | f + 1, ts => do
    let (tok, ts1) ← expect [.EXECUTION] ts
    let (st, ts2) ← execution_loop f {} ts1
    let (_, ts3) ← expect [.ENDEXECUTION] ts2
    .ok (⟨st.parallel, st.target, st.memory, st.memory_limit, st.isolation,
          st.cache, st.cache_size, tok.line, tok.column⟩, ts3)

/-- Verify-keyword token → VerifyType (the `verify_type_map`). -/
def verifyOf : TokenType → VerifyType
  | .ASSERT => .ASSERT
  | .PROPERTY => .PROPERTY
  | .INVARIANT => .INVARIANT
  | .POSTCONDITION => .POSTCONDITION
  | _ => .TEST

/-- The entry loop of `parse_verify_block`: `TEST @ref` entries and
expression entries; any other token is silently skipped. -/
def verify_loop :
    Nat → List VerifyEntry → List Token → Except ParseError (List VerifyEntry × List Token)
  | 0, _, _ => .error fuelErr
  | f + 1, acc, ts =>
    if (cur ts).type = .ENDVERIFY then .ok (acc, ts)
    else if (cur ts).type ∈ [TokenType.ASSERT, .PROPERTY, .INVARIANT, .POSTCONDITION, .TEST] then do
      let (vT, ts1) := adv ts
      let vt := verifyOf vT.type
      if vt = .TEST then do
        let (rT, ts2) ← expect [.EXTERNAL_REF] ts1
        verify_loop f (acc ++ [⟨vt, none, some rT.value, vT.line, vT.column⟩]) ts2
      else do
        let (e, ts2) ← parse_expression f ts1
        verify_loop f (acc ++ [⟨vt, some e, none, vT.line, vT.column⟩]) ts2
    else
      verify_loop f acc (adv ts).2

/-- `Parser.parse_verify_block`. -/
def parse_verify_block : Nat → List Token → Except ParseError (VerifyBlock × List Token)
  | 0, _ => .error fuelErr
  | f + 1, ts => do
    let (tok, ts1) ← expect [.VERIFY] ts
    let (entries, ts2) ← verify_loop f [] ts1
    let (_, ts3) ← expect [.ENDVERIFY] ts2
    .ok (⟨entries, tok.line, tok.column⟩, ts3)

/-- `Parser.parse`: the fixed nine-block sequence followed by END. -/
def parse_vais : Nat → List Token → Except ParseError (VaisUnit × List Token)
  | 0, _ => .error fuelErr
  | f + 1, ts => do
    let (ub, ts1) ← parse_unit_block f ts
    let (mb, ts2) ← parse_meta_block f ts1
    let (ib, ts3) ← parse_input_block f ts2
    let (ob, ts4) ← parse_output_block f ts3
    let (nb, ts5) ← parse_intent_block f ts4
    let (cb, ts6) ← parse_constraint_block f ts5
    let (fb, ts7) ← parse_flow_block f ts6
    let (eb, ts8) ← parse_execution_block f ts7
    let (vb, ts9) ← parse_verify_block f ts8
    let (_, ts10) ← expect [.END] ts9
    .ok ({ unit := some ub, meta := some mb, input := some ib, output := some ob,
           intent := some nb, constraint := some cb, flow := some fb,
           execution := some eb, verify := some vb,
           line := ub.line, column := ub.column }, ts10)

/-- The module-level `parse(source)` helper: tokenize, drop newlines, parse.
The fuel bounds the parser's recursion depth; ten times the token count
exceeds any depth reachable on the list. -/
def parse_source (source : String) :
    Except LexError (Except ParseError (VaisUnit × List Token)) :=
  (tokenize source).map fun toks =>
    parse_vais (10 * (toks.length + 1)) (filterNewlines toks)

/-- Parse one expression from source text (the expression grammar entry used
by the precedence and position claims). -/
def parse_expr_source (source : String) :
    Except LexError (Except ParseError (Expression × List Token)) :=
  (tokenize source).map fun toks =>
    parse_expression (10 * (toks.length + 1)) (filterNewlines toks)

/-! ## Validator (src/parser/validator.py, class Validator)

`validate` is a pure function: the imperative error list is the concatenation
of each pass's diagnostics in the pass order of `Validator.validate`.  The
`node` back-reference stored on Python's `ValidationError` (never read by any
consumer) is dropped; its `line`/`column` are kept.  The `external_refs` set
(written, never validated) is likewise dropped. -/

inductive ErrorSeverity where
  | ERROR | WARNING | INFO
  deriving DecidableEq, Repr

/-- `ValidationError(code, message, severity, line, column)`. -/
structure ValidationError where
  code : String
  message : String
  severity : ErrorSeverity
  line : Nat
  column : Nat
  deriving DecidableEq, Repr

/-- `Validator.add_error` (severity defaults to ERROR). -/
def add_error (code message : String) (line column : Nat)
    (severity : ErrorSeverity := .ERROR) : ValidationError :=
  ⟨code, message, severity, line, column⟩

/-- `Validator._validate_blocks_exist`: one ERROR per missing block slot, at
the root node's position. -/
def validate_blocks_exist (u : VaisUnit) : List ValidationError :=
  (if u.unit.isNone then [add_error "E1001" "Missing UNIT block" u.line u.column] else [])
  ++ (if u.meta.isNone then [add_error "E1002" "Missing META block" u.line u.column] else [])
  ++ (if u.input.isNone then [add_error "E1003" "Missing INPUT block" u.line u.column] else [])
  ++ (if u.output.isNone then [add_error "E1004" "Missing OUTPUT block" u.line u.column] else [])
  ++ (if u.intent.isNone then [add_error "E1005" "Missing INTENT block" u.line u.column] else [])
  ++ (if u.constraint.isNone then [add_error "E1006" "Missing CONSTRAINT block" u.line u.column] else [])
  ++ (if u.flow.isNone then [add_error "E1007" "Missing FLOW block" u.line u.column] else [])
  ++ (if u.execution.isNone then [add_error "E1008" "Missing EXECUTION block" u.line u.column] else [])
  ++ (if u.verify.isNone then [add_error "E1009" "Missing VERIFY block" u.line u.column] else [])

/-- The input-entry fold of `Validator._collect_fields`: a duplicate name
emits E2001 at the duplicate, and the assignment `input_fields[name] = type`
runs unconditionally (so the *last* occurrence's type wins). -/
def collect_input_fields :
    List InputEntry → List (String × TypeNode) → List ValidationError →
    List ValidationError × List (String × TypeNode)
  | [], m, errs => (errs, m)
  | e :: rest, m, errs =>
    let errs1 :=
      if dictHas m e.name then
        errs ++ [add_error "E2001" ("Duplicate input field: " ++ e.name) e.line e.column]
      else errs
    collect_input_fields rest (dictInsert m e.name e.type_node) errs1

/-- The output-entry fold of `Validator._collect_fields` (code E2002). -/
def collect_output_fields :
    List OutputEntry → List (String × TypeNode) → List ValidationError →
    List ValidationError × List (String × TypeNode)
  | [], m, errs => (errs, m)
  | e :: rest, m, errs =>
    let errs1 :=
      if dictHas m e.name then
        errs ++ [add_error "E2002" ("Duplicate output field: " ++ e.name) e.line e.column]
      else errs
    collect_output_fields rest (dictInsert m e.name e.type_node) errs1

/-- The flow-node fold of `Validator._collect_fields` (code E4001). -/
def collect_flow_nodes :
    List FlowNode → List (String × FlowNode) → List ValidationError →
    List ValidationError × List (String × FlowNode)
  | [], m, errs => (errs, m)
  | n :: rest, m, errs =>
    let errs1 :=
      if dictHas m n.node_id then
        errs ++ [add_error "E4001" ("Duplicate flow node: " ++ n.node_id) n.line n.column]
      else errs
    collect_flow_nodes rest (dictInsert m n.node_id n) errs1

/-- The state `Validator._collect_fields` leaves behind: its diagnostics and
the three maps (plus the stored edge list). -/
structure CollectResult where
  errors : List ValidationError
  input_fields : List (String × TypeNode)
  output_fields : List (String × TypeNode)
  flow_nodes : List (String × FlowNode)
  flow_edges : List FlowEdge

/-- `Validator._collect_fields`. -/
def collect_fields (u : VaisUnit) : CollectResult :=
  let (errsIn, inF) :=
    match u.input with
    | some ib => collect_input_fields ib.entries [] []
    | none => ([], [])
  let (errsOut, outF) :=
    match u.output with
    | some ob => collect_output_fields ob.entries [] []
    | none => ([], [])
  let (errsFlow, fN, fE) :=
    match u.flow with
    | some fb =>
      let (e, m) := collect_flow_nodes fb.nodes [] []
      (e, m, fb.edges)
    | none => ([], [], [])
  ⟨errsIn ++ errsOut ++ errsFlow, inF, outF, fN, fE⟩

/-- `Validator._validate_meta`: required-key WARNINGs, then the
DETERMINISM-must-be-boolean ERROR.  (Python iterates the required keys as a
two-element set, whose order is interpreter-dependent; the fixed order
DOMAIN, DETERMINISM is one of its realizations and no claim depends on it.) -/
def validate_meta : Option MetaBlock → List ValidationError
  | none => []
  | some meta =>
    let found := meta.entries.map (·.key)
    (if "DOMAIN" ∈ found then []
     else [add_error "E2010" "Missing required META entry: DOMAIN" meta.line meta.column .WARNING])
    ++ (if "DETERMINISM" ∈ found then []
     else [add_error "E2010" "Missing required META entry: DETERMINISM" meta.line meta.column .WARNING])
    ++ meta.entries.foldl (fun acc e =>
        acc ++
          (if e.key == "DETERMINISM" && (match e.value with | .boolean _ => false | _ => true) then
            [add_error "E2011" "DETERMINISM must be boolean (true/false)" e.line e.column]
          else [])) []

mutual

/-- `Validator._validate_type`: recurses into composite types and rejects no
base case, so it emits nothing. -/
def validate_type : TypeNode → List ValidationError
  | .PrimitiveType _ _ _ => []
  | .TypeRef _ _ _ => []
  | .ArrayType et _ _ => validate_type et
  | .MapType kt vt _ _ => validate_type kt ++ validate_type vt
  | .StructType fields _ _ => validate_type_fields fields
  | .OptionalType it _ _ => validate_type it
  | .UnionType tys _ _ => validate_type_list tys

/-- The struct-field recursion of `_validate_type`. -/
def validate_type_fields : List (String × TypeNode) → List ValidationError
  | [] => []
  | (_, t) :: rest => validate_type t ++ validate_type_fields rest

/-- The union-member recursion of `_validate_type`. -/
def validate_type_list : List TypeNode → List ValidationError
  | [] => []
  | t :: rest => validate_type t ++ validate_type_list rest

end

/-- `Validator._validate_input`. -/
def validate_input : Option InputBlock → List ValidationError
  | none => []
  | some ib => ib.entries.foldl (fun acc e => acc ++ validate_type e.type_node) []

/-- `Validator._validate_output`. -/
def validate_output : Option OutputBlock → List ValidationError
  | none => []
  | some ob => ob.entries.foldl (fun acc e => acc ++ validate_type e.type_node) []

/-- `Validator._validate_intent`: missing goal type, empty goal inputs, empty
goal outputs. -/
def validate_intent : Option IntentBlock → List ValidationError
  | none => []
  | some intent =>
    (if intent.goal_type.isNone then
      [add_error "E3001" "Missing GOAL type in INTENT" intent.line intent.column]
     else [])
    ++ (match intent.goal_spec with
      | some gs =>
        (if gs.inputs.isEmpty then
          [add_error "E3002" "GOAL must have at least one input" intent.line intent.column]
         else [])
        ++ (if gs.outputs.isEmpty then
          [add_error "E3003" "GOAL must have at least one output" intent.line intent.column]
         else [])
      | none => [])

/-- The expression recursion of `Validator._validate_expression_refs`:
`input.<f>`/`output.<f>` field accesses are resolved against the collected
maps; only BinaryOp recurses; errors carry the *parent* node's position. -/
def expr_refs (inF outF : List (String × TypeNode)) (pline pcol : Nat) :
    Expression → List ValidationError
  | .FieldAccess base fname _ _ =>
    (match base with
     | .Identifier bn _ _ =>
       if bn = "input" then
         if dictHas inF fname then []
         else [add_error "E5001" ("Unknown input field: " ++ fname) pline pcol]
       else if bn = "output" then
         if dictHas outF fname then []
         else [add_error "E5002" ("Unknown output field: " ++ fname) pline pcol]
       else []
     | _ => [])
  | .BinaryOp l _ r _ _ =>
    expr_refs inF outF pline pcol l ++ expr_refs inF outF pline pcol r
  | _ => []

/-- `Validator._validate_expression_refs` (the `if not expr: return` guard). -/
def validate_expression_refs (inF outF : List (String × TypeNode)) (pline pcol : Nat) :
    Option Expression → List ValidationError
  | none => []
  | some e => expr_refs inF outF pline pcol e

/-- `Validator._validate_constraint`. -/
def validate_constraint (inF outF : List (String × TypeNode)) :
    Option ConstraintBlock → List ValidationError
  | none => []
  | some cb =>
    cb.constraints.foldl (fun acc c =>
      acc ++ validate_expression_refs inF outF c.line c.column c.expression) []

/-- The `required_params` table of `Validator._validate_flow_node`; an
operation kind outside the table is not checked at all. -/
def required_params : OpType → Option (List String)
  | .MAP => some ["fn"]
  | .FILTER => some ["condition"]
  | .REDUCE => some ["fn"]
  | .FETCH => some ["source"]
  | .STORE => some ["target"]
  | .CALL => some []
  | .BRANCH => some []
  | .TRANSFORM => some []
  | _ => none

/-- `Validator._validate_flow_node`: WARNING per missing required parameter. -/
def validate_flow_node (n : FlowNode) : List ValidationError :=
  match required_params n.op_type with
  | none => []
  | some req =>
    let pnames := n.params.map (·.name)
    req.filterMap fun r =>
      if r ∈ pnames then none
      else some (add_error "E4010"
        ("Node '" ++ n.node_id ++ "' missing required param: " ++ r)
        n.line n.column .WARNING)

/-- `Validator._get_node_ref`: an endpoint expression resolved to
`(base, optional port)`; anything but an identifier or a field access over an
identifier resolves to nothing. -/
def get_node_ref : Expression → Option (String × Option String)
  | .Identifier n _ _ => some (n, none)
  | .FieldAccess base f _ _ =>
    (match base with
     | .Identifier n _ _ => some (n, some f)
     | _ => none)
  | _ => none

/-- `Validator._validate_flow_edge`: the source check special-cases base
INPUT (E4020/E4021), the target check special-cases base OUTPUT
(E4022/E4023); both error lists are emitted at the edge's position. -/
def validate_flow_edge (inF outF : List (String × TypeNode))
    (fnodes : List (String × FlowNode)) (edge : FlowEdge) : List ValidationError :=
  (match get_node_ref edge.source with
   | some (base, port) =>
     if base = "INPUT" then
       (match port with
        | some p =>
          if dictHas inF p then []
          else [add_error "E4020" ("Unknown input field: " ++ p) edge.line edge.column]
        | none => [])
     else if ¬ dictHas fnodes base ∧ base ≠ "INPUT" then
       [add_error "E4021" ("Unknown source node: " ++ base) edge.line edge.column]
     else []
   | none => [])
  ++ (match get_node_ref edge.target with
   | some (base, port) =>
     if base = "OUTPUT" then
       (match port with
        | some p =>
          if dictHas outF p then []
          else [add_error "E4022" ("Unknown output field: " ++ p) edge.line edge.column]
        | none => [])
     else if ¬ dictHas fnodes base ∧ base ≠ "OUTPUT" then
       [add_error "E4023" ("Unknown target node: " ++ base) edge.line edge.column]
     else []
   | none => [])

/-- The endpoint bases mentioned by a flow block's edges (Python's
`connected_nodes` set, as the list of its insertions). -/
def edge_bases (edges : List FlowEdge) : List String :=
  edges.foldl (fun acc e =>
    acc
    ++ (match get_node_ref e.source with | some (b, _) => [b] | none => [])
    ++ (match get_node_ref e.target with | some (b, _) => [b] | none => [])) []

/-- `Validator._validate_flow_connectivity`: after discarding INPUT and
OUTPUT from the connected set, every declared node id that is no edge
endpoint base gets a WARNING. -/
def validate_flow_connectivity (fnodes : List (String × FlowNode))
    (flow : FlowBlock) : List ValidationError :=
  if flow.nodes.isEmpty then []
  else
    let bases := edge_bases flow.edges
    fnodes.filterMap fun p =>
      if p.1 ∈ bases ∧ p.1 ≠ "INPUT" ∧ p.1 ≠ "OUTPUT" then none
      else some (add_error "E4030"
        ("Node '" ++ p.1 ++ "' is not connected to any edge")
        p.2.line p.2.column .WARNING)

/-- `Validator._validate_flow`: per-node checks, per-edge checks,
connectivity. -/
def validate_flow (inF outF : List (String × TypeNode))
    (fnodes : List (String × FlowNode)) : Option FlowBlock → List ValidationError
  | none => []
  | some fb =>
    fb.nodes.foldl (fun acc n => acc ++ validate_flow_node n) []
    ++ fb.edges.foldl (fun acc e => acc ++ validate_flow_edge inF outF fnodes e) []
    ++ validate_flow_connectivity fnodes fb

/-- `Validator._validate_execution` (Python's falsiness of `memory_limit`
covers both `None` and the empty string). -/
def validate_execution : Option ExecutionBlock → List ValidationError
  | none => []
  | some ex =>
    if ex.memory == .BOUNDED && (match ex.memory_limit with | none => true | some s => s == "") then
      [add_error "E6001" "BOUNDED memory requires a limit (e.g., 256MB)"
        ex.line ex.column .WARNING]
    else []

/-- `Validator._validate_verify` (falsiness of `test_ref` likewise covers
`None` and the empty string). -/
def validate_verify : Option VerifyBlock → List ValidationError
  | none => []
  | some vb =>
    vb.entries.foldl (fun acc e =>
      acc ++
        (if e.verify_type = .TEST then
          (match e.test_ref with
           | none => [add_error "E7001" "TEST entry requires a reference" e.line e.column]
           | some r =>
             if r = "" then [add_error "E7001" "TEST entry requires a reference" e.line e.column]
             else [])
         else
          (match e.expression with
           | none =>
             [add_error "E7002" (e.verify_type.value ++ " entry requires an expression")
               e.line e.column]
           | some _ => []))) []

/-- `Validator._validate_cross_references`: the INTENT goal's input and
output expression lists re-run the field-reference resolution, at the intent
block's position. -/
def validate_cross_references (inF outF : List (String × TypeNode)) (u : VaisUnit) :
    List ValidationError :=
  match u.intent with
  | some intent =>
    (match intent.goal_spec with
     | some gs =>
       gs.inputs.foldl (fun acc e => acc ++ expr_refs inF outF intent.line intent.column e) []
       ++ gs.outputs.foldl (fun acc e => acc ++ expr_refs inF outF intent.line intent.column e) []
     | none => [])
  | none => []

/-- `Validator.validate` / the module-level `validate` helper: all passes in
their fixed order, diagnostics concatenated. -/
def validate (u : VaisUnit) : List ValidationError :=
  let cf := collect_fields u
  validate_blocks_exist u
  ++ cf.errors
  ++ validate_meta u.meta
  ++ validate_input u.input
  ++ validate_output u.output
  ++ validate_intent u.intent
  ++ validate_constraint cf.input_fields cf.output_fields u.constraint
  ++ validate_flow cf.input_fields cf.output_fields cf.flow_nodes u.flow
  ++ validate_execution u.execution
  ++ validate_verify u.verify
  ++ validate_cross_references cf.input_fields cf.output_fields u

/-! ## Concrete documents used by the claims -/

/-- `input.a` as parsed inside INTENT/CONSTRAINT/VERIFY expressions. -/
def inDotA : Expression := .FieldAccess (.Identifier "input" 14 18) "a" 14 18
def inDotB : Expression := .FieldAccess (.Identifier "input" 14 27) "b" 14 27
def outDotSum : Expression := .FieldAccess (.Identifier "output" 14 39) "sum" 14 39

def unitB : UnitBlock := ⟨.FUNCTION, ⟨["examples", "add"], 1, 6⟩, some "V1.0.0", 1, 1⟩
def metaB : MetaBlock :=
  ⟨[⟨"DOMAIN", .string "examples.math", 3, 3⟩, ⟨"DETERMINISM", .boolean true, 4, 3⟩], 2, 1⟩
def inputB : InputBlock :=
  ⟨[⟨"a", .PrimitiveType "INT32" 7 7, [], 7, 3⟩, ⟨"b", .PrimitiveType "INT32" 8 7, [], 8, 3⟩], 6, 1⟩
def outputB : OutputBlock :=
  ⟨[⟨"sum", .PrimitiveType "INT32" 11 9, [], 11, 3⟩], 10, 1⟩
def intentB : IntentBlock :=
  ⟨some .TRANSFORM, some ⟨[inDotA, inDotB], [outDotSum], 14, 8⟩, [.CORRECTNESS], none, none, 13, 1⟩
def constraintB : ConstraintBlock :=
  ⟨[⟨.REQUIRE, some (.BinaryOp inDotA ">=" (.Literal (.num 0) "number" 17 24) 17 11), 17, 3⟩], 16, 1⟩
def flowB : FlowBlock :=
  ⟨[⟨"add", .TRANSFORM, [⟨"op", .Identifier "ADD" 20 24, 20, 21⟩], none, 20, 3⟩],
   [⟨.FieldAccess (.Identifier "INPUT" 21 8) "a" 21 8, .Identifier "add" 21 19, none, 21, 3⟩,
    ⟨.FieldAccess (.Identifier "INPUT" 22 8) "b" 22 8, .Identifier "add" 22 19, none, 22, 3⟩,
    ⟨.Identifier "add" 23 8, .FieldAccess (.Identifier "OUTPUT" 23 15) "sum" 23 15, none, 23, 3⟩],
   19, 1⟩
def execB : ExecutionBlock := ⟨false, .ANY, .UNBOUNDED, none, .NONE, .NONE, none, 25, 1⟩
def verifyB : VerifyBlock :=
  ⟨[⟨.ASSERT, some (.BinaryOp outDotSum "==" (.BinaryOp inDotA "+" inDotB 29 24) 29 10), none, 29, 3⟩,
    ⟨.TEST, none, some "@tests.add", 30, 3⟩], 28, 1⟩

/-- A complete well-formed document AST (the add-two-numbers example of the
spec's end-to-end scenario); `validate baseUnit = []`. -/
def baseUnit : VaisUnit :=
  { unit := some unitB, meta := some metaB, input := some inputB, output := some outputB,
    intent := some intentB, constraint := some constraintB, flow := some flowB,
    execution := some execB, verify := some verifyB, line := 1, column := 1 }

/-- `baseUnit` with its INPUT block holding exactly two entries named `b`
(first INT32, then STRING); everything else unchanged and well-formed. -/
def dupFieldInput : InputBlock :=
  ⟨[⟨"a", .PrimitiveType "INT32" 7 7, [], 7, 3⟩,
    ⟨"b", .PrimitiveType "INT32" 8 7, [], 8, 3⟩,
    ⟨"b", .PrimitiveType "STRING" 9 7, [], 9, 3⟩], 6, 1⟩

def dupFieldUnit : VaisUnit := { baseUnit with input := some dupFieldInput }

/-- Root of the expression parsed from a source string, when lexing and
parsing both succeed. -/
def parsedExprRoot (s : String) : Option Expression :=
  match parse_expr_source s with
  | .ok (.ok (e, _)) => some e
  | _ => none

/-! ## Claims -/

/-- Claim C1 (code bug): the spec says `tokenize` never raises, but a string
or regex literal whose final character is an escaping backslash makes
`read_string`/`read_regex` execute `value += self.advance()` with `advance()
= None`, a TypeError.  The model returns the corresponding error on the
two-character inputs `"\` and `/\`, while an unterminated string *without* a
trailing escape still closes silently, with the token list ending in the one
EOF token. -/
theorem C1_tokenize_escape_at_eof :
  tokenize "\"\\" = .error .strEscapeAtEof ∧
  tokenize "/\\" = .error .regexEscapeAtEof ∧
  tokenize "\"ab" = .ok [⟨.STRING_LITERAL, "ab", 1, 1⟩, ⟨.EOF, "", 1, 4⟩] :=
  ⟨by rfl, by rfl, by rfl⟩

/-- Claim C3, counterexample: in `"a or b and c"` the words `or`/`and` are
lowercase, and the keyword table only contains `OR`/`AND`, so both lex as
IDENTIFIER; the parsed expression is just the identifier `a` (with the four
remaining identifier tokens unconsumed), not an `or` node. -/
theorem C3_counterexample :
  parsedExprRoot "a or b and c" = some (.Identifier "a" 1 1) ∧
  ∀ l op r ln c, parsedExprRoot "a or b and c" ≠ some (.BinaryOp l op r ln c) := by
  refine ⟨by rfl, ?_⟩
  intro l op r ln c h
  rw [show parsedExprRoot "a or b and c" = some (.Identifier "a" 1 1) from by rfl] at h
  simp at h

/-- Claim C3, amended: parsing `"a + b * c"` yields a `+` root whose right
child is a `*` node, and parsing `"a OR b AND c"` (the logical operators are
the uppercase keywords `OR`/`AND`) yields an `OR` root whose right child is
an `AND` node. -/
theorem C3_amended_precedence :
  parsedExprRoot "a + b * c" =
    some (.BinaryOp (.Identifier "a" 1 1) "+"
      (.BinaryOp (.Identifier "b" 1 5) "*" (.Identifier "c" 1 9) 1 5) 1 1) ∧
  parsedExprRoot "a OR b AND c" =
    some (.BinaryOp (.Identifier "a" 1 1) "OR"
      (.BinaryOp (.Identifier "b" 1 6) "AND" (.Identifier "c" 1 12) 1 6) 1 1) :=
  ⟨by rfl, by rfl⟩

/-- Claim C4, counterexample: a CONSTRAINT block whose body is one
unrecognized token (here a `:`) parses *successfully* — the token is silently
skipped — whereas the claim says an unrecognized token inside CONSTRAINT
makes the parse fail. -/
theorem C4_counterexample :
  parse_constraint_block 9
    [⟨.CONSTRAINT, "CONSTRAINT", 1, 1⟩, ⟨.COLON, ":", 2, 3⟩,
     ⟨.ENDCONSTRAINT, "ENDCONSTRAINT", 3, 1⟩, ⟨.EOF, "", 4, 1⟩] =
    .ok (⟨[], 1, 1⟩, [⟨.EOF, "", 4, 1⟩]) := by rfl

/-- Claim C5, counterexample: the expression `NOT x` is a UnaryOp whose
stored position is its operand's column 5, while the leftmost token of the
expression (`NOT`) is at column 1; likewise `( a )` yields a node at column 3
while its leftmost token `(` is at column 1. -/
theorem C5_counterexample :
  tokenize "NOT x" = .ok [⟨.NOT, "NOT", 1, 1⟩, ⟨.IDENTIFIER, "x", 1, 5⟩, ⟨.EOF, "", 1, 6⟩] ∧
  parsedExprRoot "NOT x" = some (.UnaryOp "NOT" (.Identifier "x" 1 5) 1 5) ∧
  tokenize "( a )" =
    .ok [⟨.LPAREN, "(", 1, 1⟩, ⟨.IDENTIFIER, "a", 1, 3⟩, ⟨.RPAREN, ")", 1, 5⟩, ⟨.EOF, "", 1, 6⟩] ∧
  parsedExprRoot "( a )" = some (.Identifier "a" 1 3) ∧
  (5 : Nat) ≠ 1 ∧ (3 : Nat) ≠ 1 :=
  ⟨by rfl, by rfl, by rfl, by rfl, by decide, by decide⟩

/-- A declared flow node named n1 (used by the C7 counterexample). -/
def c7node : FlowNode := ⟨"n1", .TRANSFORM, [], none, 20, 3⟩

/-- Claim C7, counterexample: a *source* endpoint with base OUTPUT and a port
that exists in the output-field map is **not** checked against that map — the
source check only special-cases INPUT — so the edge
`EDGE OUTPUT.sum -> n1` yields E4021 ("Unknown source node: OUTPUT") even
though `sum` is in the output-field map and the claim predicts no error. -/
theorem C7_counterexample :
  dictHas [("sum", (.PrimitiveType "INT32" 11 9 : TypeNode))] "sum" = true ∧
  validate_flow_edge [] [("sum", .PrimitiveType "INT32" 11 9)] [("n1", c7node)]
      ⟨.FieldAccess (.Identifier "OUTPUT" 21 8) "sum" 21 8, .Identifier "n1" 21 22, none, 21, 3⟩ =
    [add_error "E4021" "Unknown source node: OUTPUT" 21 3] :=
  ⟨by rfl, by rfl⟩

/-- The declarative per-edge rule of the amended claim C7: a source endpoint
with base INPUT (a target endpoint with base OUTPUT) checks its port, if any,
against the input (output) field map; a source (target) endpoint with any
other base — OUTPUT (INPUT) included — must name a declared flow node; an
endpoint that resolves to nothing is skipped. -/
def flow_edge_spec (inF outF : List (String × TypeNode))
    (fnodes : List (String × FlowNode)) (edge : FlowEdge) : List ValidationError :=
  (match get_node_ref edge.source with
   | some (base, port) =>
     if base = "INPUT" then
       (match port with
        | some p =>
          if dictHas inF p then []
          else [add_error "E4020" ("Unknown input field: " ++ p) edge.line edge.column]
        | none => [])
     else if dictHas fnodes base then []
     else [add_error "E4021" ("Unknown source node: " ++ base) edge.line edge.column]
   | none => [])
  ++ (match get_node_ref edge.target with
   | some (base, port) =>
     if base = "OUTPUT" then
       (match port with
        | some p =>
          if dictHas outF p then []
          else [add_error "E4022" ("Unknown output field: " ++ p) edge.line edge.column]
        | none => [])
     else if dictHas fnodes base then []
     else [add_error "E4023" ("Unknown target node: " ++ base) edge.line edge.column]
   | none => [])

/-- Claim C7, amended: each endpoint that resolves to a `(base, port)` pair
is checked per *role*: a source endpoint with base INPUT (a target endpoint
with base OUTPUT) errors exactly when it has a port missing from the input
(output) field map; a source (target) endpoint with any other base — OUTPUT
(INPUT) included — errors exactly when the base is not a declared flow node;
an unresolvable endpoint is skipped. -/
theorem C7_amended_edge_rule (inF outF : List (String × TypeNode))
    (fnodes : List (String × FlowNode)) (edge : FlowEdge) :
    validate_flow_edge inF outF fnodes edge = flow_edge_spec inF outF fnodes edge := by
  unfold validate_flow_edge flow_edge_spec
  congr 1
  · cases h : get_node_ref edge.source with
    | none => rfl
    | some bp =>
      obtain ⟨base, port⟩ := bp
      by_cases hb : base = "INPUT"
      · simp [hb]
      · by_cases hn : dictHas fnodes base
        · simp [hb, hn]
        · simp [hb, hn]
  · cases h : get_node_ref edge.target with
    | none => rfl
    | some bp =>
      obtain ⟨base, port⟩ := bp
      by_cases hb : base = "OUTPUT"
      · simp [hb]
      · by_cases hn : dictHas fnodes base
        · simp [hb, hn]
        · simp [hb, hn]

-- ## code classification lemmas

theorem mem_foldl_append {α β : Type} (g : α → List β) (l : List α) (init : List β) (x : β) :
    x ∈ l.foldl (fun acc a => acc ++ g a) init → x ∈ init ∨ ∃ a ∈ l, x ∈ g a := by
  induction l generalizing init with
  | nil => intro h; exact .inl h
  | cons a t ih =>
    intro h
    rcases ih _ h with h' | h'
    · rcases List.mem_append.1 h' with h'' | h''
      · exact .inl h''
      · exact .inr ⟨a, by simp, h''⟩
    · obtain ⟨b, hb, hx⟩ := h'
      exact .inr ⟨b, by simp [hb], hx⟩

theorem collect_input_fields_mem (es : List InputEntry) (m : List (String × TypeNode))
    (errs : List ValidationError) (x : ValidationError) :
    x ∈ (collect_input_fields es m errs).1 → x ∈ errs ∨ x.code = "E2001" := by
  induction es generalizing m errs with
  | nil => intro h; exact .inl h
  | cons e t ih =>
    intro h
    simp only [collect_input_fields] at h
    rcases ih _ _ h with h' | h'
    · by_cases hd : dictHas m e.name
      · simp [hd] at h'
        rcases h' with h'' | h''
        · exact .inl h''
        · subst h''; exact .inr rfl
      · simp [hd] at h'
        exact .inl h'
    · exact .inr h'

theorem collect_output_fields_mem (es : List OutputEntry) (m : List (String × TypeNode))
    (errs : List ValidationError) (x : ValidationError) :
    x ∈ (collect_output_fields es m errs).1 → x ∈ errs ∨ x.code = "E2002" := by
  induction es generalizing m errs with
  | nil => intro h; exact .inl h
  | cons e t ih =>
    intro h
    simp only [collect_output_fields] at h
    rcases ih _ _ h with h' | h'
    · by_cases hd : dictHas m e.name
      · simp [hd] at h'
        rcases h' with h'' | h''
        · exact .inl h''
        · subst h''; exact .inr rfl
      · simp [hd] at h'; exact .inl h'
    · exact .inr h'

theorem collect_flow_nodes_mem (ns : List FlowNode) (m : List (String × FlowNode))
    (errs : List ValidationError) (x : ValidationError) :
    x ∈ (collect_flow_nodes ns m errs).1 → x ∈ errs ∨ x.code = "E4001" := by
  induction ns generalizing m errs with
  | nil => intro h; exact .inl h
  | cons e t ih =>
    intro h
    simp only [collect_flow_nodes] at h
    rcases ih _ _ h with h' | h'
    · by_cases hd : dictHas m e.node_id
      · simp [hd] at h'
        rcases h' with h'' | h''
        · exact .inl h''
        · subst h''; exact .inr rfl
      · simp [hd] at h'; exact .inl h'
    · exact .inr h'

theorem collect_fields_codes (u : VaisUnit) (x : ValidationError) :
    x ∈ (collect_fields u).errors →
    x.code = "E2001" ∨ x.code = "E2002" ∨ x.code = "E4001" := by
  intro h
  simp only [collect_fields, List.mem_append] at h
  rcases h with (h | h) | h
  · cases hu : u.input with
    | none => rw [hu] at h; simp at h
    | some ib =>
      rw [hu] at h
      rcases collect_input_fields_mem ib.entries [] [] x h with h' | h'
      · simp at h'
      · exact .inl h'
  · cases hu : u.output with
    | none => rw [hu] at h; simp at h
    | some ob =>
      rw [hu] at h
      rcases collect_output_fields_mem ob.entries [] [] x h with h' | h'
      · simp at h'
      · exact .inr (.inl h')
  · cases hu : u.flow with
    | none => rw [hu] at h; simp at h
    | some fb =>
      rw [hu] at h
      rcases collect_flow_nodes_mem fb.nodes [] [] x h with h' | h'
      · simp at h'
      · exact .inr (.inr h')


theorem validate_meta_codes (m : Option MetaBlock) (x : ValidationError) :
    x ∈ validate_meta m → x.code = "E2010" ∨ x.code = "E2011" := by
  intro h
  cases m with
  | none => simp [validate_meta] at h
  | some meta =>
    simp only [validate_meta, List.mem_append] at h
    rcases h with (h | h) | h
    · split at h <;> simp at h
      · subst h; exact .inl rfl
    · split at h <;> simp at h
      · subst h; exact .inl rfl
    · rcases mem_foldl_append _ _ _ _ h with h' | ⟨e, _, hx⟩
      · simp at h'
      · split at hx
        · simp at hx; subst hx; exact .inr rfl
        · simp at hx

mutual

theorem validate_type_eq_nil (t : TypeNode) : validate_type t = [] :=
  match t with
  | .PrimitiveType _ _ _ => rfl
  | .TypeRef _ _ _ => rfl
  | .ArrayType et _ _ => validate_type_eq_nil et
  | .MapType kt vt _ _ => by
    simp [validate_type, validate_type_eq_nil kt, validate_type_eq_nil vt]
  | .StructType fields _ _ => validate_type_fields_eq_nil fields
  | .OptionalType it _ _ => validate_type_eq_nil it
  | .UnionType tys _ _ => validate_type_list_eq_nil tys

theorem validate_type_fields_eq_nil (fs : List (String × TypeNode)) :
    validate_type_fields fs = [] :=
  match fs with
  | [] => rfl
  | (_, t) :: rest => by
    simp [validate_type_fields, validate_type_eq_nil t, validate_type_fields_eq_nil rest]

theorem validate_type_list_eq_nil (ts : List TypeNode) : validate_type_list ts = [] :=
  match ts with
  | [] => rfl
  | t :: rest => by
    simp [validate_type_list, validate_type_eq_nil t, validate_type_list_eq_nil rest]

end

theorem foldl_append_of_nil {α β : Type} {g : α → List β} (hg : ∀ a, g a = []) :
    ∀ (l : List α) (init : List β), l.foldl (fun acc a => acc ++ g a) init = init := by
  intro l
  induction l with
  | nil => intro init; rfl
  | cons a t ih => intro init; simp only [List.foldl_cons, hg a, List.append_nil]; exact ih init

theorem validate_input_eq_nil (i : Option InputBlock) : validate_input i = [] := by
  cases i with
  | none => rfl
  | some ib => exact foldl_append_of_nil (fun e => validate_type_eq_nil e.type_node) ib.entries []

theorem validate_output_eq_nil (o : Option OutputBlock) : validate_output o = [] := by
  cases o with
  | none => rfl
  | some ob => exact foldl_append_of_nil (fun e => validate_type_eq_nil e.type_node) ob.entries []

theorem validate_intent_codes (i : Option IntentBlock) (x : ValidationError) :
    x ∈ validate_intent i → x.code = "E3001" ∨ x.code = "E3002" ∨ x.code = "E3003" := by
  intro h
  cases i with
  | none => simp [validate_intent] at h
  | some intent =>
    simp only [validate_intent, List.mem_append] at h
    rcases h with h | h
    · split at h <;> simp at h
      · subst h; exact .inl rfl
    · split at h
      · simp only [List.mem_append] at h
        rcases h with h | h
        · split at h <;> simp at h
          · subst h; exact .inr (.inl rfl)
        · split at h <;> simp at h
          · subst h; exact .inr (.inr rfl)
      · simp at h

theorem expr_refs_codes (inF outF : List (String × TypeNode)) (pl pc : Nat)
    (e : Expression) (x : ValidationError) :
    x ∈ expr_refs inF outF pl pc e → x.code = "E5001" ∨ x.code = "E5002" :=
  match e with
  | .Literal _ _ _ _ => by intro h; simp [expr_refs] at h
  | .Identifier _ _ _ => by intro h; simp [expr_refs] at h
  | .ExternalRef _ _ _ => by intro h; simp [expr_refs] at h
  | .UnaryOp _ _ _ _ => by intro h; simp [expr_refs] at h
  | .FunctionCall _ _ _ _ => by intro h; simp [expr_refs] at h
  | .FieldAccess base fname _ _ => by
    intro h
    simp only [expr_refs] at h
    cases base <;> simp at h
    case Identifier bn _ _ =>
      split at h
      · split at h <;> simp at h
        · subst h; exact .inl rfl
      · split at h
        · split at h <;> simp at h
          · subst h; exact .inr rfl
        · simp at h
  | .BinaryOp l _ r _ _ => by
    intro h
    simp only [expr_refs, List.mem_append] at h
    rcases h with h | h
    · exact expr_refs_codes inF outF pl pc l x h
    · exact expr_refs_codes inF outF pl pc r x h


theorem validate_expression_refs_codes (inF outF : List (String × TypeNode)) (pl pc : Nat)
    (oe : Option Expression) (x : ValidationError) :
    x ∈ validate_expression_refs inF outF pl pc oe →
    x.code = "E5001" ∨ x.code = "E5002" := by
  cases oe with
  | none => intro h; simp [validate_expression_refs] at h
  | some e => exact expr_refs_codes inF outF pl pc e x

theorem validate_constraint_codes (inF outF : List (String × TypeNode))
    (cb : Option ConstraintBlock) (x : ValidationError) :
    x ∈ validate_constraint inF outF cb → x.code = "E5001" ∨ x.code = "E5002" := by
  intro h
  cases cb with
  | none => simp [validate_constraint] at h
  | some cb =>
    rcases mem_foldl_append _ _ _ _ h with h' | ⟨c, _, hx⟩
    · simp at h'
    · exact validate_expression_refs_codes _ _ _ _ _ _ hx

theorem validate_flow_node_codes (n : FlowNode) (x : ValidationError) :
    x ∈ validate_flow_node n → x.code = "E4010" ∧ x.severity = .WARNING := by
  intro h
  simp only [validate_flow_node] at h
  split at h
  · simp at h
  · rcases List.mem_filterMap.1 h with ⟨r, _, hr⟩
    split at hr
    · simp at hr
    · simp at hr
      subst hr
      exact ⟨rfl, rfl⟩

theorem validate_flow_edge_codes (inF outF : List (String × TypeNode))
    (fnodes : List (String × FlowNode)) (edge : FlowEdge) (x : ValidationError) :
    x ∈ validate_flow_edge inF outF fnodes edge →
    x.code = "E4020" ∨ x.code = "E4021" ∨ x.code = "E4022" ∨ x.code = "E4023" := by
  intro h
  simp only [validate_flow_edge, List.mem_append] at h
  rcases h with h | h
  · split at h
    · split at h
      · split at h
        · split at h <;> simp at h
          · subst h; exact .inl rfl
        · simp at h
      · split at h <;> simp at h
        · subst h; exact .inr (.inl rfl)
    · simp at h
  · split at h
    · split at h
      · split at h
        · split at h <;> simp at h
          · subst h; exact .inr (.inr (.inl rfl))
        · simp at h
      · split at h <;> simp at h
        · subst h; exact .inr (.inr (.inr rfl))
    · simp at h

theorem validate_flow_connectivity_codes (fnodes : List (String × FlowNode))
    (fb : FlowBlock) (x : ValidationError) :
    x ∈ validate_flow_connectivity fnodes fb →
    x.code = "E4030" ∧ x.severity = .WARNING := by
  intro h
  simp only [validate_flow_connectivity] at h
  split at h
  · simp at h
  · rcases List.mem_filterMap.1 h with ⟨p, _, hp⟩
    split at hp
    · simp at hp
    · simp at hp
      subst hp
      exact ⟨rfl, rfl⟩

theorem validate_flow_codes (inF outF : List (String × TypeNode))
    (fnodes : List (String × FlowNode)) (fb : Option FlowBlock) (x : ValidationError) :
    x ∈ validate_flow inF outF fnodes fb →
    x.code = "E4010" ∨ x.code = "E4020" ∨ x.code = "E4021" ∨ x.code = "E4022" ∨
    x.code = "E4023" ∨ x.code = "E4030" := by
  intro h
  cases fb with
  | none => simp [validate_flow] at h
  | some fb =>
    simp only [validate_flow, List.mem_append] at h
    rcases h with (h | h) | h
    · rcases mem_foldl_append _ _ _ _ h with h' | ⟨n, _, hx⟩
      · simp at h'
      · exact .inl (validate_flow_node_codes n x hx).1
    · rcases mem_foldl_append _ _ _ _ h with h' | ⟨e, _, hx⟩
      · simp at h'
      · rcases validate_flow_edge_codes _ _ _ _ _ hx with h' | h' | h' | h'
        · exact .inr (.inl h')
        · exact .inr (.inr (.inl h'))
        · exact .inr (.inr (.inr (.inl h')))
        · exact .inr (.inr (.inr (.inr (.inl h'))))
    · exact .inr (.inr (.inr (.inr (.inr (validate_flow_connectivity_codes _ _ _ h).1))))

theorem validate_execution_codes (ex : Option ExecutionBlock) (x : ValidationError) :
    x ∈ validate_execution ex → x.code = "E6001" ∧ x.severity = .WARNING := by
  intro h
  cases ex with
  | none => simp [validate_execution] at h
  | some ex =>
    simp only [validate_execution] at h
    split at h <;> simp at h
    · subst h; exact ⟨rfl, rfl⟩

theorem validate_verify_codes (vb : Option VerifyBlock) (x : ValidationError) :
    x ∈ validate_verify vb → x.code = "E7001" ∨ x.code = "E7002" := by
  intro h
  cases vb with
  | none => simp [validate_verify] at h
  | some vb =>
    rcases mem_foldl_append _ _ _ _ h with h' | ⟨e, _, hx⟩
    · simp at h'
    · split at hx
      · split at hx
        · simp at hx; subst hx; exact .inl rfl
        · split at hx <;> simp at hx
          · subst hx; exact .inl rfl
      · split at hx <;> simp at hx
        · subst hx; exact .inr rfl

theorem validate_cross_references_codes (inF outF : List (String × TypeNode))
    (u : VaisUnit) (x : ValidationError) :
    x ∈ validate_cross_references inF outF u →
    x.code = "E5001" ∨ x.code = "E5002" := by
  unfold validate_cross_references
  cases u.intent with
  | none => intro h; simp at h
  | some intent =>
    show x ∈ (match intent.goal_spec with
      | some gs =>
        gs.inputs.foldl (fun acc e => acc ++ expr_refs inF outF intent.line intent.column e) []
        ++ gs.outputs.foldl (fun acc e => acc ++ expr_refs inF outF intent.line intent.column e) []
      | none => []) → _
    cases intent.goal_spec with
    | none => intro h; simp at h
    | some gs =>
      intro h
      rcases List.mem_append.1 h with h' | h'
      · rcases mem_foldl_append _ _ _ _ h' with h'' | ⟨e, _, hx⟩
        · simp at h''
        · exact expr_refs_codes _ _ _ _ _ _ hx
      · rcases mem_foldl_append _ _ _ _ h' with h'' | ⟨e, _, hx⟩
        · simp at h''
        · exact expr_refs_codes _ _ _ _ _ _ hx


/-- The tail of `validate`: every pass after `_validate_blocks_exist`. -/
def validate_rest (u : VaisUnit) : List ValidationError :=
  let cf := collect_fields u
  cf.errors
  ++ validate_meta u.meta
  ++ validate_input u.input
  ++ validate_output u.output
  ++ validate_intent u.intent
  ++ validate_constraint cf.input_fields cf.output_fields u.constraint
  ++ validate_flow cf.input_fields cf.output_fields cf.flow_nodes u.flow
  ++ validate_execution u.execution
  ++ validate_verify u.verify
  ++ validate_cross_references cf.input_fields cf.output_fields u

theorem validate_eq_append (u : VaisUnit) :
    validate u = validate_blocks_exist u ++ validate_rest u := by
  simp [validate, validate_rest, List.append_assoc]

/-- Every diagnostic code the passes after the structural pass can emit. -/
def restCodes : List String :=
  ["E2001", "E2002", "E4001", "E2010", "E2011", "E3001", "E3002", "E3003",
   "E5001", "E5002", "E4010", "E4020", "E4021", "E4022", "E4023", "E4030",
   "E6001", "E7001", "E7002"]

theorem validate_rest_codes (u : VaisUnit) (x : ValidationError) :
    x ∈ validate_rest u → x.code ∈ restCodes := by
  intro h
  simp only [validate_rest] at h
  rcases List.mem_append.1 h with h | h
  · rcases List.mem_append.1 h with h | h
    · rcases List.mem_append.1 h with h | h
      · rcases List.mem_append.1 h with h | h
        · rcases List.mem_append.1 h with h | h
          · rcases List.mem_append.1 h with h | h
            · rcases List.mem_append.1 h with h | h
              · rcases List.mem_append.1 h with h | h
                · rcases List.mem_append.1 h with h | h
                  · rcases collect_fields_codes u x h with h' | h' | h' <;>
                      simp [restCodes, h']
                  · rcases validate_meta_codes _ _ h with h' | h' <;> simp [restCodes, h']
                · rw [validate_input_eq_nil] at h; simp at h
              · rw [validate_output_eq_nil] at h; simp at h
            · rcases validate_intent_codes _ _ h with h' | h' | h' <;> simp [restCodes, h']
          · rcases validate_constraint_codes _ _ _ _ h with h' | h' <;> simp [restCodes, h']
        · rcases validate_flow_codes _ _ _ _ _ h with h' | h' | h' | h' | h' | h' <;>
            simp [restCodes, h']
      · simp [restCodes, (validate_execution_codes _ _ h).1]
    · rcases validate_verify_codes _ _ h with h' | h' <;> simp [restCodes, h']
  · rcases validate_cross_references_codes _ _ _ _ h with h' | h' <;> simp [restCodes, h']

theorem countP_validate_rest_eq_zero (u : VaisUnit) (p : ValidationError → Bool)
    (hp : ∀ x, x.code ∈ restCodes → p x = false) :
    (validate_rest u).countP p = 0 := by
  refine List.countP_eq_zero.2 (fun a ha => ?_)
  simp [hp a (validate_rest_codes u a ha)]

theorem countP_ite_singleton (p : ValidationError → Bool) (c : Prop) [Decidable c]
    (x : ValidationError) :
    (if c then [x] else []).countP p = if c then (if p x then 1 else 0) else 0 := by
  split <;> simp [List.countP_cons]

/-- Claim C6: `validate` is total, and for each of the nine block slots the
returned list holds exactly one ERROR with the corresponding structural code
E1001..E1009 iff that slot is absent. -/
theorem C6_structural_presence (u : VaisUnit) :
    ((validate u).countP (fun e => e.code == "E1001" && e.severity == ErrorSeverity.ERROR)
      = if u.unit.isNone then 1 else 0) ∧
    ((validate u).countP (fun e => e.code == "E1002" && e.severity == ErrorSeverity.ERROR)
      = if u.meta.isNone then 1 else 0) ∧
    ((validate u).countP (fun e => e.code == "E1003" && e.severity == ErrorSeverity.ERROR)
      = if u.input.isNone then 1 else 0) ∧
    ((validate u).countP (fun e => e.code == "E1004" && e.severity == ErrorSeverity.ERROR)
      = if u.output.isNone then 1 else 0) ∧
    ((validate u).countP (fun e => e.code == "E1005" && e.severity == ErrorSeverity.ERROR)
      = if u.intent.isNone then 1 else 0) ∧
    ((validate u).countP (fun e => e.code == "E1006" && e.severity == ErrorSeverity.ERROR)
      = if u.constraint.isNone then 1 else 0) ∧
    ((validate u).countP (fun e => e.code == "E1007" && e.severity == ErrorSeverity.ERROR)
      = if u.flow.isNone then 1 else 0) ∧
    ((validate u).countP (fun e => e.code == "E1008" && e.severity == ErrorSeverity.ERROR)
      = if u.execution.isNone then 1 else 0) ∧
    ((validate u).countP (fun e => e.code == "E1009" && e.severity == ErrorSeverity.ERROR)
      = if u.verify.isNone then 1 else 0) := by
  have hns : ∀ a ∈ restCodes, ∀ c ∈ (["E1001", "E1002", "E1003", "E1004", "E1005",
      "E1006", "E1007", "E1008", "E1009"] : List String), a ≠ c := by decide
  have hz : ∀ (c : String), c ∈ ["E1001", "E1002", "E1003", "E1004", "E1005", "E1006",
      "E1007", "E1008", "E1009"] →
      (validate_rest u).countP (fun e => e.code == c && e.severity == ErrorSeverity.ERROR) = 0 := by
    intro c hc
    refine countP_validate_rest_eq_zero u _ (fun x hx => ?_)
    simp [hns x.code hx c hc]
  refine ⟨?_, ?_, ?_, ?_, ?_, ?_, ?_, ?_, ?_⟩ <;>
    rw [validate_eq_append u, List.countP_append] <;>
    [rw [hz "E1001" (by decide)]; rw [hz "E1002" (by decide)]; rw [hz "E1003" (by decide)];
     rw [hz "E1004" (by decide)]; rw [hz "E1005" (by decide)]; rw [hz "E1006" (by decide)];
     rw [hz "E1007" (by decide)]; rw [hz "E1008" (by decide)]; rw [hz "E1009" (by decide)]] <;>
    (unfold validate_blocks_exist;
     simp only [List.countP_append, countP_ite_singleton, add_error];
     simp)

theorem dictHas_iff_mem_keys (m : List (String × α)) (k : String) :
    dictHas m k = true ↔ k ∈ m.map Prod.fst := by
  simp [dictHas, List.any_eq_true, List.mem_map]

theorem dictInsert_keys_of_not_mem (m : List (String × α)) (k : String) (v : α)
    (h : k ∉ m.map Prod.fst) :
    (dictInsert m k v).map Prod.fst = m.map Prod.fst ++ [k] := by
  induction m with
  | nil => rfl
  | cons p rest ih =>
    simp only [List.map_cons, List.mem_cons, not_or] at h
    simp only [dictInsert]
    rw [if_neg (fun hh => h.1 hh.symm)]
    simp only [List.map_cons, List.cons_append]
    rw [ih h.2]

theorem dictInsert_keys_of_mem (m : List (String × α)) (k : String) (v : α)
    (h : k ∈ m.map Prod.fst) :
    (dictInsert m k v).map Prod.fst = m.map Prod.fst := by
  induction m with
  | nil => simp at h
  | cons p rest ih =>
    simp only [List.map_cons, List.mem_cons] at h
    by_cases he : p.1 = k
    · simp only [dictInsert, if_pos he, List.map_cons]
    · simp only [dictInsert, if_neg he, List.map_cons]
      rcases h with h | h
      · exact absurd h.symm he
      · rw [ih h]

theorem dictGet_dictInsert_self (m : List (String × α)) (k : String) (v : α) :
    dictGet (dictInsert m k v) k = some v := by
  induction m with
  | nil => simp [dictInsert, dictGet]
  | cons p rest ih =>
    by_cases he : p.1 = k
    · simp [dictInsert, if_pos he, dictGet, he]
    · simp only [dictInsert, if_neg he]
      simp only [dictGet, List.find?]
      rw [show (p.1 == k) = false from by simp [he]]
      exact ih

theorem dictGet_dictInsert_ne (m : List (String × α)) (k k' : String) (v : α)
    (h : k' ≠ k) :
    dictGet (dictInsert m k v) k' = dictGet m k' := by
  induction m with
  | nil => simp [dictInsert, dictGet, List.find?, show (k == k') = false from by simp [Ne.symm h]]
  | cons p rest ih =>
    by_cases he : p.1 = k
    · simp only [dictInsert, if_pos he]
      have hpk : (p.1 == k') = false := by
        rw [he]; simp [show k ≠ k' from fun hh => h hh.symm]
      simp [dictGet, List.find?, hpk]
    · simp only [dictInsert, if_neg he]
      by_cases he' : p.1 = k'
      · simp [dictGet, List.find?, he']
      · simp only [dictGet, List.find?,
          show (p.1 == k') = false from by simp [he']] at ih ⊢
        exact ih

theorem collect_input_fields_append (a b : List InputEntry)
    (m : List (String × TypeNode)) (errs : List ValidationError) :
    collect_input_fields (a ++ b) m errs =
      collect_input_fields b (collect_input_fields a m errs).2
        (collect_input_fields a m errs).1 := by
  induction a generalizing m errs with
  | nil => rfl
  | cons e t ih =>
    simp only [List.cons_append, collect_input_fields]
    exact ih _ _

theorem collect_input_fields_fresh (es : List InputEntry)
    (m : List (String × TypeNode)) (errs : List ValidationError)
    (hfresh : ∀ e ∈ es, e.name ∉ m.map Prod.fst)
    (hnd : (es.map InputEntry.name).Nodup) :
    (collect_input_fields es m errs).1 = errs ∧
    (collect_input_fields es m errs).2.map Prod.fst
      = m.map Prod.fst ++ es.map InputEntry.name := by
  induction es generalizing m errs with
  | nil => simp [collect_input_fields]
  | cons e t ih =>
    have hnotin : e.name ∉ m.map Prod.fst := hfresh e (by simp)
    have hhas : ¬ dictHas m e.name := by
      intro hh; exact hnotin ((dictHas_iff_mem_keys m e.name).1 hh)
    simp only [List.map_cons, List.nodup_cons] at hnd
    have hkeys := dictInsert_keys_of_not_mem m e.name e.type_node hnotin
    have hfresh' : ∀ e' ∈ t, e'.name ∉ (dictInsert m e.name e.type_node).map Prod.fst := by
      intro e' he'
      rw [hkeys]
      simp only [List.mem_append, List.mem_singleton, not_or]
      refine ⟨hfresh e' (by simp [he']), ?_⟩
      intro hh
      exact hnd.1 (hh ▸ List.mem_map_of_mem InputEntry.name he')
    simp only [collect_input_fields, if_neg hhas]
    obtain ⟨h1, h2⟩ := ih (dictInsert m e.name e.type_node) errs hfresh' hnd.2
    refine ⟨h1, ?_⟩
    rw [h2, hkeys]
    simp

theorem collect_input_fields_get_not_mentioned (es : List InputEntry)
    (m : List (String × TypeNode)) (errs : List ValidationError) (k : String)
    (hk : k ∉ es.map InputEntry.name) :
    dictGet (collect_input_fields es m errs).2 k = dictGet m k := by
  induction es generalizing m errs with
  | nil => rfl
  | cons e t ih =>
    simp only [List.map_cons, List.mem_cons, not_or] at hk
    simp only [collect_input_fields]
    by_cases hd : dictHas m e.name <;>
      simp only [if_pos, if_neg, hd] <;>
      rw [ih _ _ hk.2, dictGet_dictInsert_ne _ _ _ _ hk.1]

/-- The tail of `validate` after both the structural pass and field
collection. -/
def validate_rest2 (u : VaisUnit) : List ValidationError :=
  let cf := collect_fields u
  validate_meta u.meta
  ++ validate_input u.input
  ++ validate_output u.output
  ++ validate_intent u.intent
  ++ validate_constraint cf.input_fields cf.output_fields u.constraint
  ++ validate_flow cf.input_fields cf.output_fields cf.flow_nodes u.flow
  ++ validate_execution u.execution
  ++ validate_verify u.verify
  ++ validate_cross_references cf.input_fields cf.output_fields u

theorem validate_eq_append2 (u : VaisUnit) :
    validate u = validate_blocks_exist u
      ++ ((collect_fields u).errors ++ validate_rest2 u) := by
  simp [validate, validate_rest2, List.append_assoc]

/-- The codes every pass after field collection can emit (no duplicate-field
codes among them). -/
def restCodes2 : List String :=
  ["E2010", "E2011", "E3001", "E3002", "E3003", "E5001", "E5002", "E4010",
   "E4020", "E4021", "E4022", "E4023", "E4030", "E6001", "E7001", "E7002"]

theorem validate_rest2_codes (u : VaisUnit) (x : ValidationError) :
    x ∈ validate_rest2 u → x.code ∈ restCodes2 := by
  intro h
  simp only [validate_rest2] at h
  rcases List.mem_append.1 h with h | h
  · rcases List.mem_append.1 h with h | h
    · rcases List.mem_append.1 h with h | h
      · rcases List.mem_append.1 h with h | h
        · rcases List.mem_append.1 h with h | h
          · rcases List.mem_append.1 h with h | h
            · rcases List.mem_append.1 h with h | h
              · rcases List.mem_append.1 h with h | h
                · rcases validate_meta_codes _ _ h with h' | h' <;> simp [restCodes2, h']
                · rw [validate_input_eq_nil] at h; simp at h
              · rw [validate_output_eq_nil] at h; simp at h
            · rcases validate_intent_codes _ _ h with h' | h' | h' <;> simp [restCodes2, h']
          · rcases validate_constraint_codes _ _ _ _ h with h' | h' <;> simp [restCodes2, h']
        · rcases validate_flow_codes _ _ _ _ _ h with h' | h' | h' | h' | h' | h' <;>
            simp [restCodes2, h']
      · simp [restCodes2, (validate_execution_codes _ _ h).1]
    · rcases validate_verify_codes _ _ h with h' | h' <;> simp [restCodes2, h']
  · rcases validate_cross_references_codes _ _ _ _ h with h' | h' <;> simp [restCodes2, h']

/-- Codes of the structural pass. -/
def structCodes : List String :=
  ["E1001", "E1002", "E1003", "E1004", "E1005", "E1006", "E1007", "E1008", "E1009"]

theorem validate_blocks_exist_codes (u : VaisUnit) (x : ValidationError) :
    x ∈ validate_blocks_exist u → x.code ∈ structCodes := by
  intro h
  simp only [validate_blocks_exist, List.mem_append] at h
  rcases h with (((((((h | h) | h) | h) | h) | h) | h) | h) | h <;>
    · split at h <;> simp at h
      subst h
      simp [structCodes, add_error]

/-- Claim C2, amended: with exactly two INPUT entries sharing one name (all
other names distinct), `validate` emits exactly one E2001 ERROR, and the
input-field map holds the type of the *last* (second) occurrence, because
`input_fields[name] = type` runs unconditionally on duplicates. -/
theorem C2_amended_dup_input
    (u : VaisUnit) (ib : InputBlock) (es1 es2 es3 : List InputEntry)
    (e1 e2 : InputEntry) (n : String)
    (hin : u.input = some ib)
    (hes : ib.entries = es1 ++ (e1 :: (es2 ++ (e2 :: es3))))
    (hn1 : e1.name = n) (hn2 : e2.name = n)
    (hf1 : n ∉ es1.map InputEntry.name)
    (hf2 : n ∉ es2.map InputEntry.name)
    (hf3 : n ∉ es3.map InputEntry.name)
    (hnd : (es1.map InputEntry.name ++ es2.map InputEntry.name
            ++ es3.map InputEntry.name).Nodup) :
    (validate u).countP
      (fun e => e.code == "E2001" && e.severity == ErrorSeverity.ERROR) = 1 ∧
    dictGet (collect_fields u).input_fields n = some e2.type_node := by
  classical
  set p : ValidationError → Bool :=
    fun e => e.code == "E2001" && e.severity == ErrorSeverity.ERROR with hp
  -- decompose the nodup hypothesis
  rw [List.nodup_append] at hnd
  obtain ⟨hnd12, hnd3, hdisj3⟩ := hnd
  rw [List.nodup_append] at hnd12
  obtain ⟨hnd1, hnd2, hdisj12⟩ := hnd12
  -- step A: the prefix es1 adds no error and its keys are its names
  obtain ⟨hA1, hA2⟩ := collect_input_fields_fresh es1 [] []
    (fun e _ => by simp) hnd1
  -- step B: e1 is fresh
  have hkeys1 : (collect_input_fields es1 [] []).2.map Prod.fst
      = es1.map InputEntry.name := by simpa using hA2
  have hB : ¬ dictHas (collect_input_fields es1 [] []).2 e1.name := by
    intro hh
    rw [dictHas_iff_mem_keys, hkeys1, hn1] at hh
    exact hf1 hh
  -- the state after e1
  set m2 := dictInsert (collect_input_fields es1 [] []).2 e1.name e1.type_node with hm2
  have hkeys2 : m2.map Prod.fst = es1.map InputEntry.name ++ [n] := by
    rw [hm2, dictInsert_keys_of_not_mem _ _ _ (by rw [hkeys1, hn1]; exact hf1),
      hkeys1, hn1]
  -- step C: es2 adds no error
  have hfreshC : ∀ e ∈ es2, e.name ∉ m2.map Prod.fst := by
    intro e he
    rw [hkeys2]
    simp only [List.mem_append, List.mem_singleton, not_or]
    constructor
    · intro hmem
      exact List.disjoint_left.1 hdisj12 hmem (List.mem_map_of_mem InputEntry.name he)
    · intro hh
      exact hf2 (hh ▸ List.mem_map_of_mem InputEntry.name he)
  obtain ⟨hC1, hC2⟩ := collect_input_fields_fresh es2 m2 [] hfreshC hnd2
  have hkeys3 : (collect_input_fields es2 m2 []).2.map Prod.fst
      = es1.map InputEntry.name ++ [n] ++ es2.map InputEntry.name := by
    rw [hC2, hkeys2]
  -- step D: e2 is a duplicate
  have hD : dictHas (collect_input_fields es2 m2 []).2 e2.name = true := by
    rw [dictHas_iff_mem_keys, hkeys3, hn2]
    simp
  set m3 := (collect_input_fields es2 m2 []).2 with hm3
  set err2 := add_error "E2001" ("Duplicate input field: " ++ e2.name)
      e2.line e2.column with herr2
  set m4 := dictInsert m3 e2.name e2.type_node with hm4
  have hkeys4 : m4.map Prod.fst = m3.map Prod.fst := by
    rw [hm4, dictInsert_keys_of_mem _ _ _ (by rw [hkeys3, hn2]; simp)]
  -- step E: es3 adds no error
  have hfreshE : ∀ e ∈ es3, e.name ∉ m4.map Prod.fst := by
    intro e he
    rw [hkeys4, hkeys3]
    simp only [List.mem_append, List.mem_singleton, not_or]
    refine ⟨⟨?_, ?_⟩, ?_⟩
    · intro hmem
      exact List.disjoint_left.1 hdisj3
        (List.mem_append.2 (.inl hmem)) (List.mem_map_of_mem InputEntry.name he)
    · intro hh
      exact hf3 (hh ▸ List.mem_map_of_mem InputEntry.name he)
    · intro hmem
      exact List.disjoint_left.1 hdisj3
        (List.mem_append.2 (.inr hmem)) (List.mem_map_of_mem InputEntry.name he)
  obtain ⟨hE1, _⟩ := collect_input_fields_fresh es3 m4 [err2] hfreshE hnd3
  -- the full input fold
  have hsplit : collect_input_fields ib.entries [] [] =
      collect_input_fields es3 m4 [err2] := by
    rw [hes, collect_input_fields_append, hA1]
    show collect_input_fields (e1 :: (es2 ++ e2 :: es3)) _ [] = _
    simp only [collect_input_fields, if_neg hB]
    rw [collect_input_fields_append, hC1]
    show collect_input_fields (e2 :: es3) m3 [] = _
    simp only [collect_input_fields, hD, if_pos, List.nil_append]
  have hErrs : (collect_input_fields ib.entries [] []).1 = [err2] := by
    rw [hsplit, hE1]
  have hGet : dictGet (collect_input_fields ib.entries [] []).2 n = some e2.type_node := by
    rw [hsplit, collect_input_fields_get_not_mentioned _ _ _ _ hf3, hm4, ← hn2,
      dictGet_dictInsert_self]
  -- assemble the collect_fields result
  have hcfErr : (collect_fields u).errors.countP p = 1 := by
    simp only [collect_fields, hin]
    rw [List.countP_append, List.countP_append, hErrs]
    have hout : (match u.output with
        | some ob => collect_output_fields ob.entries [] []
        | none => ([], [])).1.countP p = 0 := by
      refine List.countP_eq_zero.2 (fun a ha => ?_)
      cases ho : u.output with
      | none => rw [ho] at ha; simp at ha
      | some ob =>
        rw [ho] at ha
        rcases collect_output_fields_mem ob.entries [] [] a ha with h' | h'
        · simp at h'
        · simp [hp, h']
    have hflow : (match u.flow with
        | some fb => ((collect_flow_nodes fb.nodes [] []).1,
            (collect_flow_nodes fb.nodes [] []).2, fb.edges)
        | none => ([], [], [])).1.countP p = 0 := by
      refine List.countP_eq_zero.2 (fun a ha => ?_)
      cases hof : u.flow with
      | none => rw [hof] at ha; simp at ha
      | some fb =>
        rw [hof] at ha
        rcases collect_flow_nodes_mem fb.nodes [] [] a ha with h' | h'
        · simp at h'
        · simp [hp, h']
    rw [hout, hflow]
    simp [hp, herr2, add_error]
  have hcfGet : dictGet (collect_fields u).input_fields n = some e2.type_node := by
    simp only [collect_fields, hin]
    exact hGet
  refine ⟨?_, hcfGet⟩
  rw [validate_eq_append2, List.countP_append, List.countP_append]
  have hblocks : (validate_blocks_exist u).countP p = 0 := by
    refine List.countP_eq_zero.2 (fun a ha => ?_)
    have hc := validate_blocks_exist_codes u a ha
    have : a.code ≠ "E2001" := by
      revert hc
      simp [structCodes]
      rintro (h | h | h | h | h | h | h | h | h) <;> simp [h]
    simp [hp, this]
  have hrest2 : (validate_rest2 u).countP p = 0 := by
    refine List.countP_eq_zero.2 (fun a ha => ?_)
    have hc := validate_rest2_codes u a ha
    have : a.code ≠ "E2001" := by
      revert hc
      simp [restCodes2]
      rintro (h | h | h | h | h | h | h | h | h | h | h | h | h | h | h | h) <;> simp [h]
    simp [hp, this]
  rw [hblocks, hrest2, hcfErr]

/-- Claim C2, counterexample: in a well-formed document whose INPUT block has
entries `a : INT32`, `b : INT32`, `b : STRING`, exactly one E2001 is emitted,
but the input-field map binds `b` to STRING — the type of the *second*
occurrence — not the first occurrence's INT32 as the claim states. -/
theorem C2_counterexample :
  (validate dupFieldUnit).countP (fun e => e.code == "E2001") = 1 ∧
  dictGet (collect_fields dupFieldUnit).input_fields "b"
    = some (.PrimitiveType "STRING" 9 7) ∧
  (TypeNode.PrimitiveType "STRING" 9 7) ≠ (TypeNode.PrimitiveType "INT32" 8 7) :=
  ⟨by rfl, by rfl, by simp⟩

/-- Witness for C2: the amended theorem applied to the concrete document. -/
theorem C2_witness :
    (validate dupFieldUnit).countP
      (fun e => e.code == "E2001" && e.severity == ErrorSeverity.ERROR) = 1 ∧
    dictGet (collect_fields dupFieldUnit).input_fields "b"
      = some (InputEntry.type_node ⟨"b", .PrimitiveType "STRING" 9 7, [], 9, 3⟩) :=
  C2_amended_dup_input dupFieldUnit dupFieldInput
    [⟨"a", .PrimitiveType "INT32" 7 7, [], 7, 3⟩] [] []
    ⟨"b", .PrimitiveType "INT32" 8 7, [], 8, 3⟩
    ⟨"b", .PrimitiveType "STRING" 9 7, [], 9, 3⟩ "b"
    rfl rfl rfl rfl
    (by decide) (by decide) (by decide) (by decide)

/-- The token types that *do* start a recognized statement (or close the
block) somewhere in the six block bodies compared by claim C4. -/
def recognizedStarts : List TokenType :=
  [.REQUIRE, .FORBID, .PREFER, .INVARIANT, .ENDCONSTRAINT,
   .NODE, .EDGE, .ENDFLOW,
   .PARALLEL, .TARGET, .MEMORY, .ISOLATION, .CACHE, .ENDEXECUTION,
   .ASSERT, .PROPERTY, .POSTCONDITION, .TEST, .ENDVERIFY,
   .IDENTIFIER, .ENDINPUT, .ENDOUTPUT]

theorem except_bind_ok {ε α β : Type} (x : α) (f : α → Except ε β) :
    (Except.ok x >>= f : Except ε β) = f x := rfl

theorem except_bind_err {ε α β : Type} (e : ε) (f : α → Except ε β) :
    ((Except.error e : Except ε α) >>= f) = .error e := rfl

theorem except_pure {ε α : Type} (x : α) : (pure x : Except ε α) = .ok x := rfl

/-- Claim C4, amended: for any token starting no recognized statement,
CONSTRAINT, FLOW, EXECUTION and VERIFY blocks all silently skip it and parse
to completion, while INPUT and OUTPUT blocks fail on it (at its exact
position, with the token attached). -/
theorem C4_amended_lenient_blocks (t : Token) (f : Nat) (h : t.type ∉ recognizedStarts) :
  parse_constraint_block (f + 3)
      [⟨.CONSTRAINT, "CONSTRAINT", 1, 1⟩, t, ⟨.ENDCONSTRAINT, "ENDCONSTRAINT", 3, 1⟩,
       ⟨.EOF, "", 4, 1⟩] = .ok (⟨[], 1, 1⟩, [⟨.EOF, "", 4, 1⟩]) ∧
  parse_flow_block (f + 3)
      [⟨.FLOW, "FLOW", 1, 1⟩, t, ⟨.ENDFLOW, "ENDFLOW", 3, 1⟩, ⟨.EOF, "", 4, 1⟩]
    = .ok (⟨[], [], 1, 1⟩, [⟨.EOF, "", 4, 1⟩]) ∧
  parse_execution_block (f + 3)
      [⟨.EXECUTION, "EXECUTION", 1, 1⟩, t, ⟨.ENDEXECUTION, "ENDEXECUTION", 3, 1⟩,
       ⟨.EOF, "", 4, 1⟩]
    = .ok (⟨false, .ANY, .UNBOUNDED, none, .NONE, .NONE, none, 1, 1⟩, [⟨.EOF, "", 4, 1⟩]) ∧
  parse_verify_block (f + 3)
      [⟨.VERIFY, "VERIFY", 1, 1⟩, t, ⟨.ENDVERIFY, "ENDVERIFY", 3, 1⟩, ⟨.EOF, "", 4, 1⟩]
    = .ok (⟨[], 1, 1⟩, [⟨.EOF, "", 4, 1⟩]) ∧
  parse_input_block (f + 3)
      [⟨.INPUT, "INPUT", 1, 1⟩, t, ⟨.ENDINPUT, "ENDINPUT", 3, 1⟩, ⟨.EOF, "", 4, 1⟩]
    = .error (expectErr [.IDENTIFIER] t) ∧
  parse_output_block (f + 3)
      [⟨.OUTPUT, "OUTPUT", 1, 1⟩, t, ⟨.ENDOUTPUT, "ENDOUTPUT", 3, 1⟩, ⟨.EOF, "", 4, 1⟩]
    = .error (expectErr [.IDENTIFIER] t) := by
  simp only [recognizedStarts, List.mem_cons, List.not_mem_nil, or_false, not_or] at h
  obtain ⟨h1, h2, h3, h4, h5, h6, h7, h8, h9, h10, h11, h12, h13, h14, h15, h16,
    h17, h18, h19, h20, h21, h22⟩ := h
  refine ⟨?_, ?_, ?_, ?_, ?_, ?_⟩
  · simp [parse_constraint_block, constraint_loop, expect, cur, adv, peek1,
      except_bind_ok, except_bind_err, except_pure, h1, h2, h3, h4, h5]
  · simp [parse_flow_block, flow_loop, expect, cur, adv,
      except_bind_ok, except_bind_err, except_pure, h6, h7, h8]
  · simp [parse_execution_block, execution_loop, expect, cur, adv,
      except_bind_ok, except_bind_err, except_pure, h9, h10, h11, h12, h13, h14]
  · simp [parse_verify_block, verify_loop, expect, cur, adv,
      except_bind_ok, except_bind_err, except_pure, h15, h16, h17, h18, h4, h19]
  · simp [parse_input_block, input_entries_loop, parse_input_entry, expect, cur, adv,
      except_bind_ok, except_bind_err, except_pure, h20, h21]
  · simp [parse_output_block, output_entries_loop, parse_output_entry, expect, cur, adv,
      except_bind_ok, except_bind_err, except_pure, h20, h22]

/-- Witness for C4: the amended theorem at the concrete token `42`. -/
theorem C4_witness :
  parse_constraint_block 9
      [⟨.CONSTRAINT, "CONSTRAINT", 1, 1⟩, ⟨.NUMBER, "42", 2, 3⟩,
       ⟨.ENDCONSTRAINT, "ENDCONSTRAINT", 3, 1⟩, ⟨.EOF, "", 4, 1⟩]
    = .ok (⟨[], 1, 1⟩, [⟨.EOF, "", 4, 1⟩]) ∧
  parse_flow_block 9
      [⟨.FLOW, "FLOW", 1, 1⟩, ⟨.NUMBER, "42", 2, 3⟩, ⟨.ENDFLOW, "ENDFLOW", 3, 1⟩,
       ⟨.EOF, "", 4, 1⟩]
    = .ok (⟨[], [], 1, 1⟩, [⟨.EOF, "", 4, 1⟩]) ∧
  parse_execution_block 9
      [⟨.EXECUTION, "EXECUTION", 1, 1⟩, ⟨.NUMBER, "42", 2, 3⟩,
       ⟨.ENDEXECUTION, "ENDEXECUTION", 3, 1⟩, ⟨.EOF, "", 4, 1⟩]
    = .ok (⟨false, .ANY, .UNBOUNDED, none, .NONE, .NONE, none, 1, 1⟩, [⟨.EOF, "", 4, 1⟩]) ∧
  parse_verify_block 9
      [⟨.VERIFY, "VERIFY", 1, 1⟩, ⟨.NUMBER, "42", 2, 3⟩, ⟨.ENDVERIFY, "ENDVERIFY", 3, 1⟩,
       ⟨.EOF, "", 4, 1⟩]
    = .ok (⟨[], 1, 1⟩, [⟨.EOF, "", 4, 1⟩]) ∧
  parse_input_block 9
      [⟨.INPUT, "INPUT", 1, 1⟩, ⟨.NUMBER, "42", 2, 3⟩, ⟨.ENDINPUT, "ENDINPUT", 3, 1⟩,
       ⟨.EOF, "", 4, 1⟩]
    = .error (expectErr [.IDENTIFIER] ⟨.NUMBER, "42", 2, 3⟩) ∧
  parse_output_block 9
      [⟨.OUTPUT, "OUTPUT", 1, 1⟩, ⟨.NUMBER, "42", 2, 3⟩, ⟨.ENDOUTPUT, "ENDOUTPUT", 3, 1⟩,
       ⟨.EOF, "", 4, 1⟩]
    = .error (expectErr [.IDENTIFIER] ⟨.NUMBER, "42", 2, 3⟩) :=
  C4_amended_lenient_blocks ⟨.NUMBER, "42", 2, 3⟩ 6 (by decide)

theorem collect_flow_nodes_keys_mem (ns : List FlowNode) (m : List (String × FlowNode))
    (errs : List ValidationError) (k : String) :
    k ∈ (collect_flow_nodes ns m errs).2.map Prod.fst ↔
      k ∈ m.map Prod.fst ∨ k ∈ ns.map FlowNode.node_id := by
  induction ns generalizing m errs with
  | nil => simp [collect_flow_nodes]
  | cons n t ih =>
    simp only [collect_flow_nodes, List.map_cons, List.mem_cons]
    by_cases hd : dictHas m n.node_id
    · rw [ih]
      rw [dictInsert_keys_of_mem _ _ _ ((dictHas_iff_mem_keys _ _).1 hd)]
      constructor
      · rintro (h | h)
        · exact .inl h
        · exact .inr (.inr h)
      · rintro (h | h | h)
        · exact .inl h
        · exact .inl (h ▸ (dictHas_iff_mem_keys _ _).1 hd)
        · exact .inr h
    · rw [ih]
      rw [dictInsert_keys_of_not_mem _ _ _
        (fun hh => hd ((dictHas_iff_mem_keys _ _).2 hh))]
      simp only [List.mem_append, List.mem_singleton]
      constructor
      · rintro ((h | h) | h)
        · exact .inl h
        · exact .inr (.inl h)
        · exact .inr (.inr h)
      · rintro (h | h | h)
        · exact .inl (.inl h)
        · exact .inl (.inr h)
        · exact .inr h

theorem collect_flow_nodes_keys_nodup (ns : List FlowNode) (m : List (String × FlowNode))
    (errs : List ValidationError) (hnd : (m.map Prod.fst).Nodup) :
    ((collect_flow_nodes ns m errs).2.map Prod.fst).Nodup := by
  induction ns generalizing m errs with
  | nil => exact hnd
  | cons n t ih =>
    simp only [collect_flow_nodes]
    by_cases hd : dictHas m n.node_id
    · refine ih _ _ ?_
      rw [dictInsert_keys_of_mem _ _ _ ((dictHas_iff_mem_keys _ _).1 hd)]
      exact hnd
    · refine ih _ _ ?_
      rw [dictInsert_keys_of_not_mem _ _ _
        (fun hh => hd ((dictHas_iff_mem_keys _ _).2 hh))]
      refine (List.nodup_append).2 ⟨hnd, List.nodup_singleton _, ?_⟩
      intro a ha hb
      simp only [List.mem_singleton] at hb
      subst hb
      exact hd ((dictHas_iff_mem_keys _ _).2 ha)

theorem collect_output_fields_keys_mem (es : List OutputEntry)
    (m : List (String × TypeNode)) (errs : List ValidationError) (k : String) :
    k ∈ (collect_output_fields es m errs).2.map Prod.fst ↔
      k ∈ m.map Prod.fst ∨ k ∈ es.map OutputEntry.name := by
  induction es generalizing m errs with
  | nil => simp [collect_output_fields]
  | cons e t ih =>
    simp only [collect_output_fields, List.map_cons, List.mem_cons]
    by_cases hd : dictHas m e.name
    · rw [ih, dictInsert_keys_of_mem _ _ _ ((dictHas_iff_mem_keys _ _).1 hd)]
      constructor
      · rintro (h | h)
        · exact .inl h
        · exact .inr (.inr h)
      · rintro (h | h | h)
        · exact .inl h
        · exact .inl (h ▸ (dictHas_iff_mem_keys _ _).1 hd)
        · exact .inr h
    · rw [ih, dictInsert_keys_of_not_mem _ _ _
        (fun hh => hd ((dictHas_iff_mem_keys _ _).2 hh))]
      simp only [List.mem_append, List.mem_singleton]
      constructor
      · rintro ((h | h) | h)
        · exact .inl h
        · exact .inr (.inl h)
        · exact .inr (.inr h)
      · rintro (h | h | h)
        · exact .inl (.inl h)
        · exact .inl (.inr h)
        · exact .inr h

theorem mem_edge_bases_aux (edges : List FlowEdge) (acc : List String) (b : String) :
    b ∈ edges.foldl (fun acc e =>
        acc
        ++ (match get_node_ref e.source with | some (bb, _) => [bb] | none => [])
        ++ (match get_node_ref e.target with | some (bb, _) => [bb] | none => [])) acc ↔
      b ∈ acc ∨ ∃ e ∈ edges,
        (get_node_ref e.source).map Prod.fst = some b ∨
        (get_node_ref e.target).map Prod.fst = some b := by
  induction edges generalizing acc with
  | nil => simp
  | cons e t ih =>
    simp only [List.foldl_cons]
    rw [ih]
    simp only [List.mem_append, List.mem_cons]
    constructor
    · rintro (((h | h) | h) | ⟨e', he', h⟩)
      · exact .inl h
      · refine .inr ⟨e, by simp, .inl ?_⟩
        revert h
        cases get_node_ref e.source with
        | none => simp
        | some bp => cases bp with | mk bb pp => simp; intro hh; exact hh.symm ▸ rfl
      · refine .inr ⟨e, by simp, .inr ?_⟩
        revert h
        cases get_node_ref e.target with
        | none => simp
        | some bp => cases bp with | mk bb pp => simp; intro hh; exact hh.symm ▸ rfl
      · exact .inr ⟨e', by simp [he'], h⟩
    · rintro (h | ⟨e', he', h⟩)
      · exact .inl (.inl (.inl h))
      · rcases he' with he'' | he''
        · subst he''
          rcases h with h | h
          · refine .inl (.inl (.inr ?_))
            revert h
            cases get_node_ref e'.source with
            | none => simp
            | some bp =>
              cases bp with
              | mk bb pp => simp; exact fun hh => hh.symm
          · refine .inl (.inr ?_)
            revert h
            cases get_node_ref e'.target with
            | none => simp
            | some bp =>
              cases bp with
              | mk bb pp => simp; exact fun hh => hh.symm
        · exact .inr ⟨e', he'', h⟩

theorem mem_edge_bases (edges : List FlowEdge) (b : String) :
    b ∈ edge_bases edges ↔ ∃ e ∈ edges,
      (get_node_ref e.source).map Prod.fst = some b ∨
      (get_node_ref e.target).map Prod.fst = some b := by
  rw [edge_bases, mem_edge_bases_aux]
  simp

/-- "The validator's WARNING citing node `x` as disconnected": code E4030,
severity WARNING, and the exact connectivity message about `x`. -/
def citesDisc (x : String) (e : ValidationError) : Bool :=
  e.code == "E4030" && e.severity == ErrorSeverity.WARNING &&
    e.message == "Node '" ++ x ++ "' is not connected to any edge"

theorem nodeMsg_inj (a b : String)
    (h : "Node '" ++ a ++ "' is not connected to any edge"
       = "Node '" ++ b ++ "' is not connected to any edge") : a = b := by
  have hd := congrArg String.data h
  simp only [String.data_append] at hd
  rw [List.append_assoc, List.append_assoc] at hd
  have h1 := List.append_cancel_left hd
  have h2 := List.append_cancel_right h1
  exact String.ext h2

theorem conn_countP_of_unconnected (fnodes : List (String × FlowNode)) (fb : FlowBlock)
    (x : String)
    (hne : fb.nodes.isEmpty = false)
    (hnd : (fnodes.map Prod.fst).Nodup)
    (hx : x ∈ fnodes.map Prod.fst)
    (hxb : x ∉ edge_bases fb.edges) :
    (validate_flow_connectivity fnodes fb).countP (citesDisc x) = 1 := by
  rw [validate_flow_connectivity, if_neg (by simp [hne])]
  dsimp only
  induction fnodes with
  | nil => simp at hx
  | cons p t ih =>
    simp only [List.map_cons, List.nodup_cons] at hnd
    simp only [List.map_cons, List.mem_cons] at hx
    rcases hx with hx | hx
    · subst hx
      rw [List.filterMap_cons]
      rw [if_neg (by
        rintro ⟨hb, _, _⟩
        exact hxb hb)]
      have hzero : (t.filterMap (fun p =>
          if p.1 ∈ edge_bases fb.edges ∧ p.1 ≠ "INPUT" ∧ p.1 ≠ "OUTPUT" then none
          else some (add_error "E4030" ("Node '" ++ p.1 ++ "' is not connected to any edge")
            p.2.line p.2.column .WARNING))).countP (citesDisc p.1) = 0 := by
        refine List.countP_eq_zero.2 (fun a ha => ?_)
        rcases List.mem_filterMap.1 ha with ⟨q, hq, hqa⟩
        split at hqa
        · simp at hqa
        · simp only [Option.some.injEq] at hqa
          subst hqa
          simp only [citesDisc, add_error, Bool.and_eq_true, beq_iff_eq]
          rintro ⟨_, hmsg⟩
          exact hnd.1 ((nodeMsg_inj _ _ hmsg) ▸ List.mem_map_of_mem Prod.fst hq)
      rw [List.countP_cons]
      rw [hzero]
      simp [citesDisc, add_error]
    · rw [List.filterMap_cons]
      split
      · exact ih hnd.2 hx
      · rename_i b heq
        split at heq
        · exact absurd heq (by simp)
        · simp only [Option.some.injEq] at heq
          subst heq
          rw [List.countP_cons, ih hnd.2 hx]
          have hpx : p.1 ≠ x := fun hh => hnd.1 (hh ▸ hx)
          have hmsgne : ¬ ("Node '" ++ p.1 ++ "' is not connected to any edge"
              = "Node '" ++ x ++ "' is not connected to any edge") :=
            fun hh => hpx (nodeMsg_inj _ _ hh)
          simp [citesDisc, add_error, hmsgne]

theorem conn_countP_of_connected (fnodes : List (String × FlowNode)) (fb : FlowBlock)
    (x : String)
    (hxb : x ∈ edge_bases fb.edges)
    (hxI : x ≠ "INPUT") (hxO : x ≠ "OUTPUT") :
    (validate_flow_connectivity fnodes fb).countP (citesDisc x) = 0 := by
  rw [validate_flow_connectivity]
  split
  · simp
  · refine List.countP_eq_zero.2 (fun a ha => ?_)
    rcases List.mem_filterMap.1 ha with ⟨q, hq, hqa⟩
    split at hqa
    · simp at hqa
    · rename_i hcond
      simp only [Option.some.injEq] at hqa
      subst hqa
      simp only [citesDisc, add_error, Bool.and_eq_true, beq_iff_eq]
      rintro ⟨_, hmsg⟩
      have hqx : q.1 = x := nodeMsg_inj _ _ hmsg
      exact hcond ⟨hqx ▸ hxb, hqx ▸ hxI, hqx ▸ hxO⟩
theorem countP_citesDisc_of_not_code (x : String) (l : List ValidationError)
    (h : ∀ e ∈ l, e.code ≠ "E4030") : l.countP (citesDisc x) = 0 := by
  refine List.countP_eq_zero.2 (fun e he => ?_)
  simp only [citesDisc, Bool.and_eq_true, beq_iff_eq]
  rintro ⟨⟨hc, _⟩, _⟩
  exact h e he hc

theorem countP_citesDisc_foldl_zero {α : Type} (x : String) (g : α → List ValidationError)
    (l : List α) (init : List ValidationError)
    (h0 : ∀ e ∈ init, e.code ≠ "E4030")
    (hg : ∀ a ∈ l, ∀ e ∈ g a, e.code ≠ "E4030") :
    (l.foldl (fun acc a => acc ++ g a) init).countP (citesDisc x) = 0 := by
  refine countP_citesDisc_of_not_code x _ (fun e he => ?_)
  rcases mem_foldl_append _ _ _ _ he with h | ⟨a, ha, hx⟩
  · exact h0 e h
  · exact hg a ha e hx

theorem collect_fields_set_flow (u : VaisUnit) (fb fb' : FlowBlock)
    (hf : u.flow = some fb) (hn : fb'.nodes = fb.nodes) :
    collect_fields { u with flow := some fb' }
      = { collect_fields u with flow_edges := fb'.edges } := by
  cases u with
  | mk uu mm ii oo it cc ff ee vv l c =>
    cases hf
    rcases h1 : (match ii with
        | some ib => collect_input_fields ib.entries [] []
        | none => (([] : List ValidationError), ([] : List (String × TypeNode)))) with ⟨eI, mI⟩
    rcases h2 : (match oo with
        | some ob => collect_output_fields ob.entries [] []
        | none => (([] : List ValidationError), ([] : List (String × TypeNode)))) with ⟨eO, mO⟩
    rcases h3 : collect_flow_nodes fb.nodes [] [] with ⟨eF, mF⟩
    simp only [collect_fields, hn, h1, h2, h3]

theorem collect_fields_flow_nodes (u : VaisUnit) (fb : FlowBlock)
    (hf : u.flow = some fb) :
    (collect_fields u).flow_nodes = (collect_flow_nodes fb.nodes [] []).2 := by
  cases u with
  | mk uu mm ii oo it cc ff ee vv l c =>
    cases hf
    rcases h1 : (match ii with
        | some ib => collect_input_fields ib.entries [] []
        | none => (([] : List ValidationError), ([] : List (String × TypeNode)))) with ⟨eI, mI⟩
    rcases h2 : (match oo with
        | some ob => collect_output_fields ob.entries [] []
        | none => (([] : List ValidationError), ([] : List (String × TypeNode)))) with ⟨eO, mO⟩
    rcases h3 : collect_flow_nodes fb.nodes [] [] with ⟨eF, mF⟩
    simp only [collect_fields, h1, h2, h3]

theorem collect_fields_output_fields (u : VaisUnit) (ob : OutputBlock)
    (ho : u.output = some ob) :
    (collect_fields u).output_fields = (collect_output_fields ob.entries [] []).2 := by
  cases u with
  | mk uu mm ii oo it cc ff ee vv l c =>
    cases ho
    rcases h1 : (match ii with
        | some ib => collect_input_fields ib.entries [] []
        | none => (([] : List ValidationError), ([] : List (String × TypeNode)))) with ⟨eI, mI⟩
    rcases h2 : collect_output_fields ob.entries [] [] with ⟨eO, mO⟩
    rcases h3 : (match ff with
        | some fb =>
          ((collect_flow_nodes fb.nodes [] []).1, (collect_flow_nodes fb.nodes [] []).2, fb.edges)
        | none => (([] : List ValidationError), ([] : List (String × FlowNode)),
            ([] : List FlowEdge))) with ⟨eF, mF, edF⟩
    simp only [collect_fields, h1, h2]

theorem validate_countP_citesDisc (u : VaisUnit) (fb : FlowBlock) (x : String)
    (hf : u.flow = some fb) :
    (validate u).countP (citesDisc x)
      = (validate_flow_connectivity (collect_fields u).flow_nodes fb).countP (citesDisc x) := by
  have hz1 : (validate_blocks_exist u).countP (citesDisc x) = 0 :=
    countP_citesDisc_of_not_code x _ (fun e he hc => by
      have := validate_blocks_exist_codes u e he
      rw [hc] at this
      exact absurd this (by decide))
  have hz2 : ((collect_fields u).errors).countP (citesDisc x) = 0 :=
    countP_citesDisc_of_not_code x _ (fun e he hc => by
      rcases collect_fields_codes u e he with h | h | h <;> simp [hc] at h)
  have hz3 : (validate_meta u.meta).countP (citesDisc x) = 0 :=
    countP_citesDisc_of_not_code x _ (fun e he hc => by
      rcases validate_meta_codes _ e he with h | h <;> simp [hc] at h)
  have hz4 : (validate_intent u.intent).countP (citesDisc x) = 0 :=
    countP_citesDisc_of_not_code x _ (fun e he hc => by
      rcases validate_intent_codes _ e he with h | h | h <;> simp [hc] at h)
  have hz5 : (validate_constraint (collect_fields u).input_fields
      (collect_fields u).output_fields u.constraint).countP (citesDisc x) = 0 :=
    countP_citesDisc_of_not_code x _ (fun e he hc => by
      rcases validate_constraint_codes _ _ _ e he with h | h <;> simp [hc] at h)
  have hz6 : (validate_execution u.execution).countP (citesDisc x) = 0 :=
    countP_citesDisc_of_not_code x _ (fun e he hc => by
      have := (validate_execution_codes _ e he).1
      simp [hc] at this)
  have hz7 : (validate_verify u.verify).countP (citesDisc x) = 0 :=
    countP_citesDisc_of_not_code x _ (fun e he hc => by
      rcases validate_verify_codes _ e he with h | h <;> simp [hc] at h)
  have hz8 : (validate_cross_references (collect_fields u).input_fields
      (collect_fields u).output_fields u).countP (citesDisc x) = 0 :=
    countP_citesDisc_of_not_code x _ (fun e he hc => by
      rcases validate_cross_references_codes _ _ _ e he with h | h <;> simp [hc] at h)
  have hznode : (fb.nodes.foldl (fun acc n => acc ++ validate_flow_node n)
      []).countP (citesDisc x) = 0 :=
    countP_citesDisc_foldl_zero x _ _ _ (by simp)
      (fun n _ e he hc => by
        have := (validate_flow_node_codes n e he).1
        simp [hc] at this)
  have hzedge : (fb.edges.foldl (fun acc e => acc ++ validate_flow_edge
      (collect_fields u).input_fields (collect_fields u).output_fields
      (collect_fields u).flow_nodes e) []).countP (citesDisc x) = 0 :=
    countP_citesDisc_foldl_zero x _ _ _ (by simp)
      (fun a _ e he hc => by
        rcases validate_flow_edge_codes _ _ _ a e he with h | h | h | h <;> simp [hc] at h)
  rw [validate]
  rw [hf]
  simp only [validate_flow]
  simp only [List.countP_append]
  rw [validate_input_eq_nil, validate_output_eq_nil]
  rw [hz1, hz2, hz3, hz4, hz5, hz6, hz7, hz8, hznode, hzedge]
  simp

theorem filter_error_connectivity (fnodes : List (String × FlowNode)) (fb : FlowBlock) :
    (validate_flow_connectivity fnodes fb).filter
      (fun e => e.severity == ErrorSeverity.ERROR) = [] := by
  refine List.filter_eq_nil.2 (fun e he => ?_)
  have := (validate_flow_connectivity_codes _ _ _ he).2
  simp [this]

theorem validate_cross_references_set_flow (inF outF : List (String × TypeNode))
    (u : VaisUnit) (f : Option FlowBlock) :
    validate_cross_references inF outF { u with flow := f }
      = validate_cross_references inF outF u := rfl

theorem validate_blocks_exist_set_flow (u : VaisUnit) (fb fb' : FlowBlock)
    (hf : u.flow = some fb) :
    validate_blocks_exist { u with flow := some fb' } = validate_blocks_exist u := by
  simp [validate_blocks_exist, hf]

theorem validate_filter_error_set_flow (u : VaisUnit) (fb : FlowBlock) (ne : FlowEdge)
    (hf : u.flow = some fb)
    (hedge : validate_flow_edge (collect_fields u).input_fields
        (collect_fields u).output_fields (collect_fields u).flow_nodes ne = []) :
    (validate { u with flow := some { fb with edges := fb.edges ++ [ne] } }).filter
        (fun e => e.severity == ErrorSeverity.ERROR)
      = (validate u).filter (fun e => e.severity == ErrorSeverity.ERROR) := by
  have hcf := collect_fields_set_flow u fb { fb with edges := fb.edges ++ [ne] } hf rfl
  rw [validate, validate]
  dsimp only
  rw [hcf]
  dsimp only
  rw [validate_blocks_exist_set_flow u fb _ hf]
  rw [hf]
  simp only [validate_flow]
  rw [List.foldl_append]
  simp only [List.foldl_cons, List.foldl_nil, hedge, List.append_nil]
  simp only [List.filter_append, filter_error_connectivity]
  rw [validate_cross_references_set_flow]

/-- Claim C8: a FLOW block declaring a node `x` none of whose edges has an
endpoint with base `x` makes `validate` emit exactly one diagnostic that is
the E4030 WARNING citing `x` as disconnected; extending the block with the
single edge `EDGE x -> OUTPUT.y` (with `y` a declared OUTPUT field) removes
that warning (count drops to zero) and leaves the list of ERROR-severity
diagnostics unchanged. -/
theorem C8_connectivity (u : VaisUnit) (fb : FlowBlock) (x y : String)
    (ob : OutputBlock) (sl sc tl tc el ec : Nat)
    (hf : u.flow = some fb)
    (hx : x ∈ fb.nodes.map FlowNode.node_id)
    (hxI : x ≠ "INPUT") (hxO : x ≠ "OUTPUT")
    (hno : ∀ e ∈ fb.edges,
      (get_node_ref e.source).map Prod.fst ≠ some x ∧
      (get_node_ref e.target).map Prod.fst ≠ some x)
    (ho : u.output = some ob)
    (hy : y ∈ ob.entries.map OutputEntry.name) :
    (validate u).countP (citesDisc x) = 1 ∧
    (validate { u with flow := some { fb with edges := fb.edges ++
        [⟨.Identifier x sl sc, .FieldAccess (.Identifier "OUTPUT" tl tc) y tl tc,
          none, el, ec⟩] } }).countP (citesDisc x) = 0 ∧
    (validate { u with flow := some { fb with edges := fb.edges ++
        [⟨.Identifier x sl sc, .FieldAccess (.Identifier "OUTPUT" tl tc) y tl tc,
          none, el, ec⟩] } }).filter (fun e => e.severity == ErrorSeverity.ERROR)
      = (validate u).filter (fun e => e.severity == ErrorSeverity.ERROR) := by
  have hne : fb.nodes.isEmpty = false := by
    cases hns : fb.nodes with
    | nil => rw [hns] at hx; simp at hx
    | cons a t => rfl
  have hfn := collect_fields_flow_nodes u fb hf
  have hnd : ((collect_fields u).flow_nodes.map Prod.fst).Nodup := by
    rw [hfn]; exact collect_flow_nodes_keys_nodup fb.nodes [] [] (by simp)
  have hxmem : x ∈ (collect_fields u).flow_nodes.map Prod.fst := by
    rw [hfn]; exact (collect_flow_nodes_keys_mem fb.nodes [] [] x).2 (.inr hx)
  have hxb : x ∉ edge_bases fb.edges := by
    intro hb
    rcases (mem_edge_bases fb.edges x).1 hb with ⟨e, he, h | h⟩
    · exact (hno e he).1 h
    · exact (hno e he).2 h
  have hdx : dictHas (collect_fields u).flow_nodes x = true :=
    (dictHas_iff_mem_keys _ _).2 hxmem
  have hdy : dictHas (collect_fields u).output_fields y = true := by
    rw [collect_fields_output_fields u ob ho]
    exact (dictHas_iff_mem_keys _ _).2
      ((collect_output_fields_keys_mem ob.entries [] [] y).2 (.inr hy))
  have hedge : validate_flow_edge (collect_fields u).input_fields
      (collect_fields u).output_fields (collect_fields u).flow_nodes
      ⟨.Identifier x sl sc, .FieldAccess (.Identifier "OUTPUT" tl tc) y tl tc,
        none, el, ec⟩ = [] := by
    simp only [validate_flow_edge, get_node_ref]
    rw [if_neg hxI, if_neg (by simp [hdx])]
    simp [hdy]
  refine ⟨?_, ?_, ?_⟩
  · rw [validate_countP_citesDisc u fb x hf]
    exact conn_countP_of_unconnected _ fb x hne hnd hxmem hxb
  · rw [validate_countP_citesDisc _ { fb with edges := fb.edges ++
      [⟨.Identifier x sl sc, .FieldAccess (.Identifier "OUTPUT" tl tc) y tl tc,
        none, el, ec⟩] } x rfl]
    refine conn_countP_of_connected _ _ x ?_ hxI hxO
    exact (mem_edge_bases _ x).2
      ⟨⟨.Identifier x sl sc, .FieldAccess (.Identifier "OUTPUT" tl tc) y tl tc, none, el, ec⟩,
       by simp, .inl rfl⟩
  · exact validate_filter_error_set_flow u fb _ hf hedge

def xNode : FlowNode := ⟨"x", .TRANSFORM, [], none, 20, 3⟩

/-- `baseUnit` with a FLOW block declaring the single node `x` and no
edges. -/
def c8flow : FlowBlock := ⟨[xNode], [], 19, 1⟩

def c8unitA : VaisUnit := { baseUnit with flow := some c8flow }

theorem C8_witness :
    (validate c8unitA).countP (citesDisc "x") = 1 ∧
    (validate { c8unitA with flow := some { c8flow with edges := c8flow.edges ++
        [⟨.Identifier "x" 21 8, .FieldAccess (.Identifier "OUTPUT" 21 13) "sum" 21 13,
          none, 21, 3⟩] } }).countP (citesDisc "x") = 0 ∧
    (validate { c8unitA with flow := some { c8flow with edges := c8flow.edges ++
        [⟨.Identifier "x" 21 8, .FieldAccess (.Identifier "OUTPUT" 21 13) "sum" 21 13,
          none, 21, 3⟩] } }).filter (fun e => e.severity == ErrorSeverity.ERROR)
      = (validate c8unitA).filter (fun e => e.severity == ErrorSeverity.ERROR) :=
  C8_connectivity c8unitA c8flow "x" "sum" outputB 21 8 21 13 21 3 rfl
    (by simp [c8flow, xNode]) (by decide) (by decide) (by simp [c8flow]) rfl
    (by simp [outputB])
/-- The opening keyword token of the i-th block in the fixed order
`Parser.parse` consumes (UNIT, META, INPUT, OUTPUT, INTENT, CONSTRAINT,
FLOW, EXECUTION, VERIFY). -/
def openTT : Nat → TokenType
  | 0 => .UNIT
  | 1 => .META
  | 2 => .INPUT
  | 3 => .OUTPUT
  | 4 => .INTENT
  | 5 => .CONSTRAINT
  | 6 => .FLOW
  | 7 => .EXECUTION
  | _ => .VERIFY

/-- The i-th block parser called by `Parser.parse`, keeping only the token
cursor it leaves behind. -/
def blockStep : Nat → Nat → List Token → Except ParseError (List Token)
  | 0, f, ts => (parse_unit_block f ts).map Prod.snd
  | 1, f, ts => (parse_meta_block f ts).map Prod.snd
  | 2, f, ts => (parse_input_block f ts).map Prod.snd
  | 3, f, ts => (parse_output_block f ts).map Prod.snd
  | 4, f, ts => (parse_intent_block f ts).map Prod.snd
  | 5, f, ts => (parse_constraint_block f ts).map Prod.snd
  | 6, f, ts => (parse_flow_block f ts).map Prod.snd
  | 7, f, ts => (parse_execution_block f ts).map Prod.snd
  | _, f, ts => (parse_verify_block f ts).map Prod.snd

/-- The first `k` block parsers of `Parser.parse`, run in their fixed
order. -/
def parsePre : Nat → Nat → List Token → Except ParseError (List Token)
  | 0, _, ts => .ok ts
  | k + 1, f, ts => parsePre k f ts >>= blockStep k f

theorem except_bind_inv {ε α β : Type} {x : Except ε α} {g : α → Except ε β} {b : β}
    (h : (x >>= g) = .ok b) : ∃ a, x = .ok a ∧ g a = .ok b := by
  cases x with
  | error e => rw [except_bind_err] at h; exact absurd h (by simp)
  | ok a => exact ⟨a, rfl, by rwa [except_bind_ok] at h⟩

theorem blockStep_wrong_open (k : Nat) (hk : k < 9) (f : Nat) (ts : List Token)
    (h : (cur ts).type ≠ openTT k) :
    blockStep k (f + 1) ts = .error (expectErr [openTT k] (cur ts)) := by
  interval_cases k <;>
    simp only [openTT] at h ⊢ <;>
    simp only [blockStep, parse_unit_block, parse_meta_block, parse_input_block,
      parse_output_block, parse_intent_block, parse_constraint_block, parse_flow_block,
      parse_execution_block, parse_verify_block, expect] <;>
    rw [if_neg (by simpa using h)] <;>
    rfl

theorem parsePre_err_mono (k k' f : Nat) (ts : List Token) (e : ParseError)
    (hkk : k ≤ k') (h : parsePre k f ts = .error e) :
    parsePre k' f ts = .error e := by
  induction k' with
  | zero => cases Nat.le_zero.mp hkk; exact h
  | succ n ih =>
    rcases Nat.eq_or_lt_of_le hkk with heq | hlt
    · rw [← heq]; exact h
    · simp only [parsePre, ih (Nat.lt_succ_iff.mp hlt), except_bind_err]

theorem parse_vais_err_of_pre (f : Nat) (ts : List Token) (e : ParseError)
    (h : parsePre 9 f ts = .error e) :
    parse_vais (f + 1) ts = .error e := by
  simp only [parsePre, except_bind_ok] at h
  cases h0 : parse_unit_block f ts with
  | error e0 =>
    rw [show blockStep 0 f ts = .error e0 by simp [blockStep, h0, Except.map]] at h
    simp only [except_bind_err] at h
    cases h
    simp [parse_vais, h0, except_bind_err]
  | ok p0 =>
    obtain ⟨ub, m1⟩ := p0
    rw [show blockStep 0 f ts = .ok m1 by simp [blockStep, h0, Except.map]] at h
    simp only [except_bind_ok] at h
    cases h1 : parse_meta_block f m1 with
    | error e0 =>
      rw [show blockStep 1 f m1 = .error e0 by simp [blockStep, h1, Except.map]] at h
      simp only [except_bind_err] at h
      cases h
      simp [parse_vais, h0, h1, except_bind_ok, except_bind_err]
    | ok p1 =>
      obtain ⟨mb, m2⟩ := p1
      rw [show blockStep 1 f m1 = .ok m2 by simp [blockStep, h1, Except.map]] at h
      simp only [except_bind_ok] at h
      cases h2 : parse_input_block f m2 with
      | error e0 =>
        rw [show blockStep 2 f m2 = .error e0 by simp [blockStep, h2, Except.map]] at h
        simp only [except_bind_err] at h
        cases h
        simp [parse_vais, h0, h1, h2, except_bind_ok, except_bind_err]
      | ok p2 =>
        obtain ⟨ib, m3⟩ := p2
        rw [show blockStep 2 f m2 = .ok m3 by simp [blockStep, h2, Except.map]] at h
        simp only [except_bind_ok] at h
        cases h3 : parse_output_block f m3 with
        | error e0 =>
          rw [show blockStep 3 f m3 = .error e0 by simp [blockStep, h3, Except.map]] at h
          simp only [except_bind_err] at h
          cases h
          simp [parse_vais, h0, h1, h2, h3, except_bind_ok, except_bind_err]
        | ok p3 =>
          obtain ⟨ob, m4⟩ := p3
          rw [show blockStep 3 f m3 = .ok m4 by simp [blockStep, h3, Except.map]] at h
          simp only [except_bind_ok] at h
          cases h4 : parse_intent_block f m4 with
          | error e0 =>
            rw [show blockStep 4 f m4 = .error e0 by simp [blockStep, h4, Except.map]] at h
            simp only [except_bind_err] at h
            cases h
            simp [parse_vais, h0, h1, h2, h3, h4, except_bind_ok, except_bind_err]
          | ok p4 =>
            obtain ⟨nb, m5⟩ := p4
            rw [show blockStep 4 f m4 = .ok m5 by simp [blockStep, h4, Except.map]] at h
            simp only [except_bind_ok] at h
            cases h5 : parse_constraint_block f m5 with
            | error e0 =>
              rw [show blockStep 5 f m5 = .error e0 by
                simp [blockStep, h5, Except.map]] at h
              simp only [except_bind_err] at h
              cases h
              simp [parse_vais, h0, h1, h2, h3, h4, h5, except_bind_ok, except_bind_err]
            | ok p5 =>
              obtain ⟨cb, m6⟩ := p5
              rw [show blockStep 5 f m5 = .ok m6 by simp [blockStep, h5, Except.map]] at h
              simp only [except_bind_ok] at h
              cases h6 : parse_flow_block f m6 with
              | error e0 =>
                rw [show blockStep 6 f m6 = .error e0 by
                  simp [blockStep, h6, Except.map]] at h
                simp only [except_bind_err] at h
                cases h
                simp [parse_vais, h0, h1, h2, h3, h4, h5, h6, except_bind_ok,
                  except_bind_err]
              | ok p6 =>
                obtain ⟨fb, m7⟩ := p6
                rw [show blockStep 6 f m6 = .ok m7 by simp [blockStep, h6, Except.map]] at h
                simp only [except_bind_ok] at h
                cases h7 : parse_execution_block f m7 with
                | error e0 =>
                  rw [show blockStep 7 f m7 = .error e0 by
                    simp [blockStep, h7, Except.map]] at h
                  simp only [except_bind_err] at h
                  cases h
                  simp [parse_vais, h0, h1, h2, h3, h4, h5, h6, h7, except_bind_ok,
                    except_bind_err]
                | ok p7 =>
                  obtain ⟨eb, m8⟩ := p7
                  rw [show blockStep 7 f m7 = .ok m8 by
                    simp [blockStep, h7, Except.map]] at h
                  simp only [except_bind_ok] at h
                  cases h8 : parse_verify_block f m8 with
                  | error e0 =>
                    rw [show blockStep 8 f m8 = .error e0 by
                      simp [blockStep, h8, Except.map]] at h
                    cases h
                    simp [parse_vais, h0, h1, h2, h3, h4, h5, h6, h7, h8,
                      except_bind_ok, except_bind_err]
                  | ok p8 =>
                    rw [show blockStep 8 f m8 = .ok p8.2 by
                      simp [blockStep, h8, Except.map]] at h
                    exact absurd h (by simp)

/-- Claim C9: `Parser.parse` accepts the nine blocks only in the fixed order
UNIT, META, INPUT, OUTPUT, INTENT, CONSTRAINT, FLOW, EXECUTION, VERIFY.
Whenever the first `k` blocks parse and the next token opens block `j ≠ k`
instead of block `k` (an out-of-order block), the whole parse fails, and the
structured error it returns is `expect`'s, carrying exactly the line, the
column and the offending token itself. -/
theorem C9_block_order (k j f : Nat) (ts rest : List Token)
    (hk : k < 9) (hj : j < 9) (hjk : j ≠ k)
    (hpre : parsePre k (f + 1) ts = .ok rest)
    (ht : (cur rest).type = openTT j) :
    parse_vais (f + 2) ts = .error (expectErr [openTT k] (cur rest)) ∧
    (expectErr [openTT k] (cur rest)).line = (cur rest).line ∧
    (expectErr [openTT k] (cur rest)).column = (cur rest).column ∧
    (expectErr [openTT k] (cur rest)).token = some (cur rest) := by
  have hne : (cur rest).type ≠ openTT k := by
    rw [ht]
    interval_cases j <;> interval_cases k <;> first | exact absurd rfl hjk | decide
  have hstep := blockStep_wrong_open k hk f rest hne
  have hpre9 : parsePre 9 (f + 1) ts = .error (expectErr [openTT k] (cur rest)) := by
    refine parsePre_err_mono (k + 1) 9 (f + 1) ts _ hk ?_
    simp only [parsePre, hpre, except_bind_ok, hstep]
  exact ⟨parse_vais_err_of_pre (f + 1) ts _ hpre9, rfl, rfl, rfl⟩

/-- A document fragment whose UNIT block is followed by an INPUT block where
META belongs. -/
def tsC9 : List Token :=
  [⟨.UNIT, "UNIT", 1, 1⟩, ⟨.FUNCTION, "FUNCTION", 1, 6⟩, ⟨.IDENTIFIER, "a", 1, 15⟩,
   ⟨.INPUT, "INPUT", 2, 1⟩, ⟨.EOF, "", 3, 1⟩]

def restC9 : List Token := [⟨.INPUT, "INPUT", 2, 1⟩, ⟨.EOF, "", 3, 1⟩]

theorem C9_witness :
    parse_vais 7 tsC9 = .error (expectErr [openTT 1] (cur restC9)) ∧
    (expectErr [openTT 1] (cur restC9)).line = (cur restC9).line ∧
    (expectErr [openTT 1] (cur restC9)).column = (cur restC9).column ∧
    (expectErr [openTT 1] (cur restC9)).token = some (cur restC9) :=
  C9_block_order 1 2 5 tsC9 restC9 (by decide) (by decide) (by decide) (by rfl) (by rfl)
theorem intent_inputs_loop_extends (f : Nat) :
    ∀ (acc : List Expression) (ts : List Token) (res : List Expression) (ts' : List Token),
    intent_inputs_loop f acc ts = .ok (res, ts') → ∃ ext, res = acc ++ ext := by
  induction f with
  | zero => intro acc ts res ts' h; exact absurd h (by simp [intent_inputs_loop])
  | succ g ih =>
    intro acc ts res ts' h
    simp only [intent_inputs_loop] at h
    split at h
    · split at h
      · simp only [Except.ok.injEq, Prod.mk.injEq] at h
        exact ⟨[], by simp [h.1.symm]⟩
      · rcases except_bind_inv h with ⟨⟨e, ts2⟩, -, h⟩
        rcases ih (acc ++ [e]) ts2 res ts' h with ⟨ext, hext⟩
        exact ⟨[e] ++ ext, by rw [hext]; simp⟩
    · simp only [Except.ok.injEq, Prod.mk.injEq] at h
      exact ⟨[], by simp [h.1.symm]⟩

theorem intent_outputs_loop_extends (f : Nat) :
    ∀ (acc : List Expression) (ts : List Token) (res : List Expression) (ts' : List Token),
    intent_outputs_loop f acc ts = .ok (res, ts') → ∃ ext, res = acc ++ ext := by
  induction f with
  | zero => intro acc ts res ts' h; exact absurd h (by simp [intent_outputs_loop])
  | succ g ih =>
    intro acc ts res ts' h
    simp only [intent_outputs_loop] at h
    split at h
    · rcases except_bind_inv h with ⟨⟨e, ts2⟩, -, h⟩
      rcases ih (acc ++ [e]) ts2 res ts' h with ⟨ext, hext⟩
      exact ⟨[e] ++ ext, by rw [hext]; simp⟩
    · simp only [Except.ok.injEq, Prod.mk.injEq] at h
      exact ⟨[], by simp [h.1.symm]⟩

theorem parse_intent_block_validates (f : Nat) (ts : List Token) (nb : IntentBlock)
    (ts' : List Token) (h : parse_intent_block f ts = .ok (nb, ts')) :
    validate_intent (some nb) = [] := by
  cases f with
  | zero => exact absurd h (by simp [parse_intent_block])
  | succ g =>
    simp only [parse_intent_block] at h
    rcases except_bind_inv h with ⟨⟨tok, ts1⟩, -, h⟩
    rcases except_bind_inv h with ⟨⟨gk, ts2⟩, -, h⟩
    rcases except_bind_inv h with ⟨⟨gT, ts3⟩, -, h⟩
    rcases except_bind_inv h with ⟨⟨cl, ts4⟩, -, h⟩
    rcases except_bind_inv h with ⟨⟨i0, ts5⟩, -, h⟩
    rcases except_bind_inv h with ⟨⟨ins, ts6⟩, hins, h⟩
    rcases except_bind_inv h with ⟨⟨ar, ts7⟩, -, h⟩
    rcases except_bind_inv h with ⟨⟨o0, ts8⟩, -, h⟩
    rcases except_bind_inv h with ⟨⟨outs, ts9⟩, houts, h⟩
    rcases intent_inputs_loop_extends g [i0] ts5 ins ts6 hins with ⟨ext1, hext1⟩
    rcases intent_outputs_loop_extends g [o0] ts8 outs ts9 houts with ⟨ext2, hext2⟩
    split at h
    all_goals repeat (obtain ⟨p, -, h⟩ := except_bind_inv h)
    all_goals try split at h
    all_goals repeat (obtain ⟨p, -, h⟩ := except_bind_inv h)
    all_goals try split at h
    all_goals repeat (obtain ⟨p, -, h⟩ := except_bind_inv h)
    all_goals
      simp only [Except.ok.injEq, Prod.mk.injEq] at h
    all_goals obtain ⟨hnb, -⟩ := h
    all_goals rw [← hnb]
    all_goals simp [validate_intent, hext1, hext2]

/-- The diagnostics a parser-produced tree can never trigger: the nine
missing-block codes and the two empty-goal codes. -/
def badCodes : List String :=
  ["E1001", "E1002", "E1003", "E1004", "E1005", "E1006", "E1007", "E1008", "E1009",
   "E3002", "E3003"]

/-- Claim C10: whenever `Parser.parse` succeeds, the returned document root
has all nine block slots filled and an INTENT goal with at least one input
and one output expression, so `validate` on a parser-produced tree never
emits E1001..E1009, E3002 or E3003. -/
theorem C10_parsed_tree_validates (fuel : Nat) (ts rest : List Token) (u : VaisUnit)
    (h : parse_vais fuel ts = .ok (u, rest)) :
    (validate u).countP (fun e => decide (e.code ∈ badCodes)) = 0 := by
  cases fuel with
  | zero => exact absurd h (by simp [parse_vais])
  | succ f =>
    simp only [parse_vais] at h
    rcases except_bind_inv h with ⟨⟨ub, ts1⟩, h1, h⟩
    rcases except_bind_inv h with ⟨⟨mb, ts2⟩, h2, h⟩
    rcases except_bind_inv h with ⟨⟨ib, ts3⟩, h3, h⟩
    rcases except_bind_inv h with ⟨⟨ob, ts4⟩, h4, h⟩
    rcases except_bind_inv h with ⟨⟨nb, ts5⟩, h5, h⟩
    rcases except_bind_inv h with ⟨⟨cb, ts6⟩, h6, h⟩
    rcases except_bind_inv h with ⟨⟨fb, ts7⟩, h7, h⟩
    rcases except_bind_inv h with ⟨⟨eb, ts8⟩, h8, h⟩
    rcases except_bind_inv h with ⟨⟨vb, ts9⟩, h9, h⟩
    rcases except_bind_inv h with ⟨⟨endT, ts10⟩, h10, h⟩
    simp only [Except.ok.injEq, Prod.mk.injEq] at h
    obtain ⟨hu, -⟩ := h
    have hintent := parse_intent_block_validates f ts4 nb ts5 h5
    subst hu
    refine List.countP_eq_zero.2 (fun e he => ?_)
    rw [validate_eq_append2] at he
    simp only [List.mem_append] at he
    simp only [decide_eq_true_eq]
    rcases he with he | he | he
    · simp [validate_blocks_exist] at he
    · rcases collect_fields_codes _ e he with h' | h' | h' <;> rw [h'] <;> decide
    · simp only [validate_rest2] at he
      rcases List.mem_append.1 he with he | he
      rotate_left
      · rcases validate_cross_references_codes _ _ _ e he with h' | h' <;>
          rw [h'] <;> decide
      rcases List.mem_append.1 he with he | he
      rotate_left
      · rcases validate_verify_codes _ e he with h' | h' <;> rw [h'] <;> decide
      rcases List.mem_append.1 he with he | he
      rotate_left
      · rw [(validate_execution_codes _ e he).1]; decide
      rcases List.mem_append.1 he with he | he
      rotate_left
      · rcases validate_flow_codes _ _ _ _ e he with h' | h' | h' | h' | h' | h' <;>
          rw [h'] <;> decide
      rcases List.mem_append.1 he with he | he
      rotate_left
      · rcases validate_constraint_codes _ _ _ e he with h' | h' <;> rw [h'] <;> decide
      rcases List.mem_append.1 he with he | he
      rotate_left
      · rw [hintent] at he
        exact absurd he (by simp)
      rcases List.mem_append.1 he with he | he
      rotate_left
      · rw [validate_output_eq_nil] at he
        exact absurd he (by simp)
      rcases List.mem_append.1 he with he | he
      rotate_left
      · rw [validate_input_eq_nil] at he
        exact absurd he (by simp)
      rcases validate_meta_codes _ e he with h' | h' <;> rw [h'] <;> decide

/-- A complete minimal document as a token list: every block present in
order, empty where the grammar allows, with a one-input one-output GOAL. -/
def tsC10 : List Token :=
  [⟨.UNIT, "UNIT", 1, 1⟩, ⟨.FUNCTION, "FUNCTION", 1, 6⟩, ⟨.IDENTIFIER, "a", 1, 15⟩,
   ⟨.META, "META", 2, 1⟩, ⟨.ENDMETA, "ENDMETA", 2, 6⟩,
   ⟨.INPUT, "INPUT", 3, 1⟩, ⟨.ENDINPUT, "ENDINPUT", 3, 7⟩,
   ⟨.OUTPUT, "OUTPUT", 4, 1⟩, ⟨.ENDOUTPUT, "ENDOUTPUT", 4, 8⟩,
   ⟨.INTENT, "INTENT", 5, 1⟩, ⟨.GOAL, "GOAL", 5, 8⟩, ⟨.TRANSFORM, "TRANSFORM", 5, 13⟩,
   ⟨.COLON, ":", 5, 22⟩, ⟨.IDENTIFIER, "p", 5, 24⟩, ⟨.ARROW, "->", 5, 26⟩,
   ⟨.IDENTIFIER, "q", 5, 29⟩, ⟨.ENDINTENT, "ENDINTENT", 6, 1⟩,
   ⟨.CONSTRAINT, "CONSTRAINT", 7, 1⟩, ⟨.ENDCONSTRAINT, "ENDCONSTRAINT", 7, 12⟩,
   ⟨.FLOW, "FLOW", 8, 1⟩, ⟨.ENDFLOW, "ENDFLOW", 8, 6⟩,
   ⟨.EXECUTION, "EXECUTION", 9, 1⟩, ⟨.ENDEXECUTION, "ENDEXECUTION", 9, 11⟩,
   ⟨.VERIFY, "VERIFY", 10, 1⟩, ⟨.ENDVERIFY, "ENDVERIFY", 10, 8⟩,
   ⟨.END, "END", 11, 1⟩, ⟨.EOF, "", 12, 1⟩]

/-- The tree `parse_vais` produces on `tsC10`. -/
def uC10 : VaisUnit :=
  { unit := some ⟨.FUNCTION, ⟨["a"], 1, 15⟩, none, 1, 1⟩,
    meta := some ⟨[], 2, 1⟩,
    input := some ⟨[], 3, 1⟩,
    output := some ⟨[], 4, 1⟩,
    intent := some ⟨some .TRANSFORM,
      some ⟨[.Identifier "p" 5 24], [.Identifier "q" 5 29], 5, 13⟩,
      [], none, none, 5, 1⟩,
    constraint := some ⟨[], 7, 1⟩,
    flow := some ⟨[], [], 8, 1⟩,
    execution := some ⟨false, .ANY, .UNBOUNDED, none, .NONE, .NONE, none, 9, 1⟩,
    verify := some ⟨[], 10, 1⟩,
    line := 1, column := 1 }

theorem C10_witness :
    (validate uC10).countP (fun e => decide (e.code ∈ badCodes)) = 0 :=
  C10_parsed_tree_validates 30 tsC10 [⟨.EOF, "", 12, 1⟩] uC10 (by rfl)
/-- A token that anchors an expression's position: anything but the unary
operators (`not`, unary `-`) and an opening parenthesis, which
`parse_unary`/`parse_primary` step over. -/
def anchorTok (t : Token) : Bool :=
  !(t.type == TokenType.NOT || t.type == TokenType.MINUS || t.type == TokenType.LPAREN)

/-- The first position-anchoring token of the remaining input. -/
def firstAnchor (ts : List Token) : Option Token :=
  ts.find? anchorTok

theorem adv_fst (ts : List Token) : (adv ts).1 = cur ts := by
  cases ts with
  | nil => rfl
  | cons a tail => cases tail <;> rfl

theorem firstAnchor_skip (ts : List Token) (h : anchorTok (cur ts) = false) :
    firstAnchor ts = firstAnchor (adv ts).2 := by
  cases ts with
  | nil => rfl
  | cons a tail =>
    cases tail with
    | nil => rfl
    | cons b r =>
      show List.find? anchorTok (a :: b :: r) = List.find? anchorTok (b :: r)
      rw [List.find?_cons_of_neg]
      simp only [cur] at h
      simp [h]

theorem firstAnchor_of_cur (ts : List Token) (h1 : anchorTok (cur ts) = true)
    (h2 : (cur ts).type ≠ TokenType.EOF) : firstAnchor ts = some (cur ts) := by
  cases ts with
  | nil => exact absurd rfl h2
  | cons a tail =>
    show List.find? anchorTok (a :: tail) = some a
    rw [List.find?_cons_of_pos]
    exact h1

theorem expect_inv {tys : List TokenType} {ts : List Token} {tk : Token}
    {ts1 : List Token} (h : expect tys ts = .ok (tk, ts1)) :
    tk = cur ts ∧ ts1 = (adv ts).2 ∧ (cur ts).type ∈ tys := by
  simp only [expect] at h
  split at h
  · rename_i hmem
    have hadv : adv ts = (tk, ts1) := by simpa using h
    exact ⟨by rw [← adv_fst ts, hadv], by rw [hadv], hmem⟩
  · simp at h

theorem or_loop_pos (f : Nat) :
    ∀ (left : Expression) (ts : List Token) (e : Expression) (ts' : List Token),
    or_loop f left ts = .ok (e, ts') → e.line = left.line ∧ e.column = left.column := by
  induction f with
  | zero => intro left ts e ts' h; simp [or_loop] at h
  | succ g ih =>
    intro left ts e ts' h
    simp only [or_loop] at h
    split at h
    · rcases except_bind_inv h with ⟨⟨r, ts2⟩, -, h⟩
      have hres := ih _ _ _ _ h
      exact hres
    · simp only [Except.ok.injEq, Prod.mk.injEq] at h
      rw [← h.1]
      exact ⟨rfl, rfl⟩

theorem and_loop_pos (f : Nat) :
    ∀ (left : Expression) (ts : List Token) (e : Expression) (ts' : List Token),
    and_loop f left ts = .ok (e, ts') → e.line = left.line ∧ e.column = left.column := by
  induction f with
  | zero => intro left ts e ts' h; simp [and_loop] at h
  | succ g ih =>
    intro left ts e ts' h
    simp only [and_loop] at h
    split at h
    · rcases except_bind_inv h with ⟨⟨r, ts2⟩, -, h⟩
      have hres := ih _ _ _ _ h
      exact hres
    · simp only [Except.ok.injEq, Prod.mk.injEq] at h
      rw [← h.1]
      exact ⟨rfl, rfl⟩

theorem cmp_loop_pos (f : Nat) :
    ∀ (left : Expression) (ts : List Token) (e : Expression) (ts' : List Token),
    cmp_loop f left ts = .ok (e, ts') → e.line = left.line ∧ e.column = left.column := by
  induction f with
  | zero => intro left ts e ts' h; simp [cmp_loop] at h
  | succ g ih =>
    intro left ts e ts' h
    simp only [cmp_loop] at h
    split at h
    · rcases except_bind_inv h with ⟨⟨r, ts2⟩, -, h⟩
      have hres := ih _ _ _ _ h
      exact hres
    · simp only [Except.ok.injEq, Prod.mk.injEq] at h
      rw [← h.1]
      exact ⟨rfl, rfl⟩

theorem add_loop_pos (f : Nat) :
    ∀ (left : Expression) (ts : List Token) (e : Expression) (ts' : List Token),
    add_loop f left ts = .ok (e, ts') → e.line = left.line ∧ e.column = left.column := by
  induction f with
  | zero => intro left ts e ts' h; simp [add_loop] at h
  | succ g ih =>
    intro left ts e ts' h
    simp only [add_loop] at h
    split at h
    · rcases except_bind_inv h with ⟨⟨r, ts2⟩, -, h⟩
      have hres := ih _ _ _ _ h
      exact hres
    · simp only [Except.ok.injEq, Prod.mk.injEq] at h
      rw [← h.1]
      exact ⟨rfl, rfl⟩

theorem mul_loop_pos (f : Nat) :
    ∀ (left : Expression) (ts : List Token) (e : Expression) (ts' : List Token),
    mul_loop f left ts = .ok (e, ts') → e.line = left.line ∧ e.column = left.column := by
  induction f with
  | zero => intro left ts e ts' h; simp [mul_loop] at h
  | succ g ih =>
    intro left ts e ts' h
    simp only [mul_loop] at h
    split at h
    · rcases except_bind_inv h with ⟨⟨r, ts2⟩, -, h⟩
      have hres := ih _ _ _ _ h
      exact hres
    · simp only [Except.ok.injEq, Prod.mk.injEq] at h
      rw [← h.1]
      exact ⟨rfl, rfl⟩

theorem fa_foldl_pos (L C : Nat) (parts : List String) :
    ∀ acc : Expression, acc.line = L → acc.column = C →
    ((parts.foldl (fun acc part => .FieldAccess acc part L C) acc : Expression).line = L ∧
     (parts.foldl (fun acc part => .FieldAccess acc part L C) acc : Expression).column = C) := by
  induction parts with
  | nil => intro acc h1 h2; exact ⟨h1, h2⟩
  | cons p rest ih =>
    intro acc h1 h2
    exact ih (.FieldAccess acc p L C) rfl rfl

theorem parse_field_access_anchor (f : Nat) (ts : List Token) (e : Expression)
    (ts' : List Token) (h : parse_field_access f ts = .ok (e, ts')) :
    ∃ t, firstAnchor ts = some t ∧ e.line = t.line ∧ e.column = t.column := by
  cases f with
  | zero => simp [parse_field_access] at h
  | succ g =>
    simp only [parse_field_access] at h
    rcases except_bind_inv h with ⟨⟨idT, ts1⟩, hid, h⟩
    rcases except_bind_inv h with ⟨⟨parts, ts2⟩, -, h⟩
    obtain ⟨hcur, -, hty⟩ := expect_inv hid
    simp only [List.mem_singleton] at hty
    refine ⟨cur ts, firstAnchor_of_cur ts (by simp [anchorTok, hty])
      (by rw [hty]; decide), ?_⟩
    split at h
    · simp at h
    · simp only [Except.ok.injEq, Prod.mk.injEq] at h
      obtain ⟨he, -⟩ := h
      rw [← he, ← hcur]
      exact fa_foldl_pos idT.line idT.column _ _ rfl rfl
/-- The position invariant: the node sits on the first anchoring token of
the input it was parsed from. -/
def AnchorP (ts : List Token) (e : Expression) : Prop :=
  ∃ t, firstAnchor ts = some t ∧ e.line = t.line ∧ e.column = t.column

theorem anchor_all (f : Nat) :
    (∀ ts e ts', parse_expression f ts = .ok (e, ts') → AnchorP ts e) ∧
    (∀ ts e ts', parse_or_expression f ts = .ok (e, ts') → AnchorP ts e) ∧
    (∀ ts e ts', parse_and_expression f ts = .ok (e, ts') → AnchorP ts e) ∧
    (∀ ts e ts', parse_comparison f ts = .ok (e, ts') → AnchorP ts e) ∧
    (∀ ts e ts', parse_additive f ts = .ok (e, ts') → AnchorP ts e) ∧
    (∀ ts e ts', parse_multiplicative f ts = .ok (e, ts') → AnchorP ts e) ∧
    (∀ ts e ts', parse_unary f ts = .ok (e, ts') → AnchorP ts e) ∧
    (∀ ts e ts', parse_primary f ts = .ok (e, ts') → AnchorP ts e) := by
  induction f with
  | zero =>
    refine ⟨?_, ?_, ?_, ?_, ?_, ?_, ?_, ?_⟩ <;>
      · intro ts e ts' h
        simp [parse_expression, parse_or_expression, parse_and_expression,
          parse_comparison, parse_additive, parse_multiplicative, parse_unary,
          parse_primary] at h
  | succ g ih =>
    obtain ⟨ihe, iho, iha, ihc, ihd, ihm, ihu, ihp⟩ := ih
    refine ⟨?_, ?_, ?_, ?_, ?_, ?_, ?_, ?_⟩
    · intro ts e ts' h
      simp only [parse_expression] at h
      exact iho _ _ _ h
    · intro ts e ts' h
      simp only [parse_or_expression] at h
      rcases except_bind_inv h with ⟨⟨l, ts1⟩, hl, h⟩
      obtain ⟨h1, h2⟩ := or_loop_pos g l ts1 e ts' h
      obtain ⟨t, ht, h3, h4⟩ := iha _ _ _ hl
      exact ⟨t, ht, by rw [h1, h3], by rw [h2, h4]⟩
    · intro ts e ts' h
      simp only [parse_and_expression] at h
      rcases except_bind_inv h with ⟨⟨l, ts1⟩, hl, h⟩
      obtain ⟨h1, h2⟩ := and_loop_pos g l ts1 e ts' h
      obtain ⟨t, ht, h3, h4⟩ := ihc _ _ _ hl
      exact ⟨t, ht, by rw [h1, h3], by rw [h2, h4]⟩
    · intro ts e ts' h
      simp only [parse_comparison] at h
      rcases except_bind_inv h with ⟨⟨l, ts1⟩, hl, h⟩
      obtain ⟨h1, h2⟩ := cmp_loop_pos g l ts1 e ts' h
      obtain ⟨t, ht, h3, h4⟩ := ihd _ _ _ hl
      exact ⟨t, ht, by rw [h1, h3], by rw [h2, h4]⟩
    · intro ts e ts' h
      simp only [parse_additive] at h
      rcases except_bind_inv h with ⟨⟨l, ts1⟩, hl, h⟩
      obtain ⟨h1, h2⟩ := add_loop_pos g l ts1 e ts' h
      obtain ⟨t, ht, h3, h4⟩ := ihm _ _ _ hl
      exact ⟨t, ht, by rw [h1, h3], by rw [h2, h4]⟩
    · intro ts e ts' h
      simp only [parse_multiplicative] at h
      rcases except_bind_inv h with ⟨⟨l, ts1⟩, hl, h⟩
      obtain ⟨h1, h2⟩ := mul_loop_pos g l ts1 e ts' h
      obtain ⟨t, ht, h3, h4⟩ := ihu _ _ _ hl
      exact ⟨t, ht, by rw [h1, h3], by rw [h2, h4]⟩
    · intro ts e ts' h
      simp only [parse_unary] at h
      split at h
      · rename_i hcond
        rcases except_bind_inv h with ⟨⟨operand, ts2⟩, hop, h⟩
        simp only [Except.ok.injEq, Prod.mk.injEq] at h
        obtain ⟨he, -⟩ := h
        obtain ⟨t, ht, h1, h2⟩ := ihu _ _ _ hop
        refine ⟨t, ?_, ?_, ?_⟩
        · rw [firstAnchor_skip ts
            (by rcases hcond with hc | hc <;> simp [anchorTok, hc])]
          exact ht
        · rw [← he]; exact h1
        · rw [← he]; exact h2
      · exact ihp _ _ _ h
    · intro ts e ts' h
      unfold parse_primary at h
      dsimp only at h
      by_cases hlp : (cur ts).type = TokenType.LPAREN
      · -- LPAREN: the inner expression's node is returned unchanged
        rw [if_pos hlp] at h
        rcases except_bind_inv h with ⟨⟨einner, ts2⟩, hin, h⟩
        rcases except_bind_inv h with ⟨⟨rp, ts3⟩, -, h⟩
        simp only [Except.ok.injEq, Prod.mk.injEq] at h
        obtain ⟨he, -⟩ := h
        obtain ⟨t, ht, h1, h2⟩ := ihe _ _ _ hin
        refine ⟨t, ?_, by rw [← he]; exact h1, by rw [← he]; exact h2⟩
        rw [firstAnchor_skip ts (by simp [anchorTok, hlp])]
        exact ht
      rw [if_neg hlp] at h
      by_cases hty1 : (cur ts).type = TokenType.NUMBER
      · rw [if_pos hty1] at h
        split at h
        · simp only [Except.ok.injEq, Prod.mk.injEq] at h
          obtain ⟨he, -⟩ := h
          exact ⟨cur ts, firstAnchor_of_cur ts (by simp [anchorTok, hty1])
            (by rw [hty1]; decide), by rw [← he]; rfl, by rw [← he]; rfl⟩
        · simp at h
      rw [if_neg hty1] at h
      by_cases hty2 : (cur ts).type = TokenType.FLOAT
      · rw [if_pos hty2] at h
        simp only [Except.ok.injEq, Prod.mk.injEq] at h
        obtain ⟨he, -⟩ := h
        exact ⟨cur ts, firstAnchor_of_cur ts (by simp [anchorTok, hty2])
          (by rw [hty2]; decide), by rw [← he]; rfl, by rw [← he]; rfl⟩
      rw [if_neg hty2] at h
      by_cases hty3 : (cur ts).type = TokenType.STRING_LITERAL
      · rw [if_pos hty3] at h
        simp only [Except.ok.injEq, Prod.mk.injEq] at h
        obtain ⟨he, -⟩ := h
        exact ⟨cur ts, firstAnchor_of_cur ts (by simp [anchorTok, hty3])
          (by rw [hty3]; decide), by rw [← he]; rfl, by rw [← he]; rfl⟩
      rw [if_neg hty3] at h
      by_cases hty4 : (cur ts).type = TokenType.BOOLEAN
      · rw [if_pos hty4] at h
        simp only [Except.ok.injEq, Prod.mk.injEq] at h
        obtain ⟨he, -⟩ := h
        exact ⟨cur ts, firstAnchor_of_cur ts (by simp [anchorTok, hty4])
          (by rw [hty4]; decide), by rw [← he]; rfl, by rw [← he]; rfl⟩
      rw [if_neg hty4] at h
      by_cases hty5 : (cur ts).type = TokenType.REGEX
      · rw [if_pos hty5] at h
        simp only [Except.ok.injEq, Prod.mk.injEq] at h
        obtain ⟨he, -⟩ := h
        exact ⟨cur ts, firstAnchor_of_cur ts (by simp [anchorTok, hty5])
          (by rw [hty5]; decide), by rw [← he]; rfl, by rw [← he]; rfl⟩
      rw [if_neg hty5] at h
      by_cases hty6 : (cur ts).type = TokenType.VOID
      · rw [if_pos hty6] at h
        simp only [Except.ok.injEq, Prod.mk.injEq] at h
        obtain ⟨he, -⟩ := h
        exact ⟨cur ts, firstAnchor_of_cur ts (by simp [anchorTok, hty6])
          (by rw [hty6]; decide), by rw [← he]; rfl, by rw [← he]; rfl⟩
      rw [if_neg hty6] at h
      by_cases hty7 : (cur ts).type = TokenType.EXTERNAL_REF
      · rw [if_pos hty7] at h
        simp only [Except.ok.injEq, Prod.mk.injEq] at h
        obtain ⟨he, -⟩ := h
        exact ⟨cur ts, firstAnchor_of_cur ts (by simp [anchorTok, hty7])
          (by rw [hty7]; decide), by rw [← he]; rfl, by rw [← he]; rfl⟩
      rw [if_neg hty7] at h
      by_cases hbi : (cur ts).type ∈ builtin_funcs
      · -- builtin function name
        rw [if_pos hbi] at h
        have hanchor : anchorTok (cur ts) = true := by
          simp only [builtin_funcs, List.mem_cons, List.not_mem_nil, or_false] at hbi
          rcases hbi with hb | hb | hb | hb | hb | hb <;> simp [anchorTok, hb]
        have heof : (cur ts).type ≠ TokenType.EOF := by
          simp only [builtin_funcs, List.mem_cons, List.not_mem_nil, or_false] at hbi
          rcases hbi with hb | hb | hb | hb | hb | hb <;> rw [hb] <;> decide
        by_cases hbl : (cur (adv ts).2).type = TokenType.LPAREN
        · rw [if_pos hbl] at h
          by_cases hbr : (cur (adv (adv ts).2).2).type = TokenType.RPAREN
          · rw [if_pos hbr] at h
            rcases except_bind_inv h with ⟨⟨rp, ts3⟩, -, h⟩
            simp only [Except.ok.injEq, Prod.mk.injEq] at h
            obtain ⟨he, -⟩ := h
            exact ⟨cur ts, firstAnchor_of_cur ts hanchor heof,
              by rw [← he]; rfl, by rw [← he]; rfl⟩
          · rw [if_neg hbr] at h
            rcases except_bind_inv h with ⟨⟨a0, ts3⟩, -, h⟩
            rcases except_bind_inv h with ⟨⟨args, ts4⟩, -, h⟩
            rcases except_bind_inv h with ⟨⟨rp, ts5⟩, -, h⟩
            simp only [Except.ok.injEq, Prod.mk.injEq] at h
            obtain ⟨he, -⟩ := h
            exact ⟨cur ts, firstAnchor_of_cur ts hanchor heof,
              by rw [← he]; rfl, by rw [← he]; rfl⟩
        · rw [if_neg hbl] at h
          simp only [Except.ok.injEq, Prod.mk.injEq] at h
          obtain ⟨he, -⟩ := h
          refine ⟨cur ts, firstAnchor_of_cur ts hanchor heof, ?_, ?_⟩ <;>
            rw [← he, ← adv_fst ts] <;> rfl
      rw [if_neg hbi] at h
      by_cases hid : (cur ts).type = TokenType.IDENTIFIER
      · -- plain identifier: field access
        rw [if_pos hid] at h
        exact parse_field_access_anchor g ts e ts' h
      rw [if_neg hid] at h
      by_cases hio : (cur ts).type = TokenType.INPUT ∨ (cur ts).type = TokenType.OUTPUT
      · -- INPUT / OUTPUT
        rw [if_pos hio] at h
        have hanchor : anchorTok (cur ts) = true := by
          rcases hio with hb | hb <;> simp [anchorTok, hb]
        have heof : (cur ts).type ≠ TokenType.EOF := by
          rcases hio with hb | hb <;> rw [hb] <;> decide
        by_cases hdot : (cur (adv ts).2).type = TokenType.DOT
        · rw [if_pos hdot] at h
          rcases except_bind_inv h with ⟨⟨fT, ts3⟩, -, h⟩
          simp only [Except.ok.injEq, Prod.mk.injEq] at h
          obtain ⟨he, -⟩ := h
          exact ⟨cur ts, firstAnchor_of_cur ts hanchor heof,
            by rw [← he]; rfl, by rw [← he]; rfl⟩
        · rw [if_neg hdot] at h
          simp only [Except.ok.injEq, Prod.mk.injEq] at h
          obtain ⟨he, -⟩ := h
          refine ⟨cur ts, firstAnchor_of_cur ts hanchor heof, ?_, ?_⟩ <;>
            rw [← he, ← adv_fst ts] <;> rfl
      rw [if_neg hio] at h
      simp at h

/-- Claim C5, amended: every expression node the parser returns carries the
line and column of the first token of its source span that is neither a
unary operator (`not` / unary `-`) nor an opening parenthesis: a `UnaryOp`
sits on its operand's position, a parenthesized sub-expression is returned
as the inner node, and every other node sits on its leftmost token. -/
theorem C5_amended_positions (f : Nat) (ts : List Token) (e : Expression)
    (ts' : List Token) (h : parse_expression f ts = .ok (e, ts')) :
    ∃ t, firstAnchor ts = some t ∧ e.line = t.line ∧ e.column = t.column :=
  (anchor_all f).1 ts e ts' h

/-- Tokens of `not ( - a + b )`: the position anchor is the identifier `a`
at line 1, column 7, two skippable tokens and one parenthesis in. -/
def tsC5 : List Token :=
  [⟨.NOT, "not", 1, 1⟩, ⟨.LPAREN, "(", 1, 5⟩, ⟨.MINUS, "-", 1, 6⟩,
   ⟨.IDENTIFIER, "a", 1, 7⟩, ⟨.PLUS, "+", 1, 9⟩, ⟨.IDENTIFIER, "b", 1, 11⟩,
   ⟨.RPAREN, ")", 1, 12⟩, ⟨.EOF, "", 1, 13⟩]

/-- The tree parsed from `tsC5`: the whole `not` node carries position
(1, 7), its operand's anchor. -/
def eC5 : Expression :=
  .UnaryOp "not"
    (.BinaryOp (.UnaryOp "-" (.Identifier "a" 1 7) 1 7) "+" (.Identifier "b" 1 11) 1 7)
    1 7

theorem C5_witness :
    ∃ t, firstAnchor tsC5 = some t ∧ eC5.line = t.line ∧ eC5.column = t.column :=
  C5_amended_positions 20 tsC5 eC5 [⟨.EOF, "", 1, 13⟩] (by rfl)
